import Mathlib

/-!
Verification development for the MapAI mesh-decomposition pipeline.

The TypeScript sources are shallowly embedded over exact rational
arithmetic (`ℚ` for JavaScript numbers, `ℤ` for values that are integers
by construction, `String` for JavaScript strings).  `Math.floor` becomes
`Int.floor`, `Math.ceil` becomes `Int.ceil`, and JavaScript template
strings over numbers become `toString` on the integer values.
-/

set_option allowUnsafeReducibility true in
attribute [semireducible] Rat.add Rat.mul Rat.sub Rat.div Rat.inv Rat.ofScientific

namespace MapAI

/-- JS `s.padStart(2, "0")`: pad a string on the left with `'0'` up to
length 2 (used by `meshCode250` for the primary mesh indices). -/
def padStart2 (str : String) : String :=
  if 2 ≤ str.length then str else ⟨List.replicate (2 - str.length) '0'⟩ ++ str

namespace JisMesh

/-- `const p = Math.floor(lat * 1.5)` from `meshCode250` (backend `jisMesh.ts`). -/
def p (lat : ℚ) : ℤ := ⌊lat * 1.5⌋

/-- `const q = Math.floor(lon) - 100`. -/
def q (lon : ℚ) : ℤ := ⌊lon⌋ - 100

/-- `const latMinutes = lat * 60`. -/
def latMinutes (lat : ℚ) : ℚ := lat * 60

/-- `const lonMinutes = lon * 60`. -/
def lonMinutes (lon : ℚ) : ℚ := lon * 60

/-- `const r = Math.floor((latMinutes - p * 40) / 5)`. -/
def r (lat : ℚ) : ℤ := ⌊(latMinutes lat - p lat * 40) / 5⌋

/-- `const s = Math.floor((lonMinutes - Math.floor(lon) * 60) / 7.5)`. -/
def s (lon : ℚ) : ℤ := ⌊(lonMinutes lon - ⌊lon⌋ * 60) / 7.5⌋

/-- `const t = Math.floor(((latMinutes - p * 40 - r * 5) * 60) / 30)`. -/
def t (lat : ℚ) : ℤ := ⌊(latMinutes lat - p lat * 40 - r lat * 5) * 60 / 30⌋

/-- `const u = Math.floor(((lonMinutes - Math.floor(lon) * 60 - s * 7.5) * 60) / 45)`. -/
def u (lon : ℚ) : ℤ := ⌊(lonMinutes lon - ⌊lon⌋ * 60 - s lon * 7.5) * 60 / 45⌋

/-- `const latSeconds = lat * 3600`. -/
def latSeconds (lat : ℚ) : ℚ := lat * 3600

/-- `const lonSeconds = lon * 3600`. -/
def lonSeconds (lon : ℚ) : ℚ := lon * 3600

/-- `const latBaseSeconds = p * 2400 + r * 300 + t * 30`. -/
def latBaseSeconds (lat : ℚ) : ℚ := p lat * 2400 + r lat * 300 + t lat * 30

/-- `const lonBaseSeconds = (q + 100) * 3600 + s * 450 + u * 45`. -/
def lonBaseSeconds (lon : ℚ) : ℚ := (q lon + 100) * 3600 + s lon * 450 + u lon * 45

/-- `const latSecIn1km = Math.min(29.999999, Math.max(0, latSeconds - latBaseSeconds))`. -/
def latSecIn1km (lat : ℚ) : ℚ :=
  min 29.999999 (max 0 (latSeconds lat - latBaseSeconds lat))

/-- `const lonSecIn1km = Math.min(44.999999, Math.max(0, lonSeconds - lonBaseSeconds))`. -/
def lonSecIn1km (lon : ℚ) : ℚ :=
  min 44.999999 (max 0 (lonSeconds lon - lonBaseSeconds lon))

/-- `const latHalf = Math.floor(latSecIn1km / 15)`. -/
def latHalf (lat : ℚ) : ℤ := ⌊latSecIn1km lat / 15⌋

/-- `const lonHalf = Math.floor(lonSecIn1km / 22.5)`. -/
def lonHalf (lon : ℚ) : ℤ := ⌊lonSecIn1km lon / 22.5⌋

/-- `const halfDigit = latHalf * 2 + lonHalf + 1`. -/
def halfDigit (lat lon : ℚ) : ℤ := latHalf lat * 2 + lonHalf lon + 1

/-- `const latSecInHalf = latSecIn1km - latHalf * 15`. -/
def latSecInHalf (lat : ℚ) : ℚ := latSecIn1km lat - latHalf lat * 15

/-- `const lonSecInHalf = lonSecIn1km - lonHalf * 22.5`. -/
def lonSecInHalf (lon : ℚ) : ℚ := lonSecIn1km lon - lonHalf lon * 22.5

/-- `const latQuarter = Math.floor(latSecInHalf / 7.5)`. -/
def latQuarter (lat : ℚ) : ℤ := ⌊latSecInHalf lat / 7.5⌋

/-- `const lonQuarter = Math.floor(lonSecInHalf / 11.25)`. -/
def lonQuarter (lon : ℚ) : ℤ := ⌊lonSecInHalf lon / 11.25⌋

/-- `const quarterDigit = latQuarter * 2 + lonQuarter + 1`. -/
def quarterDigit (lat lon : ℚ) : ℤ := latQuarter lat * 2 + lonQuarter lon + 1

end JisMesh

/-- `meshCode250(lat, lon)` from the backend `src/utils/jisMesh.ts`: the
10-character JIS quarter-mesh (250 m) identifier, assembled exactly as the
source template string
`` `${String(p).padStart(2,"0")}${String(q).padStart(2,"0")}${r}${s}${t}${u}${halfDigit}${quarterDigit}` ``. -/
def meshCode250 (lat lon : ℚ) : String :=
  padStart2 (toString (JisMesh.p lat)) ++ padStart2 (toString (JisMesh.q lon)) ++
    toString (JisMesh.r lat) ++ toString (JisMesh.s lon) ++
    toString (JisMesh.t lat) ++ toString (JisMesh.u lon) ++
    toString (JisMesh.halfDigit lat lon) ++ toString (JisMesh.quarterDigit lat lon)

/-- The frontend copy of `meshCode250` from `MapView.tsx`, translated
independently from its own source text (a byte-for-byte copy of the backend
function in the repository), with the source's `const` chain rendered as
`let` bindings. -/
def meshCode250Frontend (lat lon : ℚ) : String :=
  let p : ℤ := ⌊lat * 1.5⌋
  let q : ℤ := ⌊lon⌋ - 100
  let latMinutes : ℚ := lat * 60
  let lonMinutes : ℚ := lon * 60
  let r : ℤ := ⌊(latMinutes - p * 40) / 5⌋
  let s : ℤ := ⌊(lonMinutes - ⌊lon⌋ * 60) / 7.5⌋
  let t : ℤ := ⌊(latMinutes - p * 40 - r * 5) * 60 / 30⌋
  let u : ℤ := ⌊(lonMinutes - ⌊lon⌋ * 60 - s * 7.5) * 60 / 45⌋
  let latSeconds : ℚ := lat * 3600
  let lonSeconds : ℚ := lon * 3600
  let latBaseSeconds : ℚ := p * 2400 + r * 300 + t * 30
  let lonBaseSeconds : ℚ := (q + 100) * 3600 + s * 450 + u * 45
  let latSecIn1km : ℚ := min 29.999999 (max 0 (latSeconds - latBaseSeconds))
  let lonSecIn1km : ℚ := min 44.999999 (max 0 (lonSeconds - lonBaseSeconds))
  let latHalf : ℤ := ⌊latSecIn1km / 15⌋
  let lonHalf : ℤ := ⌊lonSecIn1km / 22.5⌋
  let halfDigit : ℤ := latHalf * 2 + lonHalf + 1
  let latSecInHalf : ℚ := latSecIn1km - latHalf * 15
  let lonSecInHalf : ℚ := lonSecIn1km - lonHalf * 22.5
  let latQuarter : ℤ := ⌊latSecInHalf / 7.5⌋
  let lonQuarter : ℤ := ⌊lonSecInHalf / 11.25⌋
  let quarterDigit : ℤ := latQuarter * 2 + lonQuarter + 1
  padStart2 (toString p) ++ padStart2 (toString q) ++
    toString r ++ toString s ++ toString t ++ toString u ++
    toString halfDigit ++ toString quarterDigit

/-- The half-open 250 m grid cell containing a coordinate: the integer index
pair of the cell in the tiler's fixed grid (7.5 arc-seconds of latitude by
11.25 arc-seconds of longitude, lower/left inclusive), i.e. the unique
`(i, j)` with `i * 7.5 ≤ lat * 3600 < (i + 1) * 7.5` and
`j * 11.25 ≤ lon * 3600 < (j + 1) * 11.25`. -/
def cell250 (lat lon : ℚ) : ℤ × ℤ := (⌊lat * 3600 / 7.5⌋, ⌊lon * 3600 / 11.25⌋)

/-- Bounding box `[minLon, minLat, maxLon, maxLat]` as used throughout the
sources (`type BBox = [number, number, number, number]`). -/
structure BBox where
  minLon : ℚ
  minLat : ℚ
  maxLon : ℚ
  maxLat : ℚ
deriving DecidableEq

/-- `const JAPAN_BOUNDS: BBox = [122.93, 24.04, 153.99, 45.95]`. -/
def JAPAN_BOUNDS : BBox := ⟨122.93, 24.04, 153.99, 45.95⟩

/-- `const MESH_LAT_STEP_SEC = 7.5`. -/
def MESH_LAT_STEP_SEC : ℚ := 7.5

/-- `const MESH_LON_STEP_SEC = 11.25`. -/
def MESH_LON_STEP_SEC : ℚ := 11.25

/-- `MeshCell` from `meshUtils.ts`: `{ meshId: string; bbox: BBox }`. -/
structure MeshCell where
  meshId : String
  bbox : BBox
deriving DecidableEq

/-- `intersectBbox(bbox, bounds)` from `meshUtils.ts`: clamp `bbox` to
`bounds`, returning `null` (here `none`) when the clamped box has no
positive width or height. -/
def intersectBbox (bbox bounds : BBox) : Option BBox :=
  let minLon := max bbox.minLon bounds.minLon
  let minLat := max bbox.minLat bounds.minLat
  let maxLon := min bbox.maxLon bounds.maxLon
  let maxLat := min bbox.maxLat bounds.maxLat
  if maxLon ≤ minLon ∨ maxLat ≤ minLat then none
  else some ⟨minLon, minLat, maxLon, maxLat⟩

/-- The loop body of `buildMeshCells`: the cell pushed for grid offsets
`(i, j)` (iteration counts of the two nested `for` loops) from the snapped
lower-left corner given in arc-seconds. -/
def tileCell (startLatSec startLonSec : ℚ) (i j : ℕ) : MeshCell :=
  let latSec := startLatSec + i * MESH_LAT_STEP_SEC
  let lonSec := startLonSec + j * MESH_LON_STEP_SEC
  { meshId := meshCode250 ((latSec + MESH_LAT_STEP_SEC / 2) / 3600)
      ((lonSec + MESH_LON_STEP_SEC / 2) / 3600)
    bbox := ⟨lonSec / 3600, latSec / 3600,
      (lonSec + MESH_LON_STEP_SEC) / 3600, (latSec + MESH_LAT_STEP_SEC) / 3600⟩ }

/-- `buildMeshCells(bbox)` from `meshUtils.ts`.  `maxCells` models the
`MAX_CELLS_PER_FEATURE` guard: the environment-configured copy defaults to
unbounded (`⊤`) and the `mapMeshes.ts` copy fixes it at `12000`, so it is
taken as an explicit parameter.  The source's `for` loops step `latSec`
(`lonSec`) from the snapped start by one step while `< end`; since the
snapped extent is an exact multiple of the step, the loops run exactly
`rows` (`cols`) times, which is modelled with `List.range`. -/
def buildMeshCells (maxCells : ℕ∞) (bbox : BBox) : List MeshCell :=
  match intersectBbox bbox JAPAN_BOUNDS with
  | none => []
  | some bounded =>
    let minLatSec := bounded.minLat * 3600
    let maxLatSec := bounded.maxLat * 3600
    let minLonSec := bounded.minLon * 3600
    let maxLonSec := bounded.maxLon * 3600
    let startLatSec := ⌊minLatSec / MESH_LAT_STEP_SEC⌋ * MESH_LAT_STEP_SEC
    let endLatSec := ⌈maxLatSec / MESH_LAT_STEP_SEC⌉ * MESH_LAT_STEP_SEC
    let startLonSec := ⌊minLonSec / MESH_LON_STEP_SEC⌋ * MESH_LON_STEP_SEC
    let endLonSec := ⌈maxLonSec / MESH_LON_STEP_SEC⌉ * MESH_LON_STEP_SEC
    let rows := ⌈(endLatSec - startLatSec) / MESH_LAT_STEP_SEC⌉
    let cols := ⌈(endLonSec - startLonSec) / MESH_LON_STEP_SEC⌉
    let total := rows * cols
    if maxCells < (total.toNat : ℕ∞) then []
    else
      (List.range rows.toNat).flatMap fun i =>
        (List.range cols.toNat).map fun j => tileCell startLatSec startLonSec i j

/-- The number of snapped grid rows of a (clamped) bbox:
`⌈maxLatSec / step⌉ - ⌊minLatSec / step⌋`, which `buildMeshCells` computes
as `Math.ceil((endLatSec - startLatSec) / MESH_LAT_STEP_SEC)`. -/
def gridRows (b : BBox) : ℤ :=
  ⌈b.maxLat * 3600 / MESH_LAT_STEP_SEC⌉ - ⌊b.minLat * 3600 / MESH_LAT_STEP_SEC⌋

/-- The number of snapped grid columns of a (clamped) bbox. -/
def gridCols (b : BBox) : ℤ :=
  ⌈b.maxLon * 3600 / MESH_LON_STEP_SEC⌉ - ⌊b.minLon * 3600 / MESH_LON_STEP_SEC⌋

/-- `rows * cols` of the snapped grid: the `total` that `buildMeshCells`
compares against the configured maximum cell count. -/
def snappedGridSize (b : BBox) : ℕ := (gridRows b * gridCols b).toNat

/-- A point `(lon, lat)` lies in a bbox (closed, as a set of points). -/
def inBbox (lon lat : ℚ) (b : BBox) : Prop :=
  b.minLon ≤ lon ∧ lon ≤ b.maxLon ∧ b.minLat ≤ lat ∧ lat ≤ b.maxLat

instance (lon lat : ℚ) (b : BBox) : Decidable (inBbox lon lat b) := by
  unfold inBbox
  infer_instance

/-- A point lies in the union of the bboxes of a list of cells. -/
def coveredBy (cells : List MeshCell) (lon lat : ℚ) : Prop :=
  ∃ c ∈ cells, inBbox lon lat c.bbox

instance (cells : List MeshCell) (lon lat : ℚ) : Decidable (coveredBy cells lon lat) := by
  unfold coveredBy
  infer_instance

/-- A point lies strictly inside a bbox (in its open interior). -/
def strictlyInside (lon lat : ℚ) (b : BBox) : Prop :=
  b.minLon < lon ∧ lon < b.maxLon ∧ b.minLat < lat ∧ lat < b.maxLat

/-- Abstract interface to the external turf.js geometry routines that
`meshUtils.ts` imports (`length`, `area`, `bboxClip`, `bbox`); `α` is the
type of geometry payloads.  A `none` result models a JavaScript `NaN`
(caught by the source's `Number.isNaN` checks) or a falsy clip result. -/
structure GeomOracle (α : Type) where
  lengthKm : α → Option ℚ
  areaSqM : α → Option ℚ
  clip : α → BBox → Option α
  bboxOf : α → BBox

/-- `LineMeshPiece` from `meshUtils.ts`. -/
structure LineMeshPiece (α : Type) where
  meshId : String
  geometry : α
  lengthM : ℚ
  lengthRatio : ℚ
deriving DecidableEq

/-- `PolygonMeshPiece` from `meshUtils.ts`. -/
structure PolygonMeshPiece (α : Type) where
  meshId : String
  geometry : α
  areaM2 : ℚ
  areaRatio : ℚ
deriving DecidableEq

/-- `buildLineMeshPieces(feature)` from `meshUtils.ts`, over the turf
oracle `G`.  The JavaScript falsiness test `!totalLengthKm` is the `= 0`
test (with `none` covering `NaN`). -/
def buildLineMeshPieces {α : Type} (maxCells : ℕ∞) (G : GeomOracle α) (feature : α) :
    List (LineMeshPiece α) :=
  match G.lengthKm feature with
  | none => []
  | some totalLengthKm =>
    if totalLengthKm = 0 then []
    else if (buildMeshCells maxCells (G.bboxOf feature)).isEmpty then []
    else
      (buildMeshCells maxCells (G.bboxOf feature)).filterMap fun cell =>
        match G.clip feature cell.bbox with
        | none => none
        | some clipped =>
          match G.lengthKm clipped with
          | none => none
          | some clippedLengthKm =>
            if clippedLengthKm = 0 then none
            else some
              { meshId := cell.meshId
                geometry := clipped
                lengthM := clippedLengthKm * 1000
                lengthRatio := min 1 (clippedLengthKm / totalLengthKm) }

/-- `buildPolygonMeshPieces(feature)` from `meshUtils.ts`, over the turf
oracle `G`. -/
def buildPolygonMeshPieces {α : Type} (maxCells : ℕ∞) (G : GeomOracle α) (feature : α) :
    List (PolygonMeshPiece α) :=
  match G.areaSqM feature with
  | none => []
  | some totalArea =>
    if totalArea = 0 then []
    else if (buildMeshCells maxCells (G.bboxOf feature)).isEmpty then []
    else
      (buildMeshCells maxCells (G.bboxOf feature)).filterMap fun cell =>
        match G.clip feature cell.bbox with
        | none => none
        | some clipped =>
          match G.areaSqM clipped with
          | none => none
          | some clippedArea =>
            if clippedArea = 0 then none
            else some
              { meshId := cell.meshId
                geometry := clipped
                areaM2 := clippedArea
                areaRatio := min 1 (clippedArea / totalArea) }

/-- A trivial geometry oracle over `Unit` payloads, used to instantiate the
clipper theorems at concrete inputs: every measure is `1`, clipping returns
the feature unchanged, and every feature's bbox is the given `b`. -/
def constOracle (b : BBox) : GeomOracle Unit :=
  { lengthKm := fun _ => some 1
    areaSqM := fun _ => some 1
    clip := fun f _ => some f
    bboxOf := fun _ => b }

/-- `const INSERT_CHUNK_SIZE = 500` (identical in `seed.ts` and
`mapMeshes.ts`). -/
def INSERT_CHUNK_SIZE : ℕ := 500

/-- `chunkArray(rows, size)` from `seed.ts` at the fixed size
`INSERT_CHUNK_SIZE`: the source loop
`for (let i = 0; i < rows.length; i += size) chunks.push(rows.slice(i, i + size))`
rendered as structural recursion on the remaining rows. -/
def chunkArray {β : Type} : List β → List (List β)
  | [] => []
  | x :: rest =>
    (x :: rest).take INSERT_CHUNK_SIZE :: chunkArray ((x :: rest).drop INSERT_CHUNK_SIZE)
termination_by rows => rows.length
decreasing_by simp [INSERT_CHUNK_SIZE]; omega

/-- The slicing loop of `insertInChunks` in `mapMeshes.ts`
(`for (let i = 0; i < rows.length; i += INSERT_CHUNK_SIZE)`), started at
index `i`; `rows.slice(i, i + INSERT_CHUNK_SIZE)` is
`(rows.drop i).take INSERT_CHUNK_SIZE`. -/
def sliceChunksTail {β : Type} (rows : List β) (i : ℕ) : List (List β) :=
  if i < rows.length then
    (rows.drop i).take INSERT_CHUNK_SIZE :: sliceChunksTail rows (i + INSERT_CHUNK_SIZE)
  else []
termination_by rows.length - i
decreasing_by simp [INSERT_CHUNK_SIZE]; omega

/-- The chunk list issued by `insertInChunks` in `mapMeshes.ts` (its loop
starts at index 0). -/
def insertInChunksStmts {β : Type} (rows : List β) : List (List β) :=
  sliceChunksTail rows 0

/-- A GeoJSON geometry as classified by `seed.ts` (`feature.geometry.type`
switch); `α` is the opaque payload of line/polygon geometries handled by
the turf oracle, and point coordinates are explicit. -/
inductive Geom (α : Type) where
  | point (lon lat : ℚ)
  | multiPoint (coords : List (ℚ × ℚ))
  | lineString (g : α)
  | multiLineString (g : α)
  | polygon (g : α)
  | multiPolygon (g : α)
  | other
deriving DecidableEq

/-- A GeoJSON feature as consumed by `seed.ts`: possibly missing geometry
and possibly null properties.  Properties are modelled as their JSON text
(`JSON.stringify` is then the identity). -/
structure Feat (α : Type) where
  geometry : Option (Geom α)
  properties : Option String
deriving DecidableEq

/-- `type GeometryKind = "point" | "line" | "polygon"` from `seed.ts`. -/
inductive GeometryKind where
  | point
  | line
  | polygon
deriving DecidableEq

/-- `LayerDefinition` from `seed.ts`. -/
structure LayerDefinition (α : Type) where
  layerName : String
  tableName : String
  geometryType : GeometryKind
  sourceFile : String
  meshMapTable : Option String
  features : List (Feat α)
deriving DecidableEq

/-- `normalizeProperties` from `seed.ts`: `null`/missing properties become
the empty object. -/
def normalizeProperties (properties : Option String) : String :=
  match properties with
  | none => "{}"
  | some props => props

/-- `isPointInJapan([lon, lat])` from `seed.ts`. -/
def isPointInJapan (lon lat : ℚ) : Bool :=
  decide (JAPAN_BOUNDS.minLon ≤ lon) && decide (lon ≤ JAPAN_BOUNDS.maxLon) &&
    decide (JAPAN_BOUNDS.minLat ≤ lat) && decide (lat ≤ JAPAN_BOUNDS.maxLat)

/-- `explodePointFeatures` from `seed.ts`: each kept point as its
coordinates plus normalized properties (skips missing geometry and
non-point geometry, spreads `MultiPoint`). -/
def explodePointFeatures {α : Type} (features : List (Feat α)) :
    List ((ℚ × ℚ) × String) :=
  features.flatMap fun feature =>
    match feature.geometry with
    | none => []
    | some (Geom.point lon lat) =>
      [((lon, lat), normalizeProperties feature.properties)]
    | some (Geom.multiPoint coords) =>
      coords.map fun c => (c, normalizeProperties feature.properties)
    | some _ => []

/-- `LineItem` from `seed.ts`. -/
structure LineItem (α : Type) where
  meshId : String
  geometry : Geom α
  properties : String
  pieces : List (LineMeshPiece α)
deriving DecidableEq

/-- `PolygonItem` from `seed.ts`. -/
structure PolygonItem (α : Type) where
  meshId : String
  geometry : Geom α
  properties : String
  pieces : List (PolygonMeshPiece α)
deriving DecidableEq

/-- `toLineItems` from `seed.ts`: a feature whose mesh pieces come back
empty (degenerate, outside the national bounds, or over the capacity
guard) is dropped entirely; otherwise its first piece's mesh id becomes
the item's primary `meshId`.  The source calls `buildLineMeshPieces` on a
bare feature with empty properties, i.e. on the geometry payload alone. -/
def toLineItems {α : Type} (maxCells : ℕ∞) (G : GeomOracle α)
    (features : List (Feat α)) : List (LineItem α) :=
  features.flatMap fun feature =>
    match feature.geometry with
    | none => []
    | some (Geom.lineString g) =>
      match buildLineMeshPieces maxCells G g with
      | [] => []
      | piece0 :: rest =>
        [{ meshId := piece0.meshId, geometry := Geom.lineString g,
           properties := normalizeProperties feature.properties,
           pieces := piece0 :: rest }]
    | some (Geom.multiLineString g) =>
      match buildLineMeshPieces maxCells G g with
      | [] => []
      | piece0 :: rest =>
        [{ meshId := piece0.meshId, geometry := Geom.multiLineString g,
           properties := normalizeProperties feature.properties,
           pieces := piece0 :: rest }]
    | some _ => []

/-- `toPolygonItems` from `seed.ts`. -/
def toPolygonItems {α : Type} (maxCells : ℕ∞) (G : GeomOracle α)
    (features : List (Feat α)) : List (PolygonItem α) :=
  features.flatMap fun feature =>
    match feature.geometry with
    | none => []
    | some (Geom.polygon g) =>
      match buildPolygonMeshPieces maxCells G g with
      | [] => []
      | piece0 :: rest =>
        [{ meshId := piece0.meshId, geometry := Geom.polygon g,
           properties := normalizeProperties feature.properties,
           pieces := piece0 :: rest }]
    | some (Geom.multiPolygon g) =>
      match buildPolygonMeshPieces maxCells G g with
      | [] => []
      | piece0 :: rest =>
        [{ meshId := piece0.meshId, geometry := Geom.multiPolygon g,
           properties := normalizeProperties feature.properties,
           pieces := piece0 :: rest }]
    | some _ => []

/-- A row of one of the generic feature tables (`point_features`,
`line_features`, `polygon_features`); the store-generated serial `id` and
`created_at` are not modelled. -/
structure GenRow (α : Type) where
  sourceLayer : String
  meshId : String
  geometry : Geom α
  properties : String
deriving DecidableEq

/-- A row of `line_mesh_map` (the store-generated serial `id`, the serial
`line_id` back-reference and `created_at` are not modelled). -/
structure LineMapRow (α : Type) where
  sourceLayer : String
  meshId : String
  geometry : α
  properties : String
  lengthM : ℚ
  lengthRatio : ℚ
deriving DecidableEq

/-- A row of `polygon_mesh_map`. -/
structure PolyMapRow (α : Type) where
  sourceLayer : String
  meshId : String
  geometry : α
  properties : String
  areaM2 : ℚ
  areaRatio : ℚ
deriving DecidableEq

/-- A row of a dynamic per-layer table created by `ensureLayerTables`:
either the 3-column shape (`mesh_id, geometry, properties`) or one of the
5-column mesh-map shapes. -/
inductive DynRow (α : Type) where
  | plainRow (meshId : String) (geometry : Geom α) (properties : String)
  | lineMapRow (meshId : String) (geometry : α) (properties : String)
      (lengthM lengthRatio : ℚ)
  | polyMapRow (meshId : String) (geometry : α) (properties : String)
      (areaM2 areaRatio : ℚ)
deriving DecidableEq

/-- The `mesh_id` column of a dynamic-table row. -/
def DynRow.meshId {α : Type} : DynRow α → String
  | .plainRow m _ _ => m
  | .lineMapRow m _ _ _ _ => m
  | .polyMapRow m _ _ _ _ => m

/-- A `layer_registry` row (serial `id` and `created_at` omitted;
`layer_name` is unique). -/
structure RegRow where
  layerName : String
  tableName : String
  geometryType : GeometryKind
  meshMapTable : Option String
  sourceFile : String
deriving DecidableEq

/-- A `mesh_index` row; `layer_presence` is a jsonb object modelled as its
canonical key-sorted association list (`updated_at` omitted). -/
structure MeshEntry where
  meshId : String
  hasPoints : Bool
  hasLines : Bool
  hasPolygons : Bool
  layerPresence : List (String × Bool)
deriving DecidableEq

/-- The relational store as seen by the ingestion pipeline: the five fixed
tables, the dynamic per-layer tables (present tables keyed by name), the
layer registry and the mesh index. -/
structure Store (α : Type) where
  pointFeatures : List (GenRow α)
  lineFeatures : List (GenRow α)
  polygonFeatures : List (GenRow α)
  lineMeshMap : List (LineMapRow α)
  polygonMeshMap : List (PolyMapRow α)
  dynTables : List (String × List (DynRow α))
  layerRegistry : List RegRow
  meshIndex : List MeshEntry
deriving DecidableEq

/-- The store with no tables and no rows. -/
def emptyStore {α : Type} : Store α := ⟨[], [], [], [], [], [], [], []⟩

/-- Look up a dynamic table by name (first match, like the
`information_schema` query behind `tableExists` plus reading the table). -/
def lookupTable {α : Type} : List (String × List (DynRow α)) → String →
    Option (List (DynRow α))
  | [], _ => none
  | e :: rest, name => if e.1 = name then some e.2 else lookupTable rest name

/-- `tableExists(tableName)` from `seed.ts`. -/
def tableExists {α : Type} (σ : Store α) (name : String) : Bool :=
  (lookupTable σ.dynTables name).isSome

/-- Replace the contents of every dynamic table with the given name
(`DELETE FROM` + fresh contents). -/
def setTable {α : Type} (tables : List (String × List (DynRow α))) (name : String)
    (rows : List (DynRow α)) : List (String × List (DynRow α)) :=
  tables.map fun e => if e.1 = name then (e.1, rows) else e

/-- `CREATE TABLE IF NOT EXISTS`: append an empty table when absent. -/
def createTable {α : Type} (tables : List (String × List (DynRow α)))
    (name : String) : List (String × List (DynRow α)) :=
  match lookupTable tables name with
  | some _ => tables
  | none => tables ++ [(name, [])]

/-- Append rows to every dynamic table with the given name
(`insertRowsDynamic` of `seed.ts`; the 500-row chunking only bounds the
statement sizes — see C8 — and is not repeated here). -/
def insertRowsDynamic {α : Type} (σ : Store α) (tableName : String)
    (rows : List (DynRow α)) : Store α :=
  { σ with dynTables := σ.dynTables.map fun e =>
      if e.1 = tableName then (e.1, e.2 ++ rows) else e }

/-- `ensureLayerTables(def)` from `seed.ts`: create the per-layer table,
and for line/polygon layers also the per-layer mesh-map table. -/
def ensureLayerTables {α : Type} (ld : LayerDefinition α) (σ : Store α) : Store α :=
  let σ1 : Store α := { σ with dynTables := createTable σ.dynTables ld.tableName }
  match ld.geometryType, ld.meshMapTable with
  | GeometryKind.line, some m => { σ1 with dynTables := createTable σ1.dynTables m }
  | GeometryKind.polygon, some m => { σ1 with dynTables := createTable σ1.dynTables m }
  | _, _ => σ1

/-- The mesh-index list after the `onConflictDoNothing` insert of
`upsertMeshIndex`: append a default row for each id not yet present. -/
def upsertEntries (mi : List MeshEntry) (meshIds : List String) : List MeshEntry :=
  meshIds.foldl (fun acc meshId =>
    if acc.any (fun e => e.meshId = meshId) then acc
    else acc ++ [⟨meshId, false, false, false, []⟩]) mi

/-- `upsertMeshIndex(meshIds)` from `seed.ts`: insert missing mesh-index
rows with default flags and empty presence (`onConflictDoNothing`). -/
def upsertMeshIndex {α : Type} (σ : Store α) (meshIds : List String) : Store α :=
  { σ with meshIndex := upsertEntries σ.meshIndex meshIds }

/-- The per-entry effect of `refreshMeshFlags`, with the three flag
source tables passed explicitly. -/
def refreshEntry {α : Type} (pf : List (GenRow α)) (lmm : List (LineMapRow α))
    (pmm : List (PolyMapRow α)) (meshIds : List String) (e : MeshEntry) : MeshEntry :=
  if e.meshId ∈ meshIds then
    { e with
      hasPoints := pf.any fun row => row.meshId = e.meshId
      hasLines := lmm.any fun row => row.meshId = e.meshId
      hasPolygons := pmm.any fun row => row.meshId = e.meshId }
  else e

/-- `refreshMeshFlags(meshIds)` from `seed.ts`: for exactly the given mesh
ids, recompute `has_points` from `point_features`, `has_lines` from
`line_mesh_map` and `has_polygons` from `polygon_mesh_map`. -/
def refreshMeshFlags {α : Type} (σ : Store α) (meshIds : List String) : Store α :=
  { σ with meshIndex :=
      σ.meshIndex.map (refreshEntry σ.pointFeatures σ.lineMeshMap σ.polygonMeshMap meshIds) }

/-- Remove a key from a jsonb object (`layer_presence - key`). -/
def jsonbRemoveKey (m : List (String × Bool)) (k : String) : List (String × Bool) :=
  m.filter fun e => decide (e.1 ≠ k)

/-- Set a key in a jsonb object (`layer_presence || {key: value}`),
keeping the canonical key order of jsonb objects. -/
def jsonbSetKey : List (String × Bool) → String → Bool → List (String × Bool)
  | [], k, v => [(k, v)]
  | (k1, v1) :: rest, k, v =>
    if k = k1 then (k, v) :: rest
    else if k < k1 then (k, v) :: (k1, v1) :: rest
    else (k1, v1) :: jsonbSetKey rest k v

/-- Look up a key in a jsonb object. -/
def jsonbLookup : List (String × Bool) → String → Option Bool
  | [], _ => none
  | (k1, v1) :: rest, k => if k1 = k then some v1 else jsonbLookup rest k

/-- The per-entry effect of `removeLayerPresence` (`layer_presence - key`
at the targeted mesh ids). -/
def removeEntry (layerName : String) (meshIds : List String) (e : MeshEntry) :
    MeshEntry :=
  if e.meshId ∈ meshIds then
    { e with layerPresence := jsonbRemoveKey e.layerPresence layerName }
  else e

/-- `removeLayerPresence(layerName, meshIds)` from `seed.ts`. -/
def removeLayerPresence {α : Type} (σ : Store α) (layerName : String)
    (meshIds : List String) : Store α :=
  { σ with meshIndex := σ.meshIndex.map (removeEntry layerName meshIds) }

/-- The per-entry effect of `addLayerPresence`
(`layer_presence || \x7b key: true \x7d` at the targeted mesh ids). -/
def addEntry (layerName : String) (meshIds : List String) (e : MeshEntry) : MeshEntry :=
  if e.meshId ∈ meshIds then
    { e with layerPresence := jsonbSetKey e.layerPresence layerName true }
  else e

/-- `addLayerPresence(layerName, meshIds)` from `seed.ts`. -/
def addLayerPresence {α : Type} (σ : Store α) (layerName : String)
    (meshIds : List String) : Store α :=
  { σ with meshIndex := σ.meshIndex.map (addEntry layerName meshIds) }

/-- `getLayerMeshIds(tableName, meshMapTable)` from `seed.ts`:
`SELECT DISTINCT mesh_id` from the mesh-map table when it exists, else
from the primary table when it exists, else nothing. -/
def getLayerMeshIds {α : Type} (σ : Store α) (tableName : String)
    (meshMapTable : Option String) : List String :=
  match meshMapTable with
  | some m =>
    match lookupTable σ.dynTables m with
    | some rows => (rows.map DynRow.meshId).dedup
    | none =>
      match lookupTable σ.dynTables tableName with
      | some rows => (rows.map DynRow.meshId).dedup
      | none => []
  | none =>
    match lookupTable σ.dynTables tableName with
    | some rows => (rows.map DynRow.meshId).dedup
    | none => []

/-- `deleteGenericRows(layerName)` from `seed.ts`: delete the layer's rows
from all five generic tables. -/
def deleteGenericRows {α : Type} (σ : Store α) (layerName : String) : Store α :=
  { σ with
    pointFeatures := σ.pointFeatures.filter fun row => decide (row.sourceLayer ≠ layerName)
    lineFeatures := σ.lineFeatures.filter fun row => decide (row.sourceLayer ≠ layerName)
    polygonFeatures :=
      σ.polygonFeatures.filter fun row => decide (row.sourceLayer ≠ layerName)
    lineMeshMap := σ.lineMeshMap.filter fun row => decide (row.sourceLayer ≠ layerName)
    polygonMeshMap :=
      σ.polygonMeshMap.filter fun row => decide (row.sourceLayer ≠ layerName) }

/-- `deleteLayerTables(def)` from `seed.ts`: `DELETE FROM` the layer's
dynamic tables when they exist. -/
def deleteLayerTables {α : Type} (σ : Store α) (ld : LayerDefinition α) : Store α :=
  let σ1 : Store α :=
    if tableExists σ ld.tableName then
      { σ with dynTables := setTable σ.dynTables ld.tableName [] }
    else σ
  match ld.meshMapTable with
  | some m =>
    if tableExists σ1 m then { σ1 with dynTables := setTable σ1.dynTables m [] }
    else σ1
  | none => σ1

/-- `dropTable(tableName)` from `seed.ts`. -/
def dropTable {α : Type} (σ : Store α) (name : String) : Store α :=
  if tableExists σ name then
    { σ with dynTables := σ.dynTables.filter fun e => decide (e.1 ≠ name) }
  else σ

/-- `removeLayer(layerRow)` from `seed.ts`: delete a stale layer's rows,
drop its tables, delete its registry row, and clear its mesh-index
contributions. -/
def removeLayer {α : Type} (σ : Store α) (layerName tableName : String)
    (meshMapTable : Option String) : Store α :=
  let oldMeshIds := getLayerMeshIds σ tableName meshMapTable
  let σ1 := deleteGenericRows σ layerName
  let σ2 := match meshMapTable with
    | some m => dropTable σ1 m
    | none => σ1
  let σ3 := dropTable σ2 tableName
  let σ4 : Store α := { σ3 with
    layerRegistry := σ3.layerRegistry.filter fun row => decide (row.layerName ≠ layerName) }
  let σ5 := removeLayerPresence σ4 layerName oldMeshIds
  refreshMeshFlags σ5 oldMeshIds

/-- The per-point work of `processPointLayer`: each exploded point inside
the national bounds, tagged with its `meshCode250(lat, lon)` identifier. -/
def pointEntries {α : Type} (features : List (Feat α)) :
    List (String × ((ℚ × ℚ) × String)) :=
  ((explodePointFeatures features).filter fun pc => isPointInJapan pc.1.1 pc.1.2).map
    fun pc => (meshCode250 pc.1.2 pc.1.1, pc)

/-- The mesh-id set (`Array.from(meshIds)`) of `processPointLayer`. -/
def pointNewIds {α : Type} (features : List (Feat α)) : List String :=
  ((pointEntries features).map Prod.fst).dedup

/-- The dynamic-table rows of `processPointLayer`. -/
def pointLayerRows {α : Type} (features : List (Feat α)) : List (DynRow α) :=
  (pointEntries features).map fun e => DynRow.plainRow e.1 (Geom.point e.2.1.1 e.2.1.2) e.2.2

/-- The generic `point_features` rows of `processPointLayer`. -/
def pointGenericRows {α : Type} (layerName : String) (features : List (Feat α)) :
    List (GenRow α) :=
  (pointEntries features).map fun e =>
    ⟨layerName, e.1, Geom.point e.2.1.1 e.2.1.2, e.2.2⟩

/-- `processPointLayer(def)` from `seed.ts`: returns the layer's new mesh
ids and the store with the mesh-index upserts and the row inserts done. -/
def processPointLayer {α : Type} (ld : LayerDefinition α) (σ : Store α) :
    List String × Store α :=
  let meshIds := pointNewIds ld.features
  let σ1 := upsertMeshIndex σ meshIds
  let σ2 := insertRowsDynamic σ1 ld.tableName (pointLayerRows ld.features)
  let σ3 : Store α :=
    { σ2 with pointFeatures := σ2.pointFeatures ++ pointGenericRows ld.layerName ld.features }
  (meshIds, σ3)

/-- The distinct piece mesh ids of a line layer's items (`meshIds` set of
`processLineLayer`, its return value). -/
def linePieceIds {α : Type} (items : List (LineItem α)) : List String :=
  (items.flatMap fun item => item.pieces.map LineMeshPiece.meshId).dedup

/-- The distinct primary mesh ids (`primaryMeshIds` set). -/
def linePrimaryIds {α : Type} (items : List (LineItem α)) : List String :=
  (items.map LineItem.meshId).dedup

/-- `Array.from(new Set([...primaryMeshIds, ...meshIds]))`. -/
def lineMeshIndexIds {α : Type} (items : List (LineItem α)) : List String :=
  (linePrimaryIds items ++ linePieceIds items).dedup

/-- The primary dynamic-table rows of `processLineLayer`. -/
def lineLayerRows {α : Type} (items : List (LineItem α)) : List (DynRow α) :=
  items.map fun item => DynRow.plainRow item.meshId item.geometry item.properties

/-- The generic `line_features` rows of `processLineLayer`. -/
def lineGenericRows {α : Type} (layerName : String) (items : List (LineItem α)) :
    List (GenRow α) :=
  items.map fun item => ⟨layerName, item.meshId, item.geometry, item.properties⟩

/-- The generic `line_mesh_map` rows of `processLineLayer`. -/
def lineMapRows {α : Type} (layerName : String) (items : List (LineItem α)) :
    List (LineMapRow α) :=
  items.flatMap fun item => item.pieces.map fun piece =>
    ⟨layerName, piece.meshId, piece.geometry, item.properties, piece.lengthM,
      piece.lengthRatio⟩

/-- The per-layer mesh-map dynamic rows of `processLineLayer`. -/
def lineDynMapRows {α : Type} (items : List (LineItem α)) : List (DynRow α) :=
  items.flatMap fun item => item.pieces.map fun piece =>
    DynRow.lineMapRow piece.meshId piece.geometry item.properties piece.lengthM
      piece.lengthRatio

/-- `processLineLayer(def)` from `seed.ts` (the per-chunk insert loop is
flattened: chunking only bounds statement sizes, see C8). -/
def processLineLayer {α : Type} (maxCells : ℕ∞) (G : GeomOracle α)
    (ld : LayerDefinition α) (σ : Store α) : List String × Store α :=
  match ld.meshMapTable with
  | none => ([], σ)
  | some meshMapTable =>
    let items := toLineItems maxCells G ld.features
    let σ1 := upsertMeshIndex σ (lineMeshIndexIds items)
    let σ2 := insertRowsDynamic σ1 ld.tableName (lineLayerRows items)
    let σ3 : Store α :=
      { σ2 with lineFeatures := σ2.lineFeatures ++ lineGenericRows ld.layerName items }
    let σ4 : Store α :=
      { σ3 with lineMeshMap := σ3.lineMeshMap ++ lineMapRows ld.layerName items }
    let σ5 := insertRowsDynamic σ4 meshMapTable (lineDynMapRows items)
    (linePieceIds items, σ5)

/-- The distinct piece mesh ids of a polygon layer's items. -/
def polyPieceIds {α : Type} (items : List (PolygonItem α)) : List String :=
  (items.flatMap fun item => item.pieces.map PolygonMeshPiece.meshId).dedup

/-- The distinct primary mesh ids of a polygon layer's items. -/
def polyPrimaryIds {α : Type} (items : List (PolygonItem α)) : List String :=
  (items.map PolygonItem.meshId).dedup

/-- `Array.from(new Set([...primaryMeshIds, ...meshIds]))`. -/
def polyMeshIndexIds {α : Type} (items : List (PolygonItem α)) : List String :=
  (polyPrimaryIds items ++ polyPieceIds items).dedup

/-- The primary dynamic-table rows of `processPolygonLayer`. -/
def polyLayerRows {α : Type} (items : List (PolygonItem α)) : List (DynRow α) :=
  items.map fun item => DynRow.plainRow item.meshId item.geometry item.properties

/-- The generic `polygon_features` rows of `processPolygonLayer`. -/
def polyGenericRows {α : Type} (layerName : String) (items : List (PolygonItem α)) :
    List (GenRow α) :=
  items.map fun item => ⟨layerName, item.meshId, item.geometry, item.properties⟩

/-- The generic `polygon_mesh_map` rows of `processPolygonLayer`. -/
def polyMapRows {α : Type} (layerName : String) (items : List (PolygonItem α)) :
    List (PolyMapRow α) :=
  items.flatMap fun item => item.pieces.map fun piece =>
    ⟨layerName, piece.meshId, piece.geometry, item.properties, piece.areaM2,
      piece.areaRatio⟩

/-- The per-layer mesh-map dynamic rows of `processPolygonLayer`. -/
def polyDynMapRows {α : Type} (items : List (PolygonItem α)) : List (DynRow α) :=
  items.flatMap fun item => item.pieces.map fun piece =>
    DynRow.polyMapRow piece.meshId piece.geometry item.properties piece.areaM2
      piece.areaRatio

/-- `processPolygonLayer(def)` from `seed.ts`. -/
def processPolygonLayer {α : Type} (maxCells : ℕ∞) (G : GeomOracle α)
    (ld : LayerDefinition α) (σ : Store α) : List String × Store α :=
  match ld.meshMapTable with
  | none => ([], σ)
  | some meshMapTable =>
    let items := toPolygonItems maxCells G ld.features
    let σ1 := upsertMeshIndex σ (polyMeshIndexIds items)
    let σ2 := insertRowsDynamic σ1 ld.tableName (polyLayerRows items)
    let σ3 : Store α :=
      { σ2 with polygonFeatures := σ2.polygonFeatures ++ polyGenericRows ld.layerName items }
    let σ4 : Store α :=
      { σ3 with polygonMeshMap := σ3.polygonMeshMap ++ polyMapRows ld.layerName items }
    let σ5 := insertRowsDynamic σ4 meshMapTable (polyDynMapRows items)
    (polyPieceIds items, σ5)

/-- The `layer_registry` row written for a layer definition. -/
def regRowOf {α : Type} (ld : LayerDefinition α) : RegRow :=
  ⟨ld.layerName, ld.tableName, ld.geometryType, ld.meshMapTable, ld.sourceFile⟩

/-- The registry upsert at the end of `processLayer`
(`onConflictDoUpdate` on the unique `layer_name`). -/
def upsertRegistry {α : Type} (σ : Store α) (ld : LayerDefinition α) : Store α :=
  if σ.layerRegistry.any (fun e => e.layerName = ld.layerName) then
    { σ with layerRegistry := σ.layerRegistry.map fun e =>
        if e.layerName = ld.layerName then regRowOf ld else e }
  else { σ with layerRegistry := σ.layerRegistry ++ [regRowOf ld] }

/-- `processLayer(def)` from `seed.ts`: the layer replace-and-reindex
state machine. -/
def processLayer {α : Type} (maxCells : ℕ∞) (G : GeomOracle α)
    (ld : LayerDefinition α) (σ : Store α) : Store α :=
  let previous := σ.layerRegistry.find? fun row => row.layerName = ld.layerName
  let oldMeshIds := match previous with
    | some prev => getLayerMeshIds σ prev.tableName prev.meshMapTable
    | none => []
  let σ1 := deleteGenericRows σ ld.layerName
  let σ2 := deleteLayerTables σ1 ld
  let σ3 := match previous with
    | some prev =>
      match prev.meshMapTable with
      | some m =>
        if prev.geometryType ≠ ld.geometryType then dropTable σ2 m else σ2
      | none => σ2
    | none => σ2
  let σ4 := ensureLayerTables ld σ3
  let res := match ld.geometryType with
    | GeometryKind.point => processPointLayer ld σ4
    | GeometryKind.line => processLineLayer maxCells G ld σ4
    | GeometryKind.polygon => processPolygonLayer maxCells G ld σ4
  let σ6 := removeLayerPresence res.2 ld.layerName oldMeshIds
  let σ7 := addLayerPresence σ6 ld.layerName res.1
  let σ8 := refreshMeshFlags σ7 (oldMeshIds ++ res.1).dedup
  upsertRegistry σ8 ld

/-- The geometry kind a feature is grouped under by `ingestFile`
(`none` for unsupported kinds, which are skipped). -/
def groupKind {α : Type} : Geom α → Option GeometryKind
  | Geom.point _ _ => some GeometryKind.point
  | Geom.multiPoint _ => some GeometryKind.point
  | Geom.lineString _ => some GeometryKind.line
  | Geom.multiLineString _ => some GeometryKind.line
  | Geom.polygon _ => some GeometryKind.polygon
  | Geom.multiPolygon _ => some GeometryKind.polygon
  | Geom.other => none

/-- The `grouped[kind]` bucket of `ingestFile` (order-preserving). -/
def groupedFeatures {α : Type} (features : List (Feat α)) (kind : GeometryKind) :
    List (Feat α) :=
  features.filter fun f =>
    match f.geometry with
    | none => false
    | some g => decide (groupKind g = some kind)

/-- The layer-name suffix per kind (`_points` / `_lines` / `_polygons`). -/
def suffixFor : GeometryKind → String
  | GeometryKind.point => "points"
  | GeometryKind.line => "lines"
  | GeometryKind.polygon => "polygons"

/-- The `layerDefs` list built by `ingestFile`: one definition per
nonempty geometry kind, in the fixed point/line/polygon key order, with
the kind suffix only when more than one kind is present.  `baseName` is
the already-normalized file base name (`normalizeLayerName` of the
source acts on the raw file name and is not modelled further). -/
def layerDefsOf {α : Type} (fileName baseName : String) (features : List (Feat α)) :
    List (LayerDefinition α) :=
  let kinds := [GeometryKind.point, GeometryKind.line, GeometryKind.polygon].filter
    fun k => !(groupedFeatures features k).isEmpty
  let useSuffix := decide (1 < kinds.length)
  kinds.map fun k =>
    let layerName := if useSuffix then baseName ++ "_" ++ suffixFor k else baseName
    { layerName := layerName
      tableName := layerName
      geometryType := k
      sourceFile := fileName
      meshMapTable :=
        if k = GeometryKind.point then none else some (layerName ++ "_mesh_map")
      features := groupedFeatures features k }

/-- `ingestFile(fileName)` from `seed.ts`, on an already-parsed feature
list (reading and JSON-parsing the file are outside the model): remove
layers this file no longer produces, then process each produced layer. -/
def ingestFile {α : Type} (maxCells : ℕ∞) (G : GeomOracle α)
    (fileName baseName : String) (features : List (Feat α)) (σ : Store α) : Store α :=
  let layerDefs := layerDefsOf fileName baseName features
  if layerDefs.isEmpty then σ
  else
    let expected := layerDefs.map LayerDefinition.layerName
    let staleLayers := (σ.layerRegistry.filter fun row =>
      decide (row.sourceFile = fileName)).filter fun row => decide (row.layerName ∉ expected)
    let σ1 := staleLayers.foldl
      (fun acc stale => removeLayer acc stale.layerName stale.tableName stale.meshMapTable) σ
    layerDefs.foldl (fun acc ld => processLayer maxCells G ld acc) σ1

/-- A small concrete bbox strictly inside the national bounds whose
snapped grid has more than one cell, used to exercise the capacity guard
at a configured maximum of 1. -/
def capBBox : BBox := ⟨139, 35, 139.01, 35.01⟩

/-- A concrete single-feature line layer over the trivial oracle. -/
def capLineDef : LayerDefinition Unit :=
  ⟨"roads", "roads", GeometryKind.line, "roads.geojson", some "roads_mesh_map",
    [⟨some (Geom.lineString ()), none⟩]⟩

/-- A concrete single-feature polygon layer over the trivial oracle. -/
def capPolyDef : LayerDefinition Unit :=
  ⟨"parks", "parks", GeometryKind.polygon, "parks.geojson", some "parks_mesh_map",
    [⟨some (Geom.polygon ()), none⟩]⟩

/-- The store carries no state attributed to the given layer definition:
no generic rows with its layer name, no registry row with its layer name,
its dynamic tables are absent, and no mesh-index entry lists the layer in
`layer_presence`.  Together with the absence of registry rows for the
file, this is the "fresh database for this file" precondition of the
amended C5. -/
def FreshFor {α : Type} (σ : Store α) (d : LayerDefinition α) : Prop :=
  (∀ row ∈ σ.pointFeatures, row.sourceLayer ≠ d.layerName) ∧
  (∀ row ∈ σ.lineFeatures, row.sourceLayer ≠ d.layerName) ∧
  (∀ row ∈ σ.polygonFeatures, row.sourceLayer ≠ d.layerName) ∧
  (∀ row ∈ σ.lineMeshMap, row.sourceLayer ≠ d.layerName) ∧
  (∀ row ∈ σ.polygonMeshMap, row.sourceLayer ≠ d.layerName) ∧
  (∀ row ∈ σ.layerRegistry, row.layerName ≠ d.layerName) ∧
  lookupTable σ.dynTables d.tableName = none ∧
  (∀ m ∈ d.meshMapTable, lookupTable σ.dynTables m = none) ∧
  (∀ e ∈ σ.meshIndex, jsonbLookup e.layerPresence d.layerName = none)

/-- The shape `ingestFile` gives its layer definitions: point layers have
no mesh-map table, line/polygon layers have one distinct from the primary
table. -/
def shapeOk {α : Type} (d : LayerDefinition α) : Prop :=
  match d.geometryType, d.meshMapTable with
  | GeometryKind.point, none => True
  | GeometryKind.point, some _ => False
  | _, none => False
  | _, some m => m ≠ d.tableName

/-- The store produced by `processLayer` for a point layer on a store
fresh for it (proved as `processLayer_point_run`). -/
def pointRun1 {α : Type} (d : LayerDefinition α) (σ : Store α) : Store α :=
  { pointFeatures := σ.pointFeatures ++ pointGenericRows d.layerName d.features
    lineFeatures := σ.lineFeatures
    polygonFeatures := σ.polygonFeatures
    lineMeshMap := σ.lineMeshMap
    polygonMeshMap := σ.polygonMeshMap
    dynTables := σ.dynTables ++ [(d.tableName, pointLayerRows d.features)]
    layerRegistry := σ.layerRegistry ++ [regRowOf d]
    meshIndex := (upsertEntries σ.meshIndex (pointNewIds d.features)).map fun e =>
      refreshEntry (σ.pointFeatures ++ pointGenericRows d.layerName d.features)
        σ.lineMeshMap σ.polygonMeshMap (pointNewIds d.features)
        (addEntry d.layerName (pointNewIds d.features) e) }

/-- The store produced by `processLayer` for a line layer with mesh-map
table `m` and items `items` on a store fresh for it. -/
def lineRun1 {α : Type} (d : LayerDefinition α) (m : String)
    (items : List (LineItem α)) (σ : Store α) : Store α :=
  { pointFeatures := σ.pointFeatures
    lineFeatures := σ.lineFeatures ++ lineGenericRows d.layerName items
    polygonFeatures := σ.polygonFeatures
    lineMeshMap := σ.lineMeshMap ++ lineMapRows d.layerName items
    polygonMeshMap := σ.polygonMeshMap
    dynTables := σ.dynTables ++
      [(d.tableName, lineLayerRows items), (m, lineDynMapRows items)]
    layerRegistry := σ.layerRegistry ++ [regRowOf d]
    meshIndex := (upsertEntries σ.meshIndex (lineMeshIndexIds items)).map fun e =>
      refreshEntry σ.pointFeatures (σ.lineMeshMap ++ lineMapRows d.layerName items)
        σ.polygonMeshMap (linePieceIds items)
        (addEntry d.layerName (linePieceIds items) e) }

/-- The store produced by `processLayer` for a polygon layer with mesh-map
table `m` and items `items` on a store fresh for it. -/
def polyRun1 {α : Type} (d : LayerDefinition α) (m : String)
    (items : List (PolygonItem α)) (σ : Store α) : Store α :=
  { pointFeatures := σ.pointFeatures
    lineFeatures := σ.lineFeatures
    polygonFeatures := σ.polygonFeatures ++ polyGenericRows d.layerName items
    lineMeshMap := σ.lineMeshMap
    polygonMeshMap := σ.polygonMeshMap ++ polyMapRows d.layerName items
    dynTables := σ.dynTables ++
      [(d.tableName, polyLayerRows items), (m, polyDynMapRows items)]
    layerRegistry := σ.layerRegistry ++ [regRowOf d]
    meshIndex := (upsertEntries σ.meshIndex (polyMeshIndexIds items)).map fun e =>
      refreshEntry σ.pointFeatures σ.lineMeshMap
        (σ.polygonMeshMap ++ polyMapRows d.layerName items) (polyPieceIds items)
        (addEntry d.layerName (polyPieceIds items) e) }

/-- The features of the C5 drift counterexample: one point at
`(lon, lat) = (139, 35)` and one line feature, so the file produces a
point layer and a line layer. -/
def c5Feats : List (Feat Unit) :=
  [⟨some (Geom.point 139 35), none⟩, ⟨some (Geom.lineString ()), none⟩]

/-- The C5 drift counterexample's initial store: a pre-existing
`line_mesh_map` row attributed to the file's line layer at the point's
mesh id. -/
def c5Store : Store Unit :=
  { emptyStore with lineMeshMap := [⟨"base_lines", meshCode250 35 139, (), "", 0, 0⟩] }

/-- The single point feature of the C5 witness. -/
def c5FreshFeats : List (Feat Unit) := [⟨some (Geom.point 139 35), none⟩]

/-- The layer definition `ingestFile` builds for `c5FreshFeats`. -/
def c5PointDef : LayerDefinition Unit :=
  ⟨"base", "base", GeometryKind.point, "base.geojson", none, c5FreshFeats⟩

/-- The shape a jsonb presence map has after `jsonbSetKey` set `k` to
`true`: the key appears exactly once, every key before it is smaller, and
the key right after it (if any) is larger.  `jsonbSetKey` re-inserts a
removed key at exactly this position, which is what makes the
remove-then-add presence round trip of `processLayer` the identity. -/
def presOk (k : String) (p : List (String × Bool)) : Prop :=
  ∃ A B, p = A ++ (k, true) :: B ∧ (∀ a ∈ A, a.1 < k) ∧ (∀ b ∈ B, b.1 ≠ k) ∧
    ∀ b0 ∈ B.head?, k < b0.1

/-- The store state `processLayer` leaves behind for a point layer, stated
positionally: the registry row, the dynamic table and the generic rows sit
at fixed positions with nothing else attributed to the layer, every new
mesh id has an index entry, and at those ids the presence map holds the
layer's key in `presOk` position and the flags agree with recomputation
from the current tables.  A store satisfying this is a fixpoint of the
layer's `processLayer`. -/
def SettledPoint {α : Type} (d : LayerDefinition α) (σ : Store α) : Prop :=
  (∃ A B, σ.layerRegistry = A ++ regRowOf d :: B ∧
    (∀ r ∈ A, r.layerName ≠ d.layerName) ∧ (∀ r ∈ B, r.layerName ≠ d.layerName)) ∧
  (∃ D1 D2, σ.dynTables = D1 ++ (d.tableName, pointLayerRows d.features) :: D2 ∧
    (∀ e ∈ D1, e.1 ≠ d.tableName) ∧ (∀ e ∈ D2, e.1 ≠ d.tableName)) ∧
  (∃ P0, σ.pointFeatures = P0 ++ pointGenericRows d.layerName d.features ∧
    ∀ r ∈ P0, r.sourceLayer ≠ d.layerName) ∧
  (∀ r ∈ σ.lineFeatures, r.sourceLayer ≠ d.layerName) ∧
  (∀ r ∈ σ.polygonFeatures, r.sourceLayer ≠ d.layerName) ∧
  (∀ r ∈ σ.lineMeshMap, r.sourceLayer ≠ d.layerName) ∧
  (∀ r ∈ σ.polygonMeshMap, r.sourceLayer ≠ d.layerName) ∧
  (∀ M ∈ pointNewIds d.features, σ.meshIndex.any (fun e => e.meshId = M) = true) ∧
  (∀ e ∈ σ.meshIndex, e.meshId ∈ pointNewIds d.features →
    presOk d.layerName e.layerPresence ∧
    e.hasPoints = σ.pointFeatures.any (fun row => row.meshId = e.meshId) ∧
    e.hasLines = σ.lineMeshMap.any (fun row => row.meshId = e.meshId) ∧
    e.hasPolygons = σ.polygonMeshMap.any (fun row => row.meshId = e.meshId))

/-- `SettledPoint`'s analogue for a line layer with mesh-map table `m` and
item list `items`. -/
def SettledLine {α : Type} (d : LayerDefinition α) (m : String)
    (items : List (LineItem α)) (σ : Store α) : Prop :=
  (∃ A B, σ.layerRegistry = A ++ regRowOf d :: B ∧
    (∀ r ∈ A, r.layerName ≠ d.layerName) ∧ (∀ r ∈ B, r.layerName ≠ d.layerName)) ∧
  (∃ D1 D2 D3, σ.dynTables =
      D1 ++ (d.tableName, lineLayerRows items) :: (D2 ++ (m, lineDynMapRows items) :: D3) ∧
    (∀ e ∈ D1, e.1 ≠ d.tableName ∧ e.1 ≠ m) ∧
    (∀ e ∈ D2, e.1 ≠ d.tableName ∧ e.1 ≠ m) ∧
    (∀ e ∈ D3, e.1 ≠ d.tableName ∧ e.1 ≠ m)) ∧
  (∃ L0, σ.lineFeatures = L0 ++ lineGenericRows d.layerName items ∧
    ∀ r ∈ L0, r.sourceLayer ≠ d.layerName) ∧
  (∃ M0, σ.lineMeshMap = M0 ++ lineMapRows d.layerName items ∧
    ∀ r ∈ M0, r.sourceLayer ≠ d.layerName) ∧
  (∀ r ∈ σ.pointFeatures, r.sourceLayer ≠ d.layerName) ∧
  (∀ r ∈ σ.polygonFeatures, r.sourceLayer ≠ d.layerName) ∧
  (∀ r ∈ σ.polygonMeshMap, r.sourceLayer ≠ d.layerName) ∧
  (∀ M ∈ lineMeshIndexIds items, σ.meshIndex.any (fun e => e.meshId = M) = true) ∧
  (∀ e ∈ σ.meshIndex, e.meshId ∈ linePieceIds items →
    presOk d.layerName e.layerPresence ∧
    e.hasPoints = σ.pointFeatures.any (fun row => row.meshId = e.meshId) ∧
    e.hasLines = σ.lineMeshMap.any (fun row => row.meshId = e.meshId) ∧
    e.hasPolygons = σ.polygonMeshMap.any (fun row => row.meshId = e.meshId))

/-- `SettledPoint`'s analogue for a polygon layer. -/
def SettledPoly {α : Type} (d : LayerDefinition α) (m : String)
    (items : List (PolygonItem α)) (σ : Store α) : Prop :=
  (∃ A B, σ.layerRegistry = A ++ regRowOf d :: B ∧
    (∀ r ∈ A, r.layerName ≠ d.layerName) ∧ (∀ r ∈ B, r.layerName ≠ d.layerName)) ∧
  (∃ D1 D2 D3, σ.dynTables =
      D1 ++ (d.tableName, polyLayerRows items) :: (D2 ++ (m, polyDynMapRows items) :: D3) ∧
    (∀ e ∈ D1, e.1 ≠ d.tableName ∧ e.1 ≠ m) ∧
    (∀ e ∈ D2, e.1 ≠ d.tableName ∧ e.1 ≠ m) ∧
    (∀ e ∈ D3, e.1 ≠ d.tableName ∧ e.1 ≠ m)) ∧
  (∃ G0, σ.polygonFeatures = G0 ++ polyGenericRows d.layerName items ∧
    ∀ r ∈ G0, r.sourceLayer ≠ d.layerName) ∧
  (∃ M0, σ.polygonMeshMap = M0 ++ polyMapRows d.layerName items ∧
    ∀ r ∈ M0, r.sourceLayer ≠ d.layerName) ∧
  (∀ r ∈ σ.pointFeatures, r.sourceLayer ≠ d.layerName) ∧
  (∀ r ∈ σ.lineFeatures, r.sourceLayer ≠ d.layerName) ∧
  (∀ r ∈ σ.lineMeshMap, r.sourceLayer ≠ d.layerName) ∧
  (∀ M ∈ polyMeshIndexIds items, σ.meshIndex.any (fun e => e.meshId = M) = true) ∧
  (∀ e ∈ σ.meshIndex, e.meshId ∈ polyPieceIds items →
    presOk d.layerName e.layerPresence ∧
    e.hasPoints = σ.pointFeatures.any (fun row => row.meshId = e.meshId) ∧
    e.hasLines = σ.lineMeshMap.any (fun row => row.meshId = e.meshId) ∧
    e.hasPolygons = σ.polygonMeshMap.any (fun row => row.meshId = e.meshId))

namespace JisMesh

theorem p_bounds (lat : ℚ) (h1 : 24.04 ≤ lat) (h2 : lat ≤ 45.95) :
    36 ≤ p lat ∧ p lat ≤ 68 := by
  unfold p
  constructor
  · exact Int.le_floor.2 (by push_cast; norm_num; linarith)
  · have h : ⌊lat * 1.5⌋ < (69 : ℤ) := Int.floor_lt.2 (by push_cast; norm_num; linarith)
    omega

theorem q_bounds (lon : ℚ) (h1 : 122.93 ≤ lon) (h2 : lon ≤ 153.99) :
    22 ≤ q lon ∧ q lon ≤ 53 := by
  unfold q
  have hlo : (122 : ℤ) ≤ ⌊lon⌋ := Int.le_floor.2 (by push_cast; linarith)
  have hhi : ⌊lon⌋ < (154 : ℤ) := Int.floor_lt.2 (by push_cast; linarith)
  omega

theorem r_bounds (lat : ℚ) : 0 ≤ r lat ∧ r lat ≤ 7 := by
  unfold r latMinutes p
  have h1 := Int.floor_le (lat * 1.5)
  have h2 := Int.lt_floor_add_one (lat * 1.5)
  constructor
  · exact Int.le_floor.2 (by push_cast; linarith)
  · have h : ⌊(lat * 60 - (⌊lat * 1.5⌋ : ℚ) * 40) / 5⌋ < (8 : ℤ) :=
      Int.floor_lt.2 (by push_cast; linarith)
    omega

theorem s_bounds (lon : ℚ) : 0 ≤ s lon ∧ s lon ≤ 7 := by
  unfold s lonMinutes
  have h1 := Int.floor_le lon
  have h2 := Int.lt_floor_add_one lon
  constructor
  · exact Int.le_floor.2 (by push_cast; norm_num; linarith)
  · have h : ⌊(lon * 60 - (⌊lon⌋ : ℚ) * 60) / 7.5⌋ < (8 : ℤ) :=
      Int.floor_lt.2 (by push_cast; norm_num; linarith)
    omega

theorem t_bounds (lat : ℚ) : 0 ≤ t lat ∧ t lat ≤ 9 := by
  unfold t
  have h1 := Int.floor_le ((latMinutes lat - p lat * 40) / 5)
  have h2 := Int.lt_floor_add_one ((latMinutes lat - p lat * 40) / 5)
  rw [show ⌊(latMinutes lat - p lat * 40) / 5⌋ = r lat from rfl] at h1 h2
  constructor
  · exact Int.le_floor.2 (by push_cast; linarith)
  · have h : ⌊(latMinutes lat - p lat * 40 - r lat * 5) * 60 / 30⌋ < (10 : ℤ) :=
      Int.floor_lt.2 (by push_cast; linarith)
    omega

theorem u_bounds (lon : ℚ) : 0 ≤ u lon ∧ u lon ≤ 9 := by
  unfold u
  have h1 := Int.floor_le ((lonMinutes lon - ⌊lon⌋ * 60) / 7.5)
  have h2 := Int.lt_floor_add_one ((lonMinutes lon - ⌊lon⌋ * 60) / 7.5)
  rw [show ⌊(lonMinutes lon - ⌊lon⌋ * 60) / 7.5⌋ = s lon from rfl] at h1 h2
  norm_num at h1 h2
  constructor
  · exact Int.le_floor.2 (by push_cast; norm_num; linarith)
  · have h : ⌊(lonMinutes lon - ⌊lon⌋ * 60 - s lon * 7.5) * 60 / 45⌋ < (10 : ℤ) :=
      Int.floor_lt.2 (by push_cast; norm_num; linarith)
    omega

theorem latSecIn1km_bounds (lat : ℚ) :
    0 ≤ latSecIn1km lat ∧ latSecIn1km lat ≤ 29.999999 := by
  unfold latSecIn1km
  exact ⟨le_min (by norm_num) (le_max_left _ _), min_le_left _ _⟩

theorem lonSecIn1km_bounds (lon : ℚ) :
    0 ≤ lonSecIn1km lon ∧ lonSecIn1km lon ≤ 44.999999 := by
  unfold lonSecIn1km
  exact ⟨le_min (by norm_num) (le_max_left _ _), min_le_left _ _⟩

theorem latHalf_bounds (lat : ℚ) : 0 ≤ latHalf lat ∧ latHalf lat ≤ 1 := by
  obtain ⟨hb0, hb1⟩ := latSecIn1km_bounds lat
  unfold latHalf
  constructor
  · exact Int.le_floor.2 (by push_cast; linarith)
  · have h : ⌊latSecIn1km lat / 15⌋ < (2 : ℤ) :=
      Int.floor_lt.2 (by push_cast; norm_num at hb1 ⊢; linarith)
    omega

theorem lonHalf_bounds (lon : ℚ) : 0 ≤ lonHalf lon ∧ lonHalf lon ≤ 1 := by
  obtain ⟨hb0, hb1⟩ := lonSecIn1km_bounds lon
  unfold lonHalf
  constructor
  · exact Int.le_floor.2 (by push_cast; norm_num; linarith)
  · have h : ⌊lonSecIn1km lon / 22.5⌋ < (2 : ℤ) :=
      Int.floor_lt.2 (by push_cast; norm_num at hb1 ⊢; linarith)
    omega

theorem latSecInHalf_bounds (lat : ℚ) :
    0 ≤ latSecInHalf lat ∧ latSecInHalf lat < 15 := by
  unfold latSecInHalf latHalf
  have h1 := Int.floor_le (latSecIn1km lat / 15)
  have h2 := Int.lt_floor_add_one (latSecIn1km lat / 15)
  constructor
  · push_cast at h1 ⊢; linarith
  · push_cast at h2 ⊢; linarith

theorem lonSecInHalf_bounds (lon : ℚ) :
    0 ≤ lonSecInHalf lon ∧ lonSecInHalf lon < 22.5 := by
  unfold lonSecInHalf lonHalf
  have h1 := Int.floor_le (lonSecIn1km lon / 22.5)
  have h2 := Int.lt_floor_add_one (lonSecIn1km lon / 22.5)
  rw [show (22.5 : ℚ) = 45 / 2 from by norm_num] at h1 h2 ⊢
  exact ⟨by linarith, by linarith⟩

theorem latQuarter_bounds (lat : ℚ) : 0 ≤ latQuarter lat ∧ latQuarter lat ≤ 1 := by
  obtain ⟨hb0, hb1⟩ := latSecInHalf_bounds lat
  unfold latQuarter
  constructor
  · exact Int.le_floor.2 (by push_cast; norm_num; linarith)
  · have h : ⌊latSecInHalf lat / 7.5⌋ < (2 : ℤ) :=
      Int.floor_lt.2 (by push_cast; norm_num at hb1 ⊢; linarith)
    omega

theorem lonQuarter_bounds (lon : ℚ) : 0 ≤ lonQuarter lon ∧ lonQuarter lon ≤ 1 := by
  obtain ⟨hb0, hb1⟩ := lonSecInHalf_bounds lon
  unfold lonQuarter
  constructor
  · exact Int.le_floor.2 (by push_cast; norm_num; linarith)
  · have h : ⌊lonSecInHalf lon / 11.25⌋ < (2 : ℤ) :=
      Int.floor_lt.2 (by push_cast; norm_num at hb1 ⊢; linarith)
    omega

theorem halfDigit_bounds (lat lon : ℚ) :
    1 ≤ halfDigit lat lon ∧ halfDigit lat lon ≤ 4 := by
  obtain ⟨h1, h2⟩ := latHalf_bounds lat
  obtain ⟨h3, h4⟩ := lonHalf_bounds lon
  unfold halfDigit
  omega

theorem quarterDigit_bounds (lat lon : ℚ) :
    1 ≤ quarterDigit lat lon ∧ quarterDigit lat lon ≤ 4 := by
  obtain ⟨h1, h2⟩ := latQuarter_bounds lat
  obtain ⟨h3, h4⟩ := lonQuarter_bounds lon
  unfold quarterDigit
  omega

end JisMesh

theorem natRepr_len_one : ∀ i : Fin 10, (Nat.repr i.val).length = 1 := by decide

theorem natRepr_len_two : ∀ i : Fin 100, 10 ≤ i.val → (Nat.repr i.val).length = 2 := by
  decide

theorem int_toString_nonneg (n : ℤ) (h : 0 ≤ n) : toString n = Nat.repr n.toNat := by
  obtain ⟨m, rfl⟩ := Int.eq_ofNat_of_zero_le h
  rfl

theorem int_toString_len_one (n : ℤ) (h0 : 0 ≤ n) (h9 : n ≤ 9) :
    (toString n).length = 1 := by
  rw [int_toString_nonneg n h0]
  exact natRepr_len_one ⟨n.toNat, by omega⟩

theorem int_toString_len_two (n : ℤ) (h0 : 10 ≤ n) (h9 : n ≤ 99) :
    (toString n).length = 2 := by
  rw [int_toString_nonneg n (by omega)]
  have h : 10 ≤ n.toNat := by omega
  exact natRepr_len_two ⟨n.toNat, by omega⟩ h

theorem padStart2_of_len_two (str : String) (h : str.length = 2) : padStart2 str = str := by
  rw [padStart2, if_pos (by omega)]

/-- C1: for every coordinate inside the national bounding box
`[122.93, 24.04, 153.99, 45.95]`, `meshCode250 lat lon` is exactly the
concatenation of the zero-padded two-digit primary indices
`p = ⌊lat * 1.5⌋` and `q = ⌊lon⌋ - 100`, the single digits `r, s, t, u`,
and the half-mesh and quarter-mesh digits (each of the form
`latHalf * 2 + lonHalf + 1`, lying in `{1, 2, 3, 4}`), for a total of
exactly 10 characters. -/
theorem c1_meshCode250_format (lat lon : ℚ)
    (hlat1 : 24.04 ≤ lat) (hlat2 : lat ≤ 45.95)
    (hlon1 : 122.93 ≤ lon) (hlon2 : lon ≤ 153.99) :
    (meshCode250 lat lon).length = 10 ∧
    meshCode250 lat lon =
      padStart2 (toString (JisMesh.p lat)) ++ padStart2 (toString (JisMesh.q lon)) ++
        toString (JisMesh.r lat) ++ toString (JisMesh.s lon) ++
        toString (JisMesh.t lat) ++ toString (JisMesh.u lon) ++
        toString (JisMesh.halfDigit lat lon) ++ toString (JisMesh.quarterDigit lat lon) ∧
    JisMesh.p lat = ⌊lat * 1.5⌋ ∧
    JisMesh.q lon = ⌊lon⌋ - 100 ∧
    (padStart2 (toString (JisMesh.p lat))).length = 2 ∧
    (padStart2 (toString (JisMesh.q lon))).length = 2 ∧
    (toString (JisMesh.r lat)).length = 1 ∧
    (toString (JisMesh.s lon)).length = 1 ∧
    (toString (JisMesh.t lat)).length = 1 ∧
    (toString (JisMesh.u lon)).length = 1 ∧
    JisMesh.halfDigit lat lon = JisMesh.latHalf lat * 2 + JisMesh.lonHalf lon + 1 ∧
    JisMesh.quarterDigit lat lon = JisMesh.latQuarter lat * 2 + JisMesh.lonQuarter lon + 1 ∧
    1 ≤ JisMesh.halfDigit lat lon ∧ JisMesh.halfDigit lat lon ≤ 4 ∧
    1 ≤ JisMesh.quarterDigit lat lon ∧ JisMesh.quarterDigit lat lon ≤ 4 ∧
    (toString (JisMesh.halfDigit lat lon)).length = 1 ∧
    (toString (JisMesh.quarterDigit lat lon)).length = 1 := by
  obtain ⟨hp1, hp2⟩ := JisMesh.p_bounds lat hlat1 hlat2
  obtain ⟨hq1, hq2⟩ := JisMesh.q_bounds lon hlon1 hlon2
  obtain ⟨hr1, hr2⟩ := JisMesh.r_bounds lat
  obtain ⟨hs1, hs2⟩ := JisMesh.s_bounds lon
  obtain ⟨ht1, ht2⟩ := JisMesh.t_bounds lat
  obtain ⟨hu1, hu2⟩ := JisMesh.u_bounds lon
  obtain ⟨hh1, hh2⟩ := JisMesh.halfDigit_bounds lat lon
  obtain ⟨hqd1, hqd2⟩ := JisMesh.quarterDigit_bounds lat lon
  have lp : (padStart2 (toString (JisMesh.p lat))).length = 2 := by
    rw [padStart2_of_len_two _ (int_toString_len_two _ (by omega) (by omega))]
    exact int_toString_len_two _ (by omega) (by omega)
  have lq : (padStart2 (toString (JisMesh.q lon))).length = 2 := by
    rw [padStart2_of_len_two _ (int_toString_len_two _ (by omega) (by omega))]
    exact int_toString_len_two _ (by omega) (by omega)
  have lr := int_toString_len_one _ hr1 (by omega)
  have ls := int_toString_len_one _ hs1 (by omega)
  have lt' := int_toString_len_one _ ht1 (by omega)
  have lu := int_toString_len_one _ hu1 (by omega)
  have lh := int_toString_len_one (JisMesh.halfDigit lat lon) (by omega) (by omega)
  have lqd := int_toString_len_one (JisMesh.quarterDigit lat lon) (by omega) (by omega)
  refine ⟨?_, rfl, rfl, rfl, lp, lq, lr, ls, lt', lu, rfl, rfl, hh1, hh2, hqd1, hqd2, lh, lqd⟩
  rw [meshCode250]
  simp only [String.length_append]
  omega

/-- Witness for C1 at the spec's concrete scenario point (35.681, 139.767). -/
theorem c1_meshCode250_format_witness :
    (meshCode250 35.681 139.767).length = 10 :=
  (c1_meshCode250_format 35.681 139.767 (by norm_num) (by norm_num) (by norm_num)
    (by norm_num)).1

theorem string_eq_of_data (str1 str2 : String) (h : str1.data = str2.data) :
    str1 = str2 := by
  cases str1; cases str2; exact congrArg String.mk h

theorem string_append_inj_right (a b c d : String) (h : a ++ b = c ++ d)
    (hl : b.length = d.length) : a = c ∧ b = d := by
  have hdata : a.data ++ b.data = c.data ++ d.data := by
    rw [← String.data_append, ← String.data_append, h]
  obtain ⟨h1, h2⟩ := List.append_inj' hdata hl
  exact ⟨string_eq_of_data _ _ h1, string_eq_of_data _ _ h2⟩

theorem natRepr_inj_ten : ∀ i j : Fin 10, Nat.repr i.val = Nat.repr j.val → i = j := by
  decide

set_option maxRecDepth 4000 in
theorem natRepr_inj_hundred :
    ∀ i j : Fin 100, Nat.repr i.val = Nat.repr j.val → i = j := by
  decide

theorem int_toString_inj_one_digit (a b : ℤ) (ha0 : 0 ≤ a) (ha9 : a ≤ 9)
    (hb0 : 0 ≤ b) (hb9 : b ≤ 9) (h : toString a = toString b) : a = b := by
  rw [int_toString_nonneg a ha0, int_toString_nonneg b hb0] at h
  have := natRepr_inj_ten ⟨a.toNat, by omega⟩ ⟨b.toNat, by omega⟩ h
  have := congrArg Fin.val this
  simp only at this
  omega

theorem int_toString_inj_two_digit (a b : ℤ) (ha0 : 0 ≤ a) (ha9 : a ≤ 99)
    (hb0 : 0 ≤ b) (hb9 : b ≤ 99) (h : toString a = toString b) : a = b := by
  rw [int_toString_nonneg a ha0, int_toString_nonneg b hb0] at h
  have := natRepr_inj_hundred ⟨a.toNat, by omega⟩ ⟨b.toNat, by omega⟩ h
  have := congrArg Fin.val this
  simp only at this
  omega

theorem floor_split_15 (y : ℚ) :
    ⌊y / 7.5⌋ = 2 * ⌊y / 15⌋ + ⌊(y - ⌊y / 15⌋ * 15) / 7.5⌋ := by
  have key : (y - ⌊y / 15⌋ * 15) / 7.5 = y / 7.5 - ((2 * ⌊y / 15⌋ : ℤ) : ℚ) := by
    rw [show (7.5 : ℚ) = 15 / 2 from by norm_num]
    push_cast
    ring
  rw [key, Int.floor_sub_int]
  omega

theorem floor_split_225 (y : ℚ) :
    ⌊y / 11.25⌋ = 2 * ⌊y / 22.5⌋ + ⌊(y - ⌊y / 22.5⌋ * 22.5) / 11.25⌋ := by
  have key : (y - ⌊y / 22.5⌋ * 22.5) / 11.25 = y / 11.25 - ((2 * ⌊y / 22.5⌋ : ℤ) : ℚ) := by
    rw [show (22.5 : ℚ) = 45 / 2 from by norm_num,
      show (11.25 : ℚ) = 45 / 4 from by norm_num]
    push_cast
    ring
  rw [key, Int.floor_sub_int]
  omega

namespace JisMesh

/-- The digits of `meshCode250` decompose the index of the coordinate's
quarter-mesh row: `⌊lat * 480⌋` (latitude in units of 7.5 arc-seconds)
written in the mixed radix 320/40/4/2 given by `p`, `r`, `t`, `latHalf`,
`latQuarter`. -/
theorem latDecomp (lat : ℚ) :
    ⌊lat * 480⌋ =
      320 * p lat + 40 * r lat + 4 * t lat + 2 * latHalf lat + latQuarter lat := by
  have ht1 := Int.floor_le ((latMinutes lat - p lat * 40 - r lat * 5) * 60 / 30)
  have ht2 := Int.lt_floor_add_one ((latMinutes lat - p lat * 40 - r lat * 5) * 60 / 30)
  rw [show ⌊(latMinutes lat - p lat * 40 - r lat * 5) * 60 / 30⌋ = t lat from rfl]
    at ht1 ht2
  unfold latMinutes at ht1 ht2
  have hy0 : 0 ≤ latSeconds lat - latBaseSeconds lat := by
    unfold latSeconds latBaseSeconds
    linarith
  have hy30 : latSeconds lat - latBaseSeconds lat < 30 := by
    unfold latSeconds latBaseSeconds
    linarith
  have hkm : latSecIn1km lat = min 29.999999 (latSeconds lat - latBaseSeconds lat) := by
    unfold latSecIn1km
    rw [max_eq_right hy0]
  have hdig : 2 * latHalf lat + latQuarter lat =
      ⌊(latSeconds lat - latBaseSeconds lat) / 7.5⌋ := by
    rcases le_or_lt (latSeconds lat - latBaseSeconds lat) 29.999999 with hle | hgt
    · have hmin : latSecIn1km lat = latSeconds lat - latBaseSeconds lat := by
        rw [hkm, min_eq_right hle]
      have hsplit := floor_split_15 (latSeconds lat - latBaseSeconds lat)
      unfold latQuarter latSecInHalf latHalf
      rw [hmin]
      omega
    · have hmin : latSecIn1km lat = 29.999999 := by
        rw [hkm, min_eq_left (le_of_lt hgt)]
      have hhalf : latHalf lat = 1 := by
        unfold latHalf
        rw [hmin, Int.floor_eq_iff]
        norm_num
      have hquarter : latQuarter lat = 1 := by
        unfold latQuarter latSecInHalf
        rw [hmin, hhalf, Int.floor_eq_iff]
        norm_num
      have hbig : ⌊(latSeconds lat - latBaseSeconds lat) / 7.5⌋ = 3 := by
        rw [Int.floor_eq_iff]
        constructor
        · push_cast
          norm_num at hgt ⊢
          linarith
        · push_cast
          norm_num
          linarith
      omega
  have hself : lat * 480 = (latSeconds lat - latBaseSeconds lat) / 7.5 +
      ((320 * p lat + 40 * r lat + 4 * t lat : ℤ) : ℚ) := by
    unfold latSeconds latBaseSeconds
    rw [show (7.5 : ℚ) = 15 / 2 from by norm_num]
    push_cast
    ring
  rw [hself, Int.floor_add_int]
  omega

/-- Longitude analogue of `latDecomp`: `⌊lon * 320⌋` (longitude in units of
11.25 arc-seconds) decomposes into `⌊lon⌋`, `s`, `u`, `lonHalf`,
`lonQuarter`. -/
theorem lonDecomp (lon : ℚ) :
    ⌊lon * 320⌋ =
      320 * ⌊lon⌋ + 40 * s lon + 4 * u lon + 2 * lonHalf lon + lonQuarter lon := by
  have hu1 := Int.floor_le ((lonMinutes lon - ⌊lon⌋ * 60 - s lon * 7.5) * 60 / 45)
  have hu2 := Int.lt_floor_add_one ((lonMinutes lon - ⌊lon⌋ * 60 - s lon * 7.5) * 60 / 45)
  rw [show ⌊(lonMinutes lon - ⌊lon⌋ * 60 - s lon * 7.5) * 60 / 45⌋ = u lon from rfl]
    at hu1 hu2
  unfold lonMinutes at hu1 hu2
  rw [show (7.5 : ℚ) = 15 / 2 from by norm_num] at hu1 hu2
  have hy0 : 0 ≤ lonSeconds lon - lonBaseSeconds lon := by
    unfold lonSeconds lonBaseSeconds q
    push_cast at hu1 ⊢
    linarith
  have hy45 : lonSeconds lon - lonBaseSeconds lon < 45 := by
    unfold lonSeconds lonBaseSeconds q
    push_cast at hu2 ⊢
    linarith
  have hkm : lonSecIn1km lon = min 44.999999 (lonSeconds lon - lonBaseSeconds lon) := by
    unfold lonSecIn1km
    rw [max_eq_right hy0]
  have hdig : 2 * lonHalf lon + lonQuarter lon =
      ⌊(lonSeconds lon - lonBaseSeconds lon) / 11.25⌋ := by
    rcases le_or_lt (lonSeconds lon - lonBaseSeconds lon) 44.999999 with hle | hgt
    · have hmin : lonSecIn1km lon = lonSeconds lon - lonBaseSeconds lon := by
        rw [hkm, min_eq_right hle]
      have hsplit := floor_split_225 (lonSeconds lon - lonBaseSeconds lon)
      unfold lonQuarter lonSecInHalf lonHalf
      rw [hmin]
      omega
    · have hmin : lonSecIn1km lon = 44.999999 := by
        rw [hkm, min_eq_left (le_of_lt hgt)]
      have hhalf : lonHalf lon = 1 := by
        unfold lonHalf
        rw [hmin, Int.floor_eq_iff]
        norm_num
      have hquarter : lonQuarter lon = 1 := by
        unfold lonQuarter lonSecInHalf
        rw [hmin, hhalf, Int.floor_eq_iff]
        norm_num
      have hbig : ⌊(lonSeconds lon - lonBaseSeconds lon) / 11.25⌋ = 3 := by
        rw [Int.floor_eq_iff]
        constructor
        · push_cast
          norm_num at hgt ⊢
          linarith
        · push_cast
          norm_num
          linarith
      omega
  have hself : lon * 320 = (lonSeconds lon - lonBaseSeconds lon) / 11.25 +
      ((320 * ⌊lon⌋ + 40 * s lon + 4 * u lon : ℤ) : ℚ) := by
    unfold lonSeconds lonBaseSeconds q
    rw [show (11.25 : ℚ) = 45 / 4 from by norm_num]
    push_cast
    ring
  rw [hself, Int.floor_add_int]
  omega

end JisMesh

theorem cell250_eq (lat lon : ℚ) : cell250 lat lon = (⌊lat * 480⌋, ⌊lon * 320⌋) := by
  unfold cell250
  rw [show lat * 3600 / 7.5 = lat * 480 from by
    rw [show (7.5 : ℚ) = 15 / 2 from by norm_num]; ring]
  rw [show lon * 3600 / 11.25 = lon * 320 from by
    rw [show (11.25 : ℚ) = 45 / 4 from by norm_num]; ring]

theorem meshCode250_eq_of_same_cell (lat1 lon1 lat2 lon2 : ℚ)
    (hla : ⌊lat1 * 480⌋ = ⌊lat2 * 480⌋) (hlo : ⌊lon1 * 320⌋ = ⌊lon2 * 320⌋) :
    meshCode250 lat1 lon1 = meshCode250 lat2 lon2 := by
  have d1 := JisMesh.latDecomp lat1
  have d2 := JisMesh.latDecomp lat2
  have e1 := JisMesh.lonDecomp lon1
  have e2 := JisMesh.lonDecomp lon2
  obtain ⟨hr1a, hr1b⟩ := JisMesh.r_bounds lat1
  obtain ⟨hr2a, hr2b⟩ := JisMesh.r_bounds lat2
  obtain ⟨hs1a, hs1b⟩ := JisMesh.s_bounds lon1
  obtain ⟨hs2a, hs2b⟩ := JisMesh.s_bounds lon2
  obtain ⟨ht1a, ht1b⟩ := JisMesh.t_bounds lat1
  obtain ⟨ht2a, ht2b⟩ := JisMesh.t_bounds lat2
  obtain ⟨hu1a, hu1b⟩ := JisMesh.u_bounds lon1
  obtain ⟨hu2a, hu2b⟩ := JisMesh.u_bounds lon2
  obtain ⟨hh1a, hh1b⟩ := JisMesh.latHalf_bounds lat1
  obtain ⟨hh2a, hh2b⟩ := JisMesh.latHalf_bounds lat2
  obtain ⟨hk1a, hk1b⟩ := JisMesh.lonHalf_bounds lon1
  obtain ⟨hk2a, hk2b⟩ := JisMesh.lonHalf_bounds lon2
  obtain ⟨hx1a, hx1b⟩ := JisMesh.latQuarter_bounds lat1
  obtain ⟨hx2a, hx2b⟩ := JisMesh.latQuarter_bounds lat2
  obtain ⟨hz1a, hz1b⟩ := JisMesh.lonQuarter_bounds lon1
  obtain ⟨hz2a, hz2b⟩ := JisMesh.lonQuarter_bounds lon2
  have hp : JisMesh.p lat1 = JisMesh.p lat2 := by omega
  have hrr : JisMesh.r lat1 = JisMesh.r lat2 := by omega
  have htt : JisMesh.t lat1 = JisMesh.t lat2 := by omega
  have hlh : JisMesh.latHalf lat1 = JisMesh.latHalf lat2 := by omega
  have hlq : JisMesh.latQuarter lat1 = JisMesh.latQuarter lat2 := by omega
  have hq : JisMesh.q lon1 = JisMesh.q lon2 := by unfold JisMesh.q; omega
  have hss : JisMesh.s lon1 = JisMesh.s lon2 := by omega
  have huu : JisMesh.u lon1 = JisMesh.u lon2 := by omega
  have hoh : JisMesh.lonHalf lon1 = JisMesh.lonHalf lon2 := by omega
  have hoq : JisMesh.lonQuarter lon1 = JisMesh.lonQuarter lon2 := by omega
  unfold meshCode250 JisMesh.halfDigit JisMesh.quarterDigit
  rw [hp, hq, hrr, hss, htt, huu, hlh, hlq, hoh, hoq]

theorem meshCode250_inj_in_box (lat1 lon1 lat2 lon2 : ℚ)
    (hlat1a : 24.04 ≤ lat1) (hlat1b : lat1 ≤ 45.95)
    (hlon1a : 122.93 ≤ lon1) (hlon1b : lon1 ≤ 153.99)
    (hlat2a : 24.04 ≤ lat2) (hlat2b : lat2 ≤ 45.95)
    (hlon2a : 122.93 ≤ lon2) (hlon2b : lon2 ≤ 153.99)
    (hcode : meshCode250 lat1 lon1 = meshCode250 lat2 lon2) :
    ⌊lat1 * 480⌋ = ⌊lat2 * 480⌋ ∧ ⌊lon1 * 320⌋ = ⌊lon2 * 320⌋ := by
  obtain ⟨hp1a, hp1b⟩ := JisMesh.p_bounds lat1 hlat1a hlat1b
  obtain ⟨hp2a, hp2b⟩ := JisMesh.p_bounds lat2 hlat2a hlat2b
  obtain ⟨hq1a, hq1b⟩ := JisMesh.q_bounds lon1 hlon1a hlon1b
  obtain ⟨hq2a, hq2b⟩ := JisMesh.q_bounds lon2 hlon2a hlon2b
  obtain ⟨hr1a, hr1b⟩ := JisMesh.r_bounds lat1
  obtain ⟨hr2a, hr2b⟩ := JisMesh.r_bounds lat2
  obtain ⟨hs1a, hs1b⟩ := JisMesh.s_bounds lon1
  obtain ⟨hs2a, hs2b⟩ := JisMesh.s_bounds lon2
  obtain ⟨ht1a, ht1b⟩ := JisMesh.t_bounds lat1
  obtain ⟨ht2a, ht2b⟩ := JisMesh.t_bounds lat2
  obtain ⟨hu1a, hu1b⟩ := JisMesh.u_bounds lon1
  obtain ⟨hu2a, hu2b⟩ := JisMesh.u_bounds lon2
  obtain ⟨hh1a, hh1b⟩ := JisMesh.halfDigit_bounds lat1 lon1
  obtain ⟨hh2a, hh2b⟩ := JisMesh.halfDigit_bounds lat2 lon2
  obtain ⟨hd1a, hd1b⟩ := JisMesh.quarterDigit_bounds lat1 lon1
  obtain ⟨hd2a, hd2b⟩ := JisMesh.quarterDigit_bounds lat2 lon2
  have lenP1 := int_toString_len_two (JisMesh.p lat1) (by omega) (by omega)
  have lenP2 := int_toString_len_two (JisMesh.p lat2) (by omega) (by omega)
  have lenQ1 := int_toString_len_two (JisMesh.q lon1) (by omega) (by omega)
  have lenQ2 := int_toString_len_two (JisMesh.q lon2) (by omega) (by omega)
  have lenR1 := int_toString_len_one (JisMesh.r lat1) (by omega) (by omega)
  have lenR2 := int_toString_len_one (JisMesh.r lat2) (by omega) (by omega)
  have lenS1 := int_toString_len_one (JisMesh.s lon1) (by omega) (by omega)
  have lenS2 := int_toString_len_one (JisMesh.s lon2) (by omega) (by omega)
  have lenT1 := int_toString_len_one (JisMesh.t lat1) (by omega) (by omega)
  have lenT2 := int_toString_len_one (JisMesh.t lat2) (by omega) (by omega)
  have lenU1 := int_toString_len_one (JisMesh.u lon1) (by omega) (by omega)
  have lenU2 := int_toString_len_one (JisMesh.u lon2) (by omega) (by omega)
  have lenH1 := int_toString_len_one (JisMesh.halfDigit lat1 lon1) (by omega) (by omega)
  have lenH2 := int_toString_len_one (JisMesh.halfDigit lat2 lon2) (by omega) (by omega)
  have lenD1 := int_toString_len_one (JisMesh.quarterDigit lat1 lon1) (by omega) (by omega)
  have lenD2 := int_toString_len_one (JisMesh.quarterDigit lat2 lon2) (by omega) (by omega)
  unfold meshCode250 at hcode
  rw [padStart2_of_len_two _ lenP1, padStart2_of_len_two _ lenP2,
    padStart2_of_len_two _ lenQ1, padStart2_of_len_two _ lenQ2] at hcode
  obtain ⟨hcode, hQD⟩ := string_append_inj_right _ _ _ _ hcode (by rw [lenD1, lenD2])
  obtain ⟨hcode, hHD⟩ := string_append_inj_right _ _ _ _ hcode (by rw [lenH1, lenH2])
  obtain ⟨hcode, hU⟩ := string_append_inj_right _ _ _ _ hcode (by rw [lenU1, lenU2])
  obtain ⟨hcode, hT⟩ := string_append_inj_right _ _ _ _ hcode (by rw [lenT1, lenT2])
  obtain ⟨hcode, hS⟩ := string_append_inj_right _ _ _ _ hcode (by rw [lenS1, lenS2])
  obtain ⟨hcode, hR⟩ := string_append_inj_right _ _ _ _ hcode (by rw [lenR1, lenR2])
  obtain ⟨hP, hQ⟩ := string_append_inj_right _ _ _ _ hcode (by rw [lenQ1, lenQ2])
  have hp := int_toString_inj_two_digit _ _ (by omega) (by omega) (by omega) (by omega) hP
  have hq := int_toString_inj_two_digit _ _ (by omega) (by omega) (by omega) (by omega) hQ
  have hrr := int_toString_inj_one_digit _ _ (by omega) (by omega) (by omega) (by omega) hR
  have hss := int_toString_inj_one_digit _ _ (by omega) (by omega) (by omega) (by omega) hS
  have htt := int_toString_inj_one_digit _ _ (by omega) (by omega) (by omega) (by omega) hT
  have huu := int_toString_inj_one_digit _ _ (by omega) (by omega) (by omega) (by omega) hU
  have hhd := int_toString_inj_one_digit _ _ (by omega) (by omega) (by omega) (by omega) hHD
  have hqd := int_toString_inj_one_digit _ _ (by omega) (by omega) (by omega) (by omega) hQD
  obtain ⟨hh1a', hh1b'⟩ := JisMesh.latHalf_bounds lat1
  obtain ⟨hh2a', hh2b'⟩ := JisMesh.latHalf_bounds lat2
  obtain ⟨hk1a, hk1b⟩ := JisMesh.lonHalf_bounds lon1
  obtain ⟨hk2a, hk2b⟩ := JisMesh.lonHalf_bounds lon2
  obtain ⟨hx1a, hx1b⟩ := JisMesh.latQuarter_bounds lat1
  obtain ⟨hx2a, hx2b⟩ := JisMesh.latQuarter_bounds lat2
  obtain ⟨hz1a, hz1b⟩ := JisMesh.lonQuarter_bounds lon1
  obtain ⟨hz2a, hz2b⟩ := JisMesh.lonQuarter_bounds lon2
  unfold JisMesh.halfDigit at hhd
  unfold JisMesh.quarterDigit at hqd
  have hfloorlon : ⌊lon1⌋ = ⌊lon2⌋ := by unfold JisMesh.q at hq; omega
  have d1 := JisMesh.latDecomp lat1
  have d2 := JisMesh.latDecomp lat2
  have e1 := JisMesh.lonDecomp lon1
  have e2 := JisMesh.lonDecomp lon2
  omega

/-- C2: coordinates in the same 250 m cell (half-open, lower/left inclusive)
always receive the identical `meshCode250` string, and coordinates in
adjacent (distinct) 250 m cells inside the national bounding box always
receive different strings. -/
theorem c2_meshCode250_cell_determinism (lat1 lon1 lat2 lon2 : ℚ)
    (hlat1a : 24.04 ≤ lat1) (hlat1b : lat1 ≤ 45.95)
    (hlon1a : 122.93 ≤ lon1) (hlon1b : lon1 ≤ 153.99)
    (hlat2a : 24.04 ≤ lat2) (hlat2b : lat2 ≤ 45.95)
    (hlon2a : 122.93 ≤ lon2) (hlon2b : lon2 ≤ 153.99) :
    (cell250 lat1 lon1 = cell250 lat2 lon2 →
      meshCode250 lat1 lon1 = meshCode250 lat2 lon2) ∧
    (cell250 lat1 lon1 ≠ cell250 lat2 lon2 →
      ((cell250 lat1 lon1).1 - (cell250 lat2 lon2).1).natAbs ≤ 1 →
      ((cell250 lat1 lon1).2 - (cell250 lat2 lon2).2).natAbs ≤ 1 →
      meshCode250 lat1 lon1 ≠ meshCode250 lat2 lon2) := by
  rw [cell250_eq, cell250_eq]
  constructor
  · intro h
    exact meshCode250_eq_of_same_cell _ _ _ _ (congrArg Prod.fst h) (congrArg Prod.snd h)
  · intro hne _ _ hcode
    obtain ⟨h1, h2⟩ := meshCode250_inj_in_box lat1 lon1 lat2 lon2 hlat1a hlat1b hlon1a
      hlon1b hlat2a hlat2b hlon2a hlon2b hcode
    exact hne (Prod.ext h1 h2)

/-- Witness for C2: two coordinates in one Tokyo-area cell share their code,
and two coordinates one cell apart in latitude have different codes. -/
theorem c2_meshCode250_cell_determinism_witness :
    meshCode250 35.6805 139.7671 = meshCode250 35.6807 139.7672 ∧
    meshCode250 35.681 139.767 ≠ meshCode250 35.6832 139.767 := by
  constructor
  · exact (c2_meshCode250_cell_determinism 35.6805 139.7671 35.6807 139.7672
      (by norm_num) (by norm_num) (by norm_num) (by norm_num)
      (by norm_num) (by norm_num) (by norm_num) (by norm_num)).1 (by decide)
  · exact (c2_meshCode250_cell_determinism 35.681 139.767 35.6832 139.767
      (by norm_num) (by norm_num) (by norm_num) (by norm_num)
      (by norm_num) (by norm_num) (by norm_num) (by norm_num)).2 (by decide)
      (by decide) (by decide)

/-- C9: the mesh-identifier function on the query/display path (the frontend
copy of `meshCode250` in `MapView.tsx`) computes exactly the same string as
the backend `meshCode250` used at ingestion, for every input coordinate, so
identifiers written at ingestion and identifiers computed for lookup can
never drift. -/
theorem c9_meshCode250_frontend_backend_agree :
    ∀ lat lon : ℚ, meshCode250Frontend lat lon = meshCode250 lat lon :=
  fun _ _ => rfl

theorem ceil_snapped_div (x y st : ℚ) (hst : 0 < st) :
    ⌈(⌈y / st⌉ * st - ⌊x / st⌋ * st) / st⌉ = ⌈y / st⌉ - ⌊x / st⌋ := by
  have key : (⌈y / st⌉ * st - ⌊x / st⌋ * st) / st = ((⌈y / st⌉ - ⌊x / st⌋ : ℤ) : ℚ) := by
    push_cast
    field_simp
    ring
  rw [key, Int.ceil_intCast]

theorem buildMeshCells_eq (maxCells : ℕ∞) (bbox bounded : BBox)
    (hsome : intersectBbox bbox JAPAN_BOUNDS = some bounded) :
    buildMeshCells maxCells bbox =
      if maxCells < (snappedGridSize bounded : ℕ∞) then []
      else
        (List.range (gridRows bounded).toNat).flatMap fun i =>
          (List.range (gridCols bounded).toNat).map fun j =>
            tileCell (⌊bounded.minLat * 3600 / MESH_LAT_STEP_SEC⌋ * MESH_LAT_STEP_SEC)
              (⌊bounded.minLon * 3600 / MESH_LON_STEP_SEC⌋ * MESH_LON_STEP_SEC) i j := by
  have hlat : (0 : ℚ) < MESH_LAT_STEP_SEC := by norm_num [MESH_LAT_STEP_SEC]
  have hlon : (0 : ℚ) < MESH_LON_STEP_SEC := by norm_num [MESH_LON_STEP_SEC]
  unfold buildMeshCells
  rw [hsome]
  simp only [ceil_snapped_div _ _ _ hlat, ceil_snapped_div _ _ _ hlon]
  rfl

/-- C6: whenever the snapped grid of the clamped input bbox has more cells
than the configured maximum, `buildMeshCells` returns the empty list (and,
being a total function, cannot throw). -/
theorem c6_capacity_guard_empty (maxCells : ℕ∞) (bbox bounded : BBox)
    (hsome : intersectBbox bbox JAPAN_BOUNDS = some bounded)
    (hover : maxCells < (snappedGridSize bounded : ℕ∞)) :
    buildMeshCells maxCells bbox = [] := by
  rw [buildMeshCells_eq maxCells bbox bounded hsome, if_pos hover]

/-- Witness for C6: a country-spanning bbox exceeds the `mapMeshes.ts` guard
of 12000 cells and produces no cells. -/
theorem c6_capacity_guard_empty_witness :
    buildMeshCells (12000 : ℕ) ⟨122.93, 24.04, 153.99, 45.95⟩ = [] :=
  c6_capacity_guard_empty (12000 : ℕ) ⟨122.93, 24.04, 153.99, 45.95⟩ JAPAN_BOUNDS
    (by decide) (by decide)

/-- C10: a bbox whose clamp against the national bounds has zero width or
height (`minLon ≥ maxLon` or `minLat ≥ maxLat` after clamping) yields no
cells from `buildMeshCells` — even when it lies strictly inside the
national extent — and hence any line or polygon feature with such a bbox
yields no mesh pieces. -/
theorem c10_degenerate_bbox_no_cells {α : Type} (maxCells : ℕ∞)
    (G : GeomOracle α) (bbox : BBox)
    (hdeg : min bbox.maxLon JAPAN_BOUNDS.maxLon ≤ max bbox.minLon JAPAN_BOUNDS.minLon ∨
      min bbox.maxLat JAPAN_BOUNDS.maxLat ≤ max bbox.minLat JAPAN_BOUNDS.minLat) :
    buildMeshCells maxCells bbox = [] ∧
    (∀ f, G.bboxOf f = bbox →
      buildLineMeshPieces maxCells G f = [] ∧ buildPolygonMeshPieces maxCells G f = []) := by
  have hnone : intersectBbox bbox JAPAN_BOUNDS = none := by
    unfold intersectBbox
    simp only
    rw [if_pos hdeg]
  have hcells : buildMeshCells maxCells bbox = [] := by
    unfold buildMeshCells
    rw [hnone]
  refine ⟨hcells, fun f hf => ⟨?_, ?_⟩⟩
  · unfold buildLineMeshPieces
    cases hL : G.lengthKm f with
    | none => rfl
    | some tot =>
      by_cases h0 : tot = 0
      · simp [h0]
      · simp [h0, hf, hcells]
  · unfold buildPolygonMeshPieces
    cases hA : G.areaSqM f with
    | none => rfl
    | some tot =>
      by_cases h0 : tot = 0
      · simp [h0]
      · simp [h0, hf, hcells]

/-- Witness for C10 at the degenerate single-point bbox (139, 35). -/
theorem c10_degenerate_bbox_no_cells_witness :
    buildMeshCells ⊤ ⟨139, 35, 139, 35⟩ = [] ∧
    buildLineMeshPieces ⊤ (constOracle ⟨139, 35, 139, 35⟩) () = [] ∧
    buildPolygonMeshPieces ⊤ (constOracle ⟨139, 35, 139, 35⟩) () = [] := by
  obtain ⟨h1, h2⟩ := c10_degenerate_bbox_no_cells ⊤ (constOracle ⟨139, 35, 139, 35⟩)
    ⟨139, 35, 139, 35⟩ (by norm_num [JAPAN_BOUNDS])
  obtain ⟨h3, h4⟩ := h2 () rfl
  exact ⟨h1, h3, h4⟩

/-- C4: every piece produced by `buildLineMeshPieces` or
`buildPolygonMeshPieces` has its ratio in `[0, 1]`, given that the turf
measures (`length`, a sum of haversine distances, and `area`, a sum of
absolute ring areas) are nonnegative wherever they are defined. -/
theorem c4_piece_ratio_bounds {α : Type} (maxCells : ℕ∞) (G : GeomOracle α)
    (hlen : ∀ g m, G.lengthKm g = some m → 0 ≤ m)
    (harea : ∀ g m, G.areaSqM g = some m → 0 ≤ m) :
    (∀ f piece, piece ∈ buildLineMeshPieces maxCells G f →
      0 ≤ piece.lengthRatio ∧ piece.lengthRatio ≤ 1) ∧
    (∀ f piece, piece ∈ buildPolygonMeshPieces maxCells G f →
      0 ≤ piece.areaRatio ∧ piece.areaRatio ≤ 1) := by
  constructor
  · intro f piece hmem
    unfold buildLineMeshPieces at hmem
    cases hL : G.lengthKm f with
    | none => rw [hL] at hmem; simp at hmem
    | some tot =>
      simp only [hL] at hmem
      by_cases h0 : tot = 0
      · rw [if_pos h0] at hmem; simp at hmem
      · rw [if_neg h0] at hmem
        by_cases hemp : (buildMeshCells maxCells (G.bboxOf f)).isEmpty
        · rw [if_pos hemp] at hmem; simp at hmem
        · rw [if_neg hemp, List.mem_filterMap] at hmem
          obtain ⟨cell, _, hfn⟩ := hmem
          cases hclip : G.clip f cell.bbox with
          | none => rw [hclip] at hfn; simp at hfn
          | some clipped =>
            simp only [hclip] at hfn
            cases hcl : G.lengthKm clipped with
            | none => rw [hcl] at hfn; simp at hfn
            | some c =>
              simp only [hcl] at hfn
              by_cases hc0 : c = 0
              · rw [if_pos hc0] at hfn; simp at hfn
              · rw [if_neg hc0] at hfn
                obtain rfl := Option.some.inj hfn
                have htot : 0 < tot := lt_of_le_of_ne (hlen f tot hL) (Ne.symm h0)
                have hcpos : 0 < c := lt_of_le_of_ne (hlen clipped c hcl) (Ne.symm hc0)
                refine ⟨le_min (by norm_num) ?_, min_le_left _ _⟩
                positivity
  · intro f piece hmem
    unfold buildPolygonMeshPieces at hmem
    cases hL : G.areaSqM f with
    | none => rw [hL] at hmem; simp at hmem
    | some tot =>
      simp only [hL] at hmem
      by_cases h0 : tot = 0
      · rw [if_pos h0] at hmem; simp at hmem
      · rw [if_neg h0] at hmem
        by_cases hemp : (buildMeshCells maxCells (G.bboxOf f)).isEmpty
        · rw [if_pos hemp] at hmem; simp at hmem
        · rw [if_neg hemp, List.mem_filterMap] at hmem
          obtain ⟨cell, _, hfn⟩ := hmem
          cases hclip : G.clip f cell.bbox with
          | none => rw [hclip] at hfn; simp at hfn
          | some clipped =>
            simp only [hclip] at hfn
            cases hcl : G.areaSqM clipped with
            | none => rw [hcl] at hfn; simp at hfn
            | some c =>
              simp only [hcl] at hfn
              by_cases hc0 : c = 0
              · rw [if_pos hc0] at hfn; simp at hfn
              · rw [if_neg hc0] at hfn
                obtain rfl := Option.some.inj hfn
                have htot : 0 < tot := lt_of_le_of_ne (harea f tot hL) (Ne.symm h0)
                have hcpos : 0 < c := lt_of_le_of_ne (harea clipped c hcl) (Ne.symm hc0)
                refine ⟨le_min (by norm_num) ?_, min_le_left _ _⟩
                positivity

theorem intersectBbox_some (bbox bounds bounded : BBox)
    (h : intersectBbox bbox bounds = some bounded) :
    bounded = ⟨max bbox.minLon bounds.minLon, max bbox.minLat bounds.minLat,
      min bbox.maxLon bounds.maxLon, min bbox.maxLat bounds.maxLat⟩ ∧
    bounded.minLon < bounded.maxLon ∧ bounded.minLat < bounded.maxLat := by
  unfold intersectBbox at h
  simp only at h
  by_cases hc : min bbox.maxLon bounds.maxLon ≤ max bbox.minLon bounds.minLon ∨
      min bbox.maxLat bounds.maxLat ≤ max bbox.minLat bounds.minLat
  · rw [if_pos hc] at h
    exact absurd h (by simp)
  · rw [if_neg hc] at h
    obtain rfl := Option.some.inj h
    push_neg at hc
    exact ⟨rfl, hc.1, hc.2⟩

theorem coverage_index (lo x hi st : ℚ) (hst : 0 < st) (hlo : lo ≤ x) (hhi : x ≤ hi)
    (hlh : lo < hi) :
    ∃ i : ℕ, (i : ℤ) < ⌈hi / st⌉ - ⌊lo / st⌋ ∧
      ((⌊lo / st⌋ : ℚ) + i) * st ≤ x ∧ x ≤ ((⌊lo / st⌋ : ℚ) + i + 1) * st := by
  have hdivx : x / st * st = x := div_mul_cancel₀ x hst.ne'
  have hFx : ⌊lo / st⌋ ≤ ⌊x / st⌋ := Int.floor_le_floor (by gcongr)
  have hxf : (⌊x / st⌋ : ℚ) ≤ x / st := Int.floor_le _
  have hxc : x / st < ⌊x / st⌋ + 1 := Int.lt_floor_add_one _
  have hceil : hi / st ≤ (⌈hi / st⌉ : ℚ) := Int.le_ceil _
  have hxhi : x / st ≤ hi / st := by gcongr
  have hrows : ⌊lo / st⌋ < ⌈hi / st⌉ := by
    by_contra hle
    push_neg at hle
    have h1 : (⌊lo / st⌋ : ℚ) ≤ lo / st := Int.floor_le _
    have h2 : lo / st < hi / st := by gcongr
    have h3 : (⌈hi / st⌉ : ℚ) ≤ (⌊lo / st⌋ : ℚ) := by exact_mod_cast hle
    linarith
  have hfl : (⌊x / st⌋ : ℚ) * st ≤ x := by
    have := mul_le_mul_of_nonneg_right hxf hst.le
    rwa [hdivx] at this
  have hfu : x ≤ ((⌊x / st⌋ : ℚ) + 1) * st := by
    have := mul_le_mul_of_nonneg_right hxc.le hst.le
    rwa [hdivx] at this
  rcases le_or_lt (⌊x / st⌋ - ⌊lo / st⌋) (⌈hi / st⌉ - ⌊lo / st⌋ - 1) with hcase | hcase
  · have hnn : (0 : ℤ) ≤ ⌊x / st⌋ - ⌊lo / st⌋ := by omega
    have hk : (((⌊x / st⌋ - ⌊lo / st⌋).toNat : ℕ) : ℚ) = (⌊x / st⌋ : ℚ) - ⌊lo / st⌋ := by
      exact_mod_cast congrArg (fun z : ℤ => (z : ℚ)) (Int.toNat_of_nonneg hnn)
    refine ⟨(⌊x / st⌋ - ⌊lo / st⌋).toNat, ?_, ?_, ?_⟩
    · rw [Int.toNat_of_nonneg hnn]
      omega
    · rw [hk]
      have heq : ((⌊lo / st⌋ : ℚ) + ((⌊x / st⌋ : ℚ) - ⌊lo / st⌋)) * st =
          (⌊x / st⌋ : ℚ) * st := by ring
      rw [heq]
      exact hfl
    · rw [hk]
      have heq : ((⌊lo / st⌋ : ℚ) + ((⌊x / st⌋ : ℚ) - ⌊lo / st⌋) + 1) * st =
          ((⌊x / st⌋ : ℚ) + 1) * st := by ring
      rw [heq]
      exact hfu
  · have hCx : ⌈hi / st⌉ ≤ ⌊x / st⌋ := by omega
    have hCx' : (⌈hi / st⌉ : ℚ) ≤ (⌊x / st⌋ : ℚ) := by exact_mod_cast hCx
    have hceilx : (⌈hi / st⌉ : ℚ) = x / st := by linarith
    have hx : (⌈hi / st⌉ : ℚ) * st = x := by rw [hceilx, hdivx]
    have hnn : (0 : ℤ) ≤ ⌈hi / st⌉ - ⌊lo / st⌋ - 1 := by omega
    have hk : (((⌈hi / st⌉ - ⌊lo / st⌋ - 1).toNat : ℕ) : ℚ) =
        (⌈hi / st⌉ : ℚ) - ⌊lo / st⌋ - 1 := by
      exact_mod_cast congrArg (fun z : ℤ => (z : ℚ)) (Int.toNat_of_nonneg hnn)
    refine ⟨(⌈hi / st⌉ - ⌊lo / st⌋ - 1).toNat, ?_, ?_, ?_⟩
    · rw [Int.toNat_of_nonneg hnn]
      omega
    · rw [hk]
      have heq : ((⌊lo / st⌋ : ℚ) + ((⌈hi / st⌉ : ℚ) - ⌊lo / st⌋ - 1)) * st =
          (⌈hi / st⌉ : ℚ) * st - st := by ring
      rw [heq]
      linarith
    · rw [hk]
      have heq : ((⌊lo / st⌋ : ℚ) + ((⌈hi / st⌉ : ℚ) - ⌊lo / st⌋ - 1) + 1) * st =
          (⌈hi / st⌉ : ℚ) * st := by ring
      rw [heq]
      linarith

theorem tileCell_bbox (a b : ℚ) (i j : ℕ) :
    (tileCell a b i j).bbox =
      ⟨(b + j * MESH_LON_STEP_SEC) / 3600, (a + i * MESH_LAT_STEP_SEC) / 3600,
        (b + j * MESH_LON_STEP_SEC + MESH_LON_STEP_SEC) / 3600,
        (a + i * MESH_LAT_STEP_SEC + MESH_LAT_STEP_SEC) / 3600⟩ := rfl

theorem tile_row_unique (a st : ℚ) (hst : 0 < st) (i1 i2 : ℕ) (x : ℚ)
    (h1a : (a + i1 * st) / 3600 < x) (h1b : x < (a + i1 * st + st) / 3600)
    (h2a : (a + i2 * st) / 3600 < x) (h2b : x < (a + i2 * st + st) / 3600) :
    i1 = i2 := by
  by_contra hne
  rcases Nat.lt_or_ge i1 i2 with hlt | hge
  · have hc : (i1 : ℚ) + 1 ≤ i2 := by exact_mod_cast hlt
    nlinarith
  · have hgt : i2 < i1 := by omega
    have hc : (i2 : ℚ) + 1 ≤ i1 := by exact_mod_cast hgt
    nlinarith

/-- C3 (amended): for an input bbox meeting the national extent, the
returned cells cover every point of the clamped bbox (no gaps), and two
cells of the result that share an interior point are the same cell (no
double-counted area beyond shared boundaries).  The union is the
outward-snapped grid rectangle, which can properly exceed the clamped
bbox — see the counterexample for the claim as originally stated. -/
theorem c3_tiling_covers_and_no_overlap (bbox bounded : BBox)
    (hsome : intersectBbox bbox JAPAN_BOUNDS = some bounded) :
    (∀ lon lat, inBbox lon lat bounded → coveredBy (buildMeshCells ⊤ bbox) lon lat) ∧
    (∀ c1 ∈ buildMeshCells ⊤ bbox, ∀ c2 ∈ buildMeshCells ⊤ bbox,
      ∀ lon lat, strictlyInside lon lat c1.bbox → strictlyInside lon lat c2.bbox →
        c1 = c2) := by
  obtain ⟨hbd, hwidth, hheight⟩ := intersectBbox_some bbox JAPAN_BOUNDS bounded hsome
  have hlat : (0 : ℚ) < MESH_LAT_STEP_SEC := by norm_num [MESH_LAT_STEP_SEC]
  have hlon : (0 : ℚ) < MESH_LON_STEP_SEC := by norm_num [MESH_LON_STEP_SEC]
  have hcells : buildMeshCells ⊤ bbox =
      (List.range (gridRows bounded).toNat).flatMap fun i =>
        (List.range (gridCols bounded).toNat).map fun j =>
          tileCell (⌊bounded.minLat * 3600 / MESH_LAT_STEP_SEC⌋ * MESH_LAT_STEP_SEC)
            (⌊bounded.minLon * 3600 / MESH_LON_STEP_SEC⌋ * MESH_LON_STEP_SEC) i j := by
    rw [buildMeshCells_eq ⊤ bbox bounded hsome, if_neg (by simp)]
  constructor
  · intro lon lat hin
    obtain ⟨hin1, hin2, hin3, hin4⟩ := hin
    obtain ⟨i, hirow, hia, hib⟩ := coverage_index (bounded.minLat * 3600) (lat * 3600)
      (bounded.maxLat * 3600) MESH_LAT_STEP_SEC hlat (by linarith) (by linarith)
      (by linarith)
    obtain ⟨j, hjcol, hja, hjb⟩ := coverage_index (bounded.minLon * 3600) (lon * 3600)
      (bounded.maxLon * 3600) MESH_LON_STEP_SEC hlon (by linarith) (by linarith)
      (by linarith)
    refine ⟨tileCell (⌊bounded.minLat * 3600 / MESH_LAT_STEP_SEC⌋ * MESH_LAT_STEP_SEC)
      (⌊bounded.minLon * 3600 / MESH_LON_STEP_SEC⌋ * MESH_LON_STEP_SEC) i j, ?_, ?_⟩
    · rw [hcells]
      refine List.mem_flatMap.2 ⟨i, List.mem_range.2 ?_, List.mem_map.2 ⟨j,
        List.mem_range.2 ?_, rfl⟩⟩
      · unfold gridRows
        omega
      · unfold gridCols
        omega
    · rw [tileCell_bbox]
      refine ⟨by push_cast; nlinarith, by push_cast; nlinarith,
        by push_cast; nlinarith, by push_cast; nlinarith⟩
  · intro c1 hc1 c2 hc2 lon lat hs1 hs2
    rw [hcells] at hc1 hc2
    obtain ⟨i1, hi1, hmap1⟩ := List.mem_flatMap.1 hc1
    obtain ⟨j1, hj1, rfl⟩ := List.mem_map.1 hmap1
    obtain ⟨i2, hi2, hmap2⟩ := List.mem_flatMap.1 hc2
    obtain ⟨j2, hj2, rfl⟩ := List.mem_map.1 hmap2
    rw [tileCell_bbox] at hs1 hs2
    obtain ⟨ha1, hb1, hc1', hd1⟩ := hs1
    obtain ⟨ha2, hb2, hc2', hd2⟩ := hs2
    dsimp only at ha1 hb1 hc1' hd1 ha2 hb2 hc2' hd2
    have hieq : i1 = i2 :=
      tile_row_unique _ MESH_LAT_STEP_SEC hlat i1 i2 lat hc1' hd1 hc2' hd2
    have hjeq : j1 = j2 :=
      tile_row_unique _ MESH_LON_STEP_SEC hlon j1 j2 lon ha1 hb1 ha2 hb2
    rw [hieq, hjeq]

/-- Witness for C3's amended theorem at a concrete Tokyo-area bbox. -/
theorem c3_tiling_covers_and_no_overlap_witness :
    coveredBy (buildMeshCells ⊤ ⟨139.001, 35.001, 139.002, 35.002⟩) 139.0015 35.0015 :=
  (c3_tiling_covers_and_no_overlap ⟨139.001, 35.001, 139.002, 35.002⟩
    ⟨139.001, 35.001, 139.002, 35.002⟩ (by decide)).1 139.0015 35.0015 (by decide)

/-- Counterexample for C3 as stated: the union of the returned cell bboxes
does not exactly equal the clamped input bbox — the outward snapping makes
it strictly larger.  The point (139.0015, 35.0005) is covered by the single
returned cell but lies outside the (clamped) input bbox. -/
theorem c3_exact_coverage_counterexample :
    intersectBbox ⟨139.001, 35.001, 139.002, 35.002⟩ JAPAN_BOUNDS =
      some ⟨139.001, 35.001, 139.002, 35.002⟩ ∧
    coveredBy (buildMeshCells ⊤ ⟨139.001, 35.001, 139.002, 35.002⟩) 139.0015 35.0005 ∧
    ¬ inBbox 139.0015 35.0005 ⟨139.001, 35.001, 139.002, 35.002⟩ := by
  refine ⟨by decide, by decide, by decide⟩

theorem chunkArray_mem_bounds {β : Type} (rows : List β) :
    ∀ chunk ∈ chunkArray rows, chunk.length ≤ INSERT_CHUNK_SIZE ∧ chunk ≠ [] := by
  induction rows using chunkArray.induct with
  | case1 =>
    intro chunk h
    rw [chunkArray] at h
    simp at h
  | case2 x rest ih =>
    intro chunk h
    rw [chunkArray] at h
    rcases List.mem_cons.1 h with hc | hc
    · subst hc
      refine ⟨List.length_take_le _ _, ?_⟩
      simp [List.take_eq_nil_iff, INSERT_CHUNK_SIZE]
    · exact ih chunk hc

theorem chunkArray_length {β : Type} (rows : List β) :
    (chunkArray rows).length = (rows.length + INSERT_CHUNK_SIZE - 1) / INSERT_CHUNK_SIZE := by
  induction rows using chunkArray.induct with
  | case1 =>
    rw [chunkArray]
    simp [INSERT_CHUNK_SIZE]
  | case2 x rest ih =>
    rw [chunkArray]
    simp only [List.length_cons, List.length_drop] at ih ⊢
    rw [ih]
    simp only [INSERT_CHUNK_SIZE]
    omega

theorem chunkArray_join {β : Type} (rows : List β) :
    (chunkArray rows).flatten = rows := by
  induction rows using chunkArray.induct with
  | case1 =>
    rw [chunkArray]
    rfl
  | case2 x rest ih =>
    rw [chunkArray]
    rw [List.flatten_cons, ih]
    exact List.take_append_drop _ _

theorem sliceChunksTail_eq_chunkArray {β : Type} (rows : List β) (i : ℕ) :
    sliceChunksTail rows i = chunkArray (rows.drop i) := by
  induction i using sliceChunksTail.induct rows with
  | case1 x hlt ih =>
    rw [sliceChunksTail, if_pos hlt, ih]
    have hne : rows.drop x ≠ [] := by
      apply List.ne_nil_of_length_pos
      simp
      omega
    obtain ⟨y, ys, hy⟩ := List.exists_cons_of_ne_nil hne
    rw [hy, chunkArray, ← hy, List.drop_drop, Nat.add_comm]
  | case2 x hnlt =>
    rw [sliceChunksTail, if_neg hnlt, List.drop_eq_nil_of_le (by omega), chunkArray]

/-- C8: every insert statement the ingestion code issues is a chunk of at
most `INSERT_CHUNK_SIZE = 500` rows: both `chunkArray` (used by `seed.ts`
for the generic tables, dynamic tables and mesh-index upserts) and the
slicing loop of `insertInChunks` (used by `mapMeshes.ts`) split any row
list into exactly `⌈n / 500⌉` nonempty slices of at most 500 consecutive
rows whose concatenation is the original list. -/
theorem c8_bounded_insert_batches {β : Type} (rows : List β) :
    (∀ chunk ∈ chunkArray rows, chunk.length ≤ INSERT_CHUNK_SIZE ∧ chunk ≠ []) ∧
    (chunkArray rows).length = (rows.length + INSERT_CHUNK_SIZE - 1) / INSERT_CHUNK_SIZE ∧
    (chunkArray rows).flatten = rows ∧
    insertInChunksStmts rows = chunkArray rows := by
  refine ⟨chunkArray_mem_bounds rows, chunkArray_length rows, chunkArray_join rows, ?_⟩
  rw [insertInChunksStmts, sliceChunksTail_eq_chunkArray rows 0, List.drop_zero]

/-- Witness for C8: 1001 rows are sent as exactly 3 statements that
recombine to the original rows. -/
theorem c8_bounded_insert_batches_witness :
    (chunkArray (List.replicate 1001 (0 : ℕ))).length = 3 ∧
    (chunkArray (List.replicate 1001 (0 : ℕ))).flatten = List.replicate 1001 (0 : ℕ) := by
  obtain ⟨h1, h2, h3, h4⟩ := c8_bounded_insert_batches (List.replicate 1001 (0 : ℕ))
  refine ⟨?_, h3⟩
  rw [h2, List.length_replicate]
  rfl

/-- Witness for C4: the single piece produced for a small Tokyo-area line
feature under the trivial oracle has its ratio in `[0, 1]`. -/
theorem buildLineMeshPieces_nil_of_cells {α : Type} (maxCells : ℕ∞) (G : GeomOracle α)
    (g : α) (h : buildMeshCells maxCells (G.bboxOf g) = []) :
    buildLineMeshPieces maxCells G g = [] := by
  unfold buildLineMeshPieces
  cases G.lengthKm g with
  | none => rfl
  | some t => rw [h]; simp

theorem buildPolygonMeshPieces_nil_of_cells {α : Type} (maxCells : ℕ∞)
    (G : GeomOracle α) (g : α) (h : buildMeshCells maxCells (G.bboxOf g) = []) :
    buildPolygonMeshPieces maxCells G g = [] := by
  unfold buildPolygonMeshPieces
  cases G.areaSqM g with
  | none => rfl
  | some t => rw [h]; simp

theorem insertRowsDynamic_nil {α : Type} (σ : Store α) (n : String) :
    insertRowsDynamic σ n [] = σ := by
  simp [insertRowsDynamic]

theorem upsertMeshIndex_nil {α : Type} (σ : Store α) : upsertMeshIndex σ [] = σ := rfl

theorem processLineLayer_of_no_items {α : Type} (maxCells : ℕ∞) (G : GeomOracle α)
    (ld : LayerDefinition α) (σ : Store α)
    (hitems : toLineItems maxCells G ld.features = []) :
    processLineLayer maxCells G ld σ = ([], σ) := by
  unfold processLineLayer
  cases hm : ld.meshMapTable with
  | none => rfl
  | some m =>
    simp only [hitems, lineMeshIndexIds, linePrimaryIds, linePieceIds, lineLayerRows,
      lineGenericRows, lineMapRows, lineDynMapRows, List.map_nil, List.flatMap_nil,
      List.dedup_nil, List.append_nil, upsertMeshIndex_nil, insertRowsDynamic_nil]

theorem processPolygonLayer_of_no_items {α : Type} (maxCells : ℕ∞) (G : GeomOracle α)
    (ld : LayerDefinition α) (σ : Store α)
    (hitems : toPolygonItems maxCells G ld.features = []) :
    processPolygonLayer maxCells G ld σ = ([], σ) := by
  unfold processPolygonLayer
  cases hm : ld.meshMapTable with
  | none => rfl
  | some m =>
    simp only [hitems, polyMeshIndexIds, polyPrimaryIds, polyPieceIds, polyLayerRows,
      polyGenericRows, polyMapRows, polyDynMapRows, List.map_nil, List.flatMap_nil,
      List.dedup_nil, List.append_nil, upsertMeshIndex_nil, insertRowsDynamic_nil]

/-- C7: the spec says a capacity-exceeded line/polygon feature "is still
stored in the generic/per-layer table, but contributes no
mesh-decomposition rows".  The code disagrees: `toLineItems` and
`toPolygonItems` return early when `buildLineMeshPieces` /
`buildPolygonMeshPieces` come back empty, so the feature is dropped from
the item list entirely and the amended property holds instead — when the
candidate cells of a layer's only feature are emptied by the capacity
guard, the pipeline stores NOTHING for that feature: the item lists are
empty and `processLineLayer` / `processPolygonLayer` return the store
unchanged (no generic rows, no per-layer rows, no mesh-map rows, no mesh
ids). -/
theorem c7_capacity_feature_dropped {α : Type} (maxCells : ℕ∞) (G : GeomOracle α)
    (g : α) (props : Option String) (ldL ldP : LayerDefinition α) (σ : Store α)
    (hcap : buildMeshCells maxCells (G.bboxOf g) = [])
    (hL : ldL.features = [⟨some (Geom.lineString g), props⟩])
    (hP : ldP.features = [⟨some (Geom.polygon g), props⟩]) :
    toLineItems maxCells G ldL.features = [] ∧
    toPolygonItems maxCells G ldP.features = [] ∧
    processLineLayer maxCells G ldL σ = ([], σ) ∧
    processPolygonLayer maxCells G ldP σ = ([], σ) := by
  have hLitems : toLineItems maxCells G ldL.features = [] := by
    rw [hL]
    simp [toLineItems, buildLineMeshPieces_nil_of_cells maxCells G g hcap]
  have hPitems : toPolygonItems maxCells G ldP.features = [] := by
    rw [hP]
    simp [toPolygonItems, buildPolygonMeshPieces_nil_of_cells maxCells G g hcap]
  exact ⟨hLitems, hPitems, processLineLayer_of_no_items maxCells G ldL σ hLitems,
    processPolygonLayer_of_no_items maxCells G ldP σ hPitems⟩

/-- Witness for C7's amended theorem: at `maxCells = 1` the snapped grid of
`capBBox` (24 cells) trips the guard, and both single-feature layers leave
the empty store untouched. -/
theorem c7_capacity_feature_dropped_witness :
    buildMeshCells 1 ((constOracle capBBox).bboxOf ()) = [] ∧
    processLineLayer 1 (constOracle capBBox) capLineDef emptyStore = ([], emptyStore) ∧
    processPolygonLayer 1 (constOracle capBBox) capPolyDef emptyStore = ([], emptyStore) := by
  refine ⟨by decide, ?_⟩
  have h := c7_capacity_feature_dropped 1 (constOracle capBBox) () none capLineDef
    capPolyDef emptyStore (by decide) rfl rfl
  exact ⟨h.2.2.1, h.2.2.2⟩

/-- Counterexample to C7 as stated: a line feature whose candidate cell
count (24) exceeds the configured guard (1) — its bbox lies inside the
national bounds, so the guard is what emptied the cells — is NOT stored by
`processLayer`: afterwards the generic `line_features` table has no rows
and the per-layer table `roads` exists but is empty, contradicting "the
pipeline still stores the whole feature in the generic and per-layer
tables". -/
theorem c7_capacity_still_stored_counterexample :
    intersectBbox capBBox JAPAN_BOUNDS = some capBBox ∧
    1 < snappedGridSize capBBox ∧
    buildMeshCells 1 ((constOracle capBBox).bboxOf ()) = [] ∧
    (processLayer 1 (constOracle capBBox) capLineDef emptyStore).lineFeatures = [] ∧
    lookupTable (processLayer 1 (constOracle capBBox) capLineDef emptyStore).dynTables
      "roads" = some [] := by
  decide

theorem jsonbLookup_none_keys (m : List (String × Bool)) (k : String)
    (h : jsonbLookup m k = none) : ∀ pair ∈ m, pair.1 ≠ k := by
  induction m with
  | nil => simp
  | cons hd tl ih =>
    obtain ⟨k1, v1⟩ := hd
    simp only [jsonbLookup] at h
    by_cases hk : k1 = k
    · rw [if_pos hk] at h; exact absurd h (by simp)
    · rw [if_neg hk] at h
      intro pair hmem
      rcases List.mem_cons.mp hmem with hhd | htl
      · rw [hhd]; exact hk
      · exact ih h pair htl

theorem jsonbRemoveKey_of_none (m : List (String × Bool)) (k : String)
    (h : jsonbLookup m k = none) : jsonbRemoveKey m k = m := by
  unfold jsonbRemoveKey
  rw [List.filter_eq_self]
  intro pair hmem
  simpa using jsonbLookup_none_keys m k h pair hmem

theorem jsonbRemove_set_of_none (m : List (String × Bool)) (k : String) (v : Bool)
    (h : jsonbLookup m k = none) : jsonbRemoveKey (jsonbSetKey m k v) k = m := by
  induction m with
  | nil => simp [jsonbSetKey, jsonbRemoveKey]
  | cons hd tl ih =>
    obtain ⟨k1, v1⟩ := hd
    simp only [jsonbLookup] at h
    by_cases hk : k1 = k
    · rw [if_pos hk] at h; exact absurd h (by simp)
    · rw [if_neg hk] at h
      have hk' : ¬ k = k1 := fun c => hk c.symm
      simp only [jsonbSetKey, if_neg hk']
      have hrt := jsonbRemoveKey_of_none tl k h
      simp only [jsonbRemoveKey, ne_eq, decide_not] at hrt
      by_cases hlt : k < k1
      · rw [if_pos hlt]
        simp [jsonbRemoveKey, hk, hrt]
      · rw [if_neg hlt]
        have hit := ih h
        simp only [jsonbRemoveKey, ne_eq, decide_not] at hit
        simp [jsonbRemoveKey, hk, hit]

theorem lookupTable_none_iff {α : Type} (l : List (String × List (DynRow α)))
    (n : String) : lookupTable l n = none ↔ ∀ e ∈ l, e.1 ≠ n := by
  induction l with
  | nil => simp [lookupTable]
  | cons hd tl ih =>
    simp only [lookupTable]
    by_cases h : hd.1 = n
    · rw [if_pos h]; simp [h]
    · rw [if_neg h]
      rw [ih]
      constructor
      · intro hall e hmem
        rcases List.mem_cons.mp hmem with he | he
        · rw [he]; exact h
        · exact hall e he
      · intro hall e hmem; exact hall e (List.mem_cons_of_mem _ hmem)

theorem lookupTable_append_of_none {α : Type} (l1 l2 : List (String × List (DynRow α)))
    (n : String) (h : lookupTable l1 n = none) :
    lookupTable (l1 ++ l2) n = lookupTable l2 n := by
  induction l1 with
  | nil => simp
  | cons hd tl ih =>
    simp only [lookupTable] at h ⊢
    by_cases hh : hd.1 = n
    · rw [if_pos hh] at h; exact absurd h (by simp)
    · rw [if_neg hh] at h ⊢; exact ih h

theorem setTable_of_none {α : Type} (l : List (String × List (DynRow α))) (n : String)
    (r : List (DynRow α)) (h : lookupTable l n = none) : setTable l n r = l := by
  unfold setTable
  have := (lookupTable_none_iff l n).mp h
  rw [List.map_congr_left (fun e he => if_neg (this e he))]
  exact List.map_id l

theorem createTable_of_none {α : Type} (l : List (String × List (DynRow α)))
    (n : String) (h : lookupTable l n = none) : createTable l n = l ++ [(n, [])] := by
  unfold createTable; rw [h]

theorem createTable_of_isSome {α : Type} (l : List (String × List (DynRow α)))
    (n : String) (rows : List (DynRow α)) (h : lookupTable l n = some rows) :
    createTable l n = l := by
  unfold createTable; rw [h]

theorem map_insert_of_none {α : Type} (l : List (String × List (DynRow α))) (n : String)
    (new : List (DynRow α)) (h : lookupTable l n = none) :
    (l.map fun e => if e.1 = n then (e.1, e.2 ++ new) else e) = l := by
  have := (lookupTable_none_iff l n).mp h
  rw [List.map_congr_left (fun e he => if_neg (this e he))]
  exact List.map_id l

theorem refreshEntry_congr_ids {α : Type} (pf : List (GenRow α))
    (lmm : List (LineMapRow α)) (pmm : List (PolyMapRow α)) (ids1 ids2 : List String)
    (h : ∀ x, x ∈ ids1 ↔ x ∈ ids2) (e : MeshEntry) :
    refreshEntry pf lmm pmm ids1 e = refreshEntry pf lmm pmm ids2 e := by
  unfold refreshEntry
  by_cases hm : e.meshId ∈ ids1
  · rw [if_pos hm, if_pos ((h _).mp hm)]
  · rw [if_neg hm, if_neg (fun c => hm ((h _).mpr c))]

theorem refreshEntry_refreshEntry {α : Type} (pf : List (GenRow α))
    (lmm : List (LineMapRow α)) (pmm : List (PolyMapRow α)) (ids : List String)
    (e : MeshEntry) :
    refreshEntry pf lmm pmm ids (refreshEntry pf lmm pmm ids e) =
      refreshEntry pf lmm pmm ids e := by
  unfold refreshEntry
  by_cases hm : e.meshId ∈ ids
  · rw [if_pos hm]
    rw [if_pos (show ({ e with
        hasPoints := pf.any fun row => row.meshId = e.meshId
        hasLines := lmm.any fun row => row.meshId = e.meshId
        hasPolygons := pmm.any fun row => row.meshId = e.meshId } :
          MeshEntry).meshId ∈ ids from hm)]
  · rw [if_neg hm, if_neg hm]

theorem refreshEntry_addEntry {α : Type} (pf : List (GenRow α))
    (lmm : List (LineMapRow α)) (pmm : List (PolyMapRow α)) (ids1 ids2 : List String)
    (n : String) (e : MeshEntry) :
    refreshEntry pf lmm pmm ids1 (addEntry n ids2 e) =
      addEntry n ids2 (refreshEntry pf lmm pmm ids1 e) := by
  cases e with
  | mk meshId hp hl hg pres =>
    unfold refreshEntry addEntry
    by_cases h1 : meshId ∈ ids1 <;> by_cases h2 : meshId ∈ ids2 <;>
      simp [h1, h2]

theorem refreshEntry_removeEntry {α : Type} (pf : List (GenRow α))
    (lmm : List (LineMapRow α)) (pmm : List (PolyMapRow α)) (ids1 ids2 : List String)
    (n : String) (e : MeshEntry) :
    refreshEntry pf lmm pmm ids1 (removeEntry n ids2 e) =
      removeEntry n ids2 (refreshEntry pf lmm pmm ids1 e) := by
  cases e with
  | mk meshId hp hl hg pres =>
    unfold refreshEntry removeEntry
    by_cases h1 : meshId ∈ ids1 <;> by_cases h2 : meshId ∈ ids2 <;>
      simp [h1, h2]

theorem addEntry_removeEntry_addEntry (n : String) (ids : List String) (e : MeshEntry)
    (h : jsonbLookup e.layerPresence n = none) :
    addEntry n ids (removeEntry n ids (addEntry n ids e)) = addEntry n ids e := by
  cases e with
  | mk meshId hp hl hg pres =>
    unfold addEntry removeEntry
    have hrs : jsonbRemoveKey (jsonbSetKey pres n true) n = pres :=
      jsonbRemove_set_of_none pres n true (by simpa using h)
    by_cases hm : meshId ∈ ids
    · simp [hm, hrs]
    · simp [hm]

theorem upsertEntries_any_mono (ids : List String) (mi : List MeshEntry)
    (p : MeshEntry → Bool) (h : mi.any p = true) :
    (upsertEntries mi ids).any p = true := by
  induction ids generalizing mi with
  | nil => exact h
  | cons i rest ih =>
    unfold upsertEntries
    simp only [List.foldl_cons]
    by_cases hc : mi.any (fun e => e.meshId = i) = true
    · rw [if_pos hc]; exact ih mi h
    · rw [if_neg hc]
      exact ih _ (by simp [List.any_append, h])

theorem upsertEntries_any (ids : List String) (mi : List MeshEntry) (M : String)
    (hM : M ∈ ids) :
    (upsertEntries mi ids).any (fun e => e.meshId = M) = true := by
  induction ids generalizing mi with
  | nil => exact absurd hM (by simp)
  | cons i rest ih =>
    unfold upsertEntries
    simp only [List.foldl_cons]
    rcases List.mem_cons.mp hM with rfl | hrest
    · by_cases hc : mi.any (fun e => e.meshId = M) = true
      · rw [if_pos hc]
        exact upsertEntries_any_mono rest mi _ hc
      · rw [if_neg hc]
        exact upsertEntries_any_mono rest _ _ (by simp)
    · by_cases hc : mi.any (fun e => e.meshId = i) = true
      · rw [if_pos hc]; exact ih mi hrest
      · rw [if_neg hc]; exact ih _ hrest

theorem upsertEntries_of_all_any (ids : List String) (mi : List MeshEntry)
    (h : ∀ M ∈ ids, mi.any (fun e => e.meshId = M) = true) :
    upsertEntries mi ids = mi := by
  induction ids with
  | nil => rfl
  | cons i rest ih =>
    unfold upsertEntries
    simp only [List.foldl_cons]
    rw [if_pos (h i (by simp))]
    exact ih fun M hM => h M (List.mem_cons_of_mem _ hM)

theorem upsertEntries_presence_none (ids : List String) (mi : List MeshEntry)
    (n : String) (h : ∀ e ∈ mi, jsonbLookup e.layerPresence n = none) :
    ∀ e ∈ upsertEntries mi ids, jsonbLookup e.layerPresence n = none := by
  induction ids generalizing mi with
  | nil => exact h
  | cons i rest ih =>
    unfold upsertEntries
    simp only [List.foldl_cons]
    by_cases hc : mi.any (fun e => e.meshId = i) = true
    · rw [if_pos hc]; exact ih mi h
    · rw [if_neg hc]
      refine ih _ fun e he => ?_
      rcases List.mem_append.mp he with he1 | he2
      · exact h e he1
      · have : e = ⟨i, false, false, false, []⟩ := by simpa using he2
        rw [this]; rfl

theorem upsertEntries_meshId_any (ids : List String) (mi : List MeshEntry)
    (M : String) (hM : mi.any (fun e => e.meshId = M) = false)
    (hM2 : M ∉ ids) :
    (upsertEntries mi ids).any (fun e => e.meshId = M) = false := by
  induction ids generalizing mi with
  | nil => exact hM
  | cons i rest ih =>
    unfold upsertEntries
    simp only [List.foldl_cons]
    by_cases hc : mi.any (fun e => e.meshId = i) = true
    · rw [if_pos hc]
      exact ih mi hM (fun c => hM2 (List.mem_cons_of_mem _ c))
    · rw [if_neg hc]
      refine ih _ ?_ (fun c => hM2 (List.mem_cons_of_mem _ c))
      have hne : ¬ i = M := fun c => hM2 (c ▸ List.mem_cons_self i rest)
      simp [List.any_append, hM, hne]

theorem removeEntry_nil (n : String) (e : MeshEntry) : removeEntry n [] e = e := by
  unfold removeEntry; simp

theorem removeLayerPresence_nil {α : Type} (σ : Store α) (n : String) :
    removeLayerPresence σ n [] = σ := by
  unfold removeLayerPresence
  have h : σ.meshIndex.map (removeEntry n []) = σ.meshIndex.map (fun e => e) :=
    List.map_congr_left fun e _ => removeEntry_nil n e
  rw [h, List.map_id']

theorem filter_map_eq_nil {β γ : Type} (l : List β) (f : β → γ) (p : γ → Bool)
    (h : ∀ x, p (f x) = false) : (l.map f).filter p = [] := by
  induction l with
  | nil => rfl
  | cons x xs ih => simp [List.filter_cons, h, ih]

theorem deleteGenericRows_fresh {α : Type} (σ : Store α) (n : String)
    (h1 : ∀ r ∈ σ.pointFeatures, r.sourceLayer ≠ n)
    (h2 : ∀ r ∈ σ.lineFeatures, r.sourceLayer ≠ n)
    (h3 : ∀ r ∈ σ.polygonFeatures, r.sourceLayer ≠ n)
    (h4 : ∀ r ∈ σ.lineMeshMap, r.sourceLayer ≠ n)
    (h5 : ∀ r ∈ σ.polygonMeshMap, r.sourceLayer ≠ n) :
    deleteGenericRows σ n = σ := by
  unfold deleteGenericRows
  have e1 : (σ.pointFeatures.filter fun row => decide (row.sourceLayer ≠ n)) =
      σ.pointFeatures := List.filter_eq_self.mpr fun r hr => by simpa using h1 r hr
  have e2 : (σ.lineFeatures.filter fun row => decide (row.sourceLayer ≠ n)) =
      σ.lineFeatures := List.filter_eq_self.mpr fun r hr => by simpa using h2 r hr
  have e3 : (σ.polygonFeatures.filter fun row => decide (row.sourceLayer ≠ n)) =
      σ.polygonFeatures := List.filter_eq_self.mpr fun r hr => by simpa using h3 r hr
  have e4 : (σ.lineMeshMap.filter fun row => decide (row.sourceLayer ≠ n)) =
      σ.lineMeshMap := List.filter_eq_self.mpr fun r hr => by simpa using h4 r hr
  have e5 : (σ.polygonMeshMap.filter fun row => decide (row.sourceLayer ≠ n)) =
      σ.polygonMeshMap := List.filter_eq_self.mpr fun r hr => by simpa using h5 r hr
  rw [e1, e2, e3, e4, e5]

theorem deleteLayerTables_fresh {α : Type} (σ : Store α) (d : LayerDefinition α)
    (ht : lookupTable σ.dynTables d.tableName = none)
    (hm : ∀ m ∈ d.meshMapTable, lookupTable σ.dynTables m = none) :
    deleteLayerTables σ d = σ := by
  unfold deleteLayerTables tableExists
  rw [ht]
  simp only [Option.isSome_none, Bool.false_eq_true, if_false]
  cases hmt : d.meshMapTable with
  | none => rfl
  | some m =>
    have hm2 := hm m (by rw [hmt]; rfl)
    simp [hm2]

theorem ensureLayerTables_point_fresh {α : Type} (d : LayerDefinition α) (σ : Store α)
    (hkind : d.geometryType = GeometryKind.point) (hmap : d.meshMapTable = none)
    (ht : lookupTable σ.dynTables d.tableName = none) :
    ensureLayerTables d σ = { σ with dynTables := σ.dynTables ++ [(d.tableName, [])] } := by
  unfold ensureLayerTables
  rw [hkind, hmap, createTable_of_none σ.dynTables d.tableName ht]

theorem ensureLayerTables_line_fresh {α : Type} (d : LayerDefinition α) (σ : Store α)
    (m : String) (hkind : d.geometryType = GeometryKind.line)
    (hmap : d.meshMapTable = some m)
    (ht : lookupTable σ.dynTables d.tableName = none)
    (hm2 : lookupTable σ.dynTables m = none) (hmt : m ≠ d.tableName) :
    ensureLayerTables d σ =
      { σ with dynTables := σ.dynTables ++ [(d.tableName, []), (m, [])] } := by
  unfold ensureLayerTables
  rw [hkind, hmap]
  show ({ σ with
    dynTables := createTable (createTable σ.dynTables d.tableName) m } : Store α) = _
  have hm3 : lookupTable (σ.dynTables ++ [(d.tableName, [])]) m = none := by
    rw [lookupTable_append_of_none σ.dynTables _ m hm2]
    unfold lookupTable
    rw [if_neg (fun c => hmt c.symm)]
    rfl
  rw [createTable_of_none σ.dynTables d.tableName ht, createTable_of_none _ m hm3,
    List.append_assoc]
  rfl

theorem ensureLayerTables_poly_fresh {α : Type} (d : LayerDefinition α) (σ : Store α)
    (m : String) (hkind : d.geometryType = GeometryKind.polygon)
    (hmap : d.meshMapTable = some m)
    (ht : lookupTable σ.dynTables d.tableName = none)
    (hm2 : lookupTable σ.dynTables m = none) (hmt : m ≠ d.tableName) :
    ensureLayerTables d σ =
      { σ with dynTables := σ.dynTables ++ [(d.tableName, []), (m, [])] } := by
  unfold ensureLayerTables
  rw [hkind, hmap]
  show ({ σ with
    dynTables := createTable (createTable σ.dynTables d.tableName) m } : Store α) = _
  have hm3 : lookupTable (σ.dynTables ++ [(d.tableName, [])]) m = none := by
    rw [lookupTable_append_of_none σ.dynTables _ m hm2]
    unfold lookupTable
    rw [if_neg (fun c => hmt c.symm)]
    rfl
  rw [createTable_of_none σ.dynTables d.tableName ht, createTable_of_none _ m hm3,
    List.append_assoc]
  rfl

theorem find?_reg_none (reg : List RegRow) (n : String)
    (h : ∀ r ∈ reg, r.layerName ≠ n) :
    (reg.find? fun row => row.layerName = n) = none :=
  List.find?_eq_none.mpr fun r hr => by simpa using h r hr

theorem find?_reg_append_self (reg : List RegRow) (r0 : RegRow) (n : String)
    (h : ∀ r ∈ reg, r.layerName ≠ n) (h0 : r0.layerName = n) :
    ((reg ++ [r0]).find? fun row => row.layerName = n) = some r0 := by
  induction reg with
  | nil =>
    simp only [List.nil_append]
    exact List.find?_cons_of_pos _ (by simpa using h0)
  | cons hd tl ih =>
    rw [List.cons_append, List.find?_cons_of_neg _ (by simpa using h hd (by simp))]
    exact ih fun r hr => h r (List.mem_cons_of_mem _ hr)

theorem upsertRegistry_fresh {α : Type} (σ : Store α) (d : LayerDefinition α)
    (h : ∀ r ∈ σ.layerRegistry, r.layerName ≠ d.layerName) :
    upsertRegistry σ d = { σ with layerRegistry := σ.layerRegistry ++ [regRowOf d] } := by
  unfold upsertRegistry
  have hany : (σ.layerRegistry.any fun e => e.layerName = d.layerName) = false := by
    rw [List.any_eq_false]
    intro r hr
    simpa using h r hr
  rw [hany]
  simp

theorem upsertRegistry_existing {α : Type} (σ : Store α) (d : LayerDefinition α)
    (reg0 : List RegRow) (hreg : σ.layerRegistry = reg0 ++ [regRowOf d])
    (h : ∀ r ∈ reg0, r.layerName ≠ d.layerName) :
    upsertRegistry σ d = σ := by
  unfold upsertRegistry
  have hany : (σ.layerRegistry.any fun e => e.layerName = d.layerName) = true := by
    rw [hreg]
    simp [List.any_append, regRowOf]
  rw [hany]
  simp only [if_true]
  have hmap : (σ.layerRegistry.map fun e =>
      if e.layerName = d.layerName then regRowOf d else e) = σ.layerRegistry := by
    rw [hreg, List.map_append]
    have hmap0 : (reg0.map fun e =>
        if e.layerName = d.layerName then regRowOf d else e) = reg0 := by
      rw [List.map_congr_left fun e he => if_neg (h e he)]
      exact List.map_id _
    rw [hmap0]
    simp [regRowOf]
  rw [hmap]

theorem pointLayerRows_meshIds {α : Type} (fs : List (Feat α)) :
    ((pointLayerRows fs).map DynRow.meshId).dedup = pointNewIds fs := by
  unfold pointLayerRows pointNewIds
  rw [List.map_map]
  rfl

theorem lineDynMapRows_meshIds {α : Type} (items : List (LineItem α)) :
    ((lineDynMapRows items).map DynRow.meshId).dedup = linePieceIds items := by
  unfold lineDynMapRows linePieceIds
  congr 1
  induction items with
  | nil => rfl
  | cons it rest ih =>
    simp only [List.flatMap_cons, List.map_append, List.map_map, ih]
    rfl

theorem polyDynMapRows_meshIds {α : Type} (items : List (PolygonItem α)) :
    ((polyDynMapRows items).map DynRow.meshId).dedup = polyPieceIds items := by
  unfold polyDynMapRows polyPieceIds
  congr 1
  induction items with
  | nil => rfl
  | cons it rest ih =>
    simp only [List.flatMap_cons, List.map_append, List.map_map, ih]
    rfl

theorem processLayer_point_seq {α : Type} (maxCells : ℕ∞) (G : GeomOracle α)
    (d : LayerDefinition α) (σ : Store α)
    (hkind : d.geometryType = GeometryKind.point)
    (hreg : (σ.layerRegistry.find? fun row => row.layerName = d.layerName) = none) :
    processLayer maxCells G d σ =
      (fun res : List String × Store α => upsertRegistry (refreshMeshFlags
          (addLayerPresence (removeLayerPresence res.2 d.layerName []) d.layerName res.1)
          (([] ++ res.1).dedup)) d)
        (processPointLayer d (ensureLayerTables d (deleteLayerTables
          (deleteGenericRows σ d.layerName) d))) := by
  unfold processLayer
  rw [hreg, hkind]

theorem processPointLayer_fresh_table {α : Type} (d : LayerDefinition α) (σ : Store α)
    (h8 : lookupTable σ.dynTables d.tableName = none) :
    processPointLayer d ({ σ with
        dynTables := σ.dynTables ++ [(d.tableName, [])] } : Store α) =
      (pointNewIds d.features,
       ({ σ with
          pointFeatures := σ.pointFeatures ++ pointGenericRows d.layerName d.features
          dynTables := σ.dynTables ++ [(d.tableName, pointLayerRows d.features)]
          meshIndex := upsertEntries σ.meshIndex (pointNewIds d.features) } : Store α)) := by
  unfold processPointLayer upsertMeshIndex insertRowsDynamic
  simp only [List.map_append,
    map_insert_of_none σ.dynTables d.tableName (pointLayerRows d.features) h8,
    List.map_cons, List.map_nil, if_pos, List.nil_append]

theorem processLayer_point_run1 {α : Type} (maxCells : ℕ∞) (G : GeomOracle α)
    (d : LayerDefinition α) (σ : Store α)
    (hkind : d.geometryType = GeometryKind.point) (hmap : d.meshMapTable = none)
    (hfresh : FreshFor σ d) :
    processLayer maxCells G d σ = pointRun1 d σ := by
  obtain ⟨h1, h2, h3, h4, h5, h6, h8, h9, h10⟩ := hfresh
  rw [processLayer_point_seq maxCells G d σ hkind (find?_reg_none _ _ h6),
    deleteGenericRows_fresh σ d.layerName h1 h2 h3 h4 h5,
    deleteLayerTables_fresh σ d h8 h9,
    ensureLayerTables_point_fresh d σ hkind hmap h8,
    processPointLayer_fresh_table d σ h8]
  dsimp only
  rw [show (removeLayerPresence
      ({ σ with
        pointFeatures := σ.pointFeatures ++ pointGenericRows d.layerName d.features
        dynTables := σ.dynTables ++ [(d.tableName, pointLayerRows d.features)]
        meshIndex := upsertEntries σ.meshIndex (pointNewIds d.features) } : Store α)
      d.layerName []) = _ from removeLayerPresence_nil _ _]
  unfold addLayerPresence refreshMeshFlags
  dsimp only
  refine (upsertRegistry_fresh _ d ?_).trans ?_
  · exact h6
  · unfold pointRun1
    dsimp only
    rw [List.map_map]
    congr 1
    refine List.map_congr_left fun e _ => ?_
    simp only [Function.comp_apply]
    exact refreshEntry_congr_ids _ _ _ _ _ (fun x => by simp) _

theorem map_set_of_none {α : Type} (l : List (String × List (DynRow α))) (n : String)
    (r : List (DynRow α)) (h : lookupTable l n = none) :
    (l.map fun e => if e.1 = n then (e.1, r) else e) = l := by
  have := (lookupTable_none_iff l n).mp h
  rw [List.map_congr_left (fun e he => if_neg (this e he))]
  exact List.map_id l

theorem refreshEntry_meshId {α : Type} (pf : List (GenRow α)) (lmm : List (LineMapRow α))
    (pmm : List (PolyMapRow α)) (ids : List String) (e : MeshEntry) :
    (refreshEntry pf lmm pmm ids e).meshId = e.meshId := by
  unfold refreshEntry
  by_cases hm : e.meshId ∈ ids
  · rw [if_pos hm]
  · rw [if_neg hm]

theorem addEntry_meshId (n : String) (ids : List String) (e : MeshEntry) :
    (addEntry n ids e).meshId = e.meshId := by
  unfold addEntry
  by_cases hm : e.meshId ∈ ids
  · rw [if_pos hm]
  · rw [if_neg hm]

theorem removeEntry_meshId (n : String) (ids : List String) (e : MeshEntry) :
    (removeEntry n ids e).meshId = e.meshId := by
  unfold removeEntry
  by_cases hm : e.meshId ∈ ids
  · rw [if_pos hm]
  · rw [if_neg hm]

theorem any_meshId_map (l : List MeshEntry) (f : MeshEntry → MeshEntry)
    (hf : ∀ e, (f e).meshId = e.meshId) (M : String) :
    ((l.map f).any fun e => e.meshId = M) = (l.any fun e => e.meshId = M) := by
  induction l with
  | nil => rfl
  | cons x xs ih => simp only [List.map_cons, List.any_cons, hf, ih]

theorem pointGenericRows_src {α : Type} (n : String) (fs : List (Feat α)) :
    ∀ r ∈ pointGenericRows n fs, r.sourceLayer = n := by
  intro r hr
  unfold pointGenericRows at hr
  obtain ⟨e, -, rfl⟩ := List.mem_map.mp hr
  rfl

theorem lineGenericRows_src {α : Type} (n : String) (items : List (LineItem α)) :
    ∀ r ∈ lineGenericRows n items, r.sourceLayer = n := by
  intro r hr
  unfold lineGenericRows at hr
  obtain ⟨it, -, rfl⟩ := List.mem_map.mp hr
  rfl

theorem polyGenericRows_src {α : Type} (n : String) (items : List (PolygonItem α)) :
    ∀ r ∈ polyGenericRows n items, r.sourceLayer = n := by
  intro r hr
  unfold polyGenericRows at hr
  obtain ⟨it, -, rfl⟩ := List.mem_map.mp hr
  rfl

theorem lineMapRows_src {α : Type} (n : String) (items : List (LineItem α)) :
    ∀ r ∈ lineMapRows n items, r.sourceLayer = n := by
  intro r hr
  unfold lineMapRows at hr
  obtain ⟨it, -, hr2⟩ := List.mem_flatMap.mp hr
  obtain ⟨p, -, rfl⟩ := List.mem_map.mp hr2
  rfl

theorem polyMapRows_src {α : Type} (n : String) (items : List (PolygonItem α)) :
    ∀ r ∈ polyMapRows n items, r.sourceLayer = n := by
  intro r hr
  unfold polyMapRows at hr
  obtain ⟨it, -, hr2⟩ := List.mem_flatMap.mp hr
  obtain ⟨p, -, rfl⟩ := List.mem_map.mp hr2
  rfl

theorem filter_src_eq_nil {β : Type} (l : List β) (src : β → String) (n : String)
    (p : β → Bool) (hp : ∀ r, p r = decide (src r ≠ n)) (h : ∀ r ∈ l, src r = n) :
    l.filter p = [] := by
  rw [List.filter_eq_nil_iff]
  intro r hr
  rw [hp r]
  simp [h r hr]

theorem processLayer_point_seq2 {α : Type} (maxCells : ℕ∞) (G : GeomOracle α)
    (d : LayerDefinition α) (σ' : Store α)
    (hkind : d.geometryType = GeometryKind.point) (hmap : d.meshMapTable = none)
    (hreg : (σ'.layerRegistry.find? fun row => row.layerName = d.layerName) =
      some (regRowOf d)) :
    processLayer maxCells G d σ' =
      (fun res : List String × Store α => upsertRegistry (refreshMeshFlags
          (addLayerPresence (removeLayerPresence res.2 d.layerName
            (getLayerMeshIds σ' d.tableName none)) d.layerName res.1)
          ((getLayerMeshIds σ' d.tableName none ++ res.1).dedup)) d)
        (processPointLayer d (ensureLayerTables d (deleteLayerTables
          (deleteGenericRows σ' d.layerName) d))) := by
  unfold processLayer
  rw [hreg]
  dsimp only [regRowOf]
  rw [hmap, hkind]

theorem processLayer_point_run2 {α : Type} (maxCells : ℕ∞) (G : GeomOracle α)
    (d : LayerDefinition α) (σ : Store α)
    (hkind : d.geometryType = GeometryKind.point) (hmap : d.meshMapTable = none)
    (hfresh : FreshFor σ d) :
    processLayer maxCells G d (pointRun1 d σ) = pointRun1 d σ := by
  obtain ⟨h1, h2, h3, h4, h5, h6, h8, h9, h10⟩ := hfresh
  have hfind : ((pointRun1 d σ).layerRegistry.find? fun row =>
      row.layerName = d.layerName) = some (regRowOf d) :=
    find?_reg_append_self σ.layerRegistry (regRowOf d) d.layerName h6 rfl
  rw [processLayer_point_seq2 maxCells G d _ hkind hmap hfind]
  have hlookt : lookupTable (σ.dynTables ++ [(d.tableName, pointLayerRows d.features)])
      d.tableName = some (pointLayerRows d.features) := by
    rw [lookupTable_append_of_none σ.dynTables _ _ h8]
    unfold lookupTable
    rw [if_pos rfl]
  have hold : getLayerMeshIds (pointRun1 d σ) d.tableName none = pointNewIds d.features := by
    unfold getLayerMeshIds pointRun1
    dsimp only
    rw [hlookt]
    exact pointLayerRows_meshIds d.features
  rw [hold]
  have hdel : deleteGenericRows (pointRun1 d σ) d.layerName =
      ({ σ with
        dynTables := σ.dynTables ++ [(d.tableName, pointLayerRows d.features)]
        layerRegistry := σ.layerRegistry ++ [regRowOf d]
        meshIndex := (upsertEntries σ.meshIndex (pointNewIds d.features)).map fun e =>
          refreshEntry (σ.pointFeatures ++ pointGenericRows d.layerName d.features)
            σ.lineMeshMap σ.polygonMeshMap (pointNewIds d.features)
            (addEntry d.layerName (pointNewIds d.features) e) } : Store α) := by
    unfold deleteGenericRows pointRun1
    dsimp only
    rw [List.filter_append,
      List.filter_eq_self.mpr fun r hr => by simpa using h1 r hr,
      filter_src_eq_nil _ GenRow.sourceLayer d.layerName _ (fun r => rfl)
        (pointGenericRows_src d.layerName d.features),
      List.append_nil,
      List.filter_eq_self.mpr fun r hr => by simpa using h2 r hr,
      List.filter_eq_self.mpr fun r hr => by simpa using h3 r hr,
      List.filter_eq_self.mpr fun r hr => by simpa using h4 r hr,
      List.filter_eq_self.mpr fun r hr => by simpa using h5 r hr]
  rw [hdel]
  have hdel2 : deleteLayerTables ({ σ with
        dynTables := σ.dynTables ++ [(d.tableName, pointLayerRows d.features)]
        layerRegistry := σ.layerRegistry ++ [regRowOf d]
        meshIndex := (upsertEntries σ.meshIndex (pointNewIds d.features)).map fun e =>
          refreshEntry (σ.pointFeatures ++ pointGenericRows d.layerName d.features)
            σ.lineMeshMap σ.polygonMeshMap (pointNewIds d.features)
            (addEntry d.layerName (pointNewIds d.features) e) } : Store α) d =
      ({ σ with
        dynTables := σ.dynTables ++ [(d.tableName, [])]
        layerRegistry := σ.layerRegistry ++ [regRowOf d]
        meshIndex := (upsertEntries σ.meshIndex (pointNewIds d.features)).map fun e =>
          refreshEntry (σ.pointFeatures ++ pointGenericRows d.layerName d.features)
            σ.lineMeshMap σ.polygonMeshMap (pointNewIds d.features)
            (addEntry d.layerName (pointNewIds d.features) e) } : Store α) := by
    unfold deleteLayerTables tableExists
    dsimp only
    rw [hlookt, hmap]
    simp only [Option.isSome_some, if_true]
    unfold setTable
    rw [List.map_append, map_set_of_none σ.dynTables d.tableName [] h8]
    simp
  rw [hdel2]
  have hlookt2 : lookupTable (σ.dynTables ++ [(d.tableName, [])]) d.tableName =
      some [] := by
    rw [lookupTable_append_of_none σ.dynTables _ _ h8]
    unfold lookupTable
    rw [if_pos rfl]
  have hens : ensureLayerTables d ({ σ with
        dynTables := σ.dynTables ++ [(d.tableName, [])]
        layerRegistry := σ.layerRegistry ++ [regRowOf d]
        meshIndex := (upsertEntries σ.meshIndex (pointNewIds d.features)).map fun e =>
          refreshEntry (σ.pointFeatures ++ pointGenericRows d.layerName d.features)
            σ.lineMeshMap σ.polygonMeshMap (pointNewIds d.features)
            (addEntry d.layerName (pointNewIds d.features) e) } : Store α) =
      ({ σ with
        dynTables := σ.dynTables ++ [(d.tableName, [])]
        layerRegistry := σ.layerRegistry ++ [regRowOf d]
        meshIndex := (upsertEntries σ.meshIndex (pointNewIds d.features)).map fun e =>
          refreshEntry (σ.pointFeatures ++ pointGenericRows d.layerName d.features)
            σ.lineMeshMap σ.polygonMeshMap (pointNewIds d.features)
            (addEntry d.layerName (pointNewIds d.features) e) } : Store α) := by
    unfold ensureLayerTables
    rw [hkind, hmap]
    dsimp only
    rw [createTable_of_isSome _ _ _ hlookt2]
  rw [hens]
  have hpp2 := processPointLayer_fresh_table d ({ σ with
        layerRegistry := σ.layerRegistry ++ [regRowOf d]
        meshIndex := (upsertEntries σ.meshIndex (pointNewIds d.features)).map fun e =>
          refreshEntry (σ.pointFeatures ++ pointGenericRows d.layerName d.features)
            σ.lineMeshMap σ.polygonMeshMap (pointNewIds d.features)
            (addEntry d.layerName (pointNewIds d.features) e) } : Store α) h8
  dsimp only at hpp2
  rw [hpp2]
  have hupsid : upsertEntries ((upsertEntries σ.meshIndex (pointNewIds d.features)).map
      fun e => refreshEntry (σ.pointFeatures ++ pointGenericRows d.layerName d.features)
        σ.lineMeshMap σ.polygonMeshMap (pointNewIds d.features)
        (addEntry d.layerName (pointNewIds d.features) e)) (pointNewIds d.features) =
      (upsertEntries σ.meshIndex (pointNewIds d.features)).map
      fun e => refreshEntry (σ.pointFeatures ++ pointGenericRows d.layerName d.features)
        σ.lineMeshMap σ.polygonMeshMap (pointNewIds d.features)
        (addEntry d.layerName (pointNewIds d.features) e) := by
    refine upsertEntries_of_all_any _ _ fun M hM => ?_
    rw [any_meshId_map _ _ (fun e => by
      rw [refreshEntry_meshId, addEntry_meshId]) M]
    exact upsertEntries_any _ _ M hM
  rw [hupsid]
  unfold removeLayerPresence addLayerPresence refreshMeshFlags
  dsimp only
  refine (upsertRegistry_existing _ d σ.layerRegistry rfl h6).trans ?_
  unfold pointRun1
  congr 1
  rw [List.map_map, List.map_map, List.map_map]
  refine List.map_congr_left fun e he => ?_
  have hnone : jsonbLookup e.layerPresence d.layerName = none :=
    upsertEntries_presence_none (pointNewIds d.features) σ.meshIndex d.layerName h10 e he
  simp only [Function.comp_apply]
  rw [refreshEntry_congr_ids (σ.pointFeatures ++ pointGenericRows d.layerName d.features)
    σ.lineMeshMap σ.polygonMeshMap
    ((pointNewIds d.features ++ pointNewIds d.features).dedup) (pointNewIds d.features)
    (fun x => by simp)]
  rw [show removeEntry d.layerName (pointNewIds d.features)
      (refreshEntry (σ.pointFeatures ++ pointGenericRows d.layerName d.features)
        σ.lineMeshMap σ.polygonMeshMap (pointNewIds d.features)
        (addEntry d.layerName (pointNewIds d.features) e)) = _ from
    (refreshEntry_removeEntry _ _ _ _ _ _ _).symm]
  rw [show addEntry d.layerName (pointNewIds d.features)
      (refreshEntry (σ.pointFeatures ++ pointGenericRows d.layerName d.features)
        σ.lineMeshMap σ.polygonMeshMap (pointNewIds d.features)
        (removeEntry d.layerName (pointNewIds d.features)
          (addEntry d.layerName (pointNewIds d.features) e))) = _ from
    (refreshEntry_addEntry _ _ _ _ _ _ _).symm]
  rw [refreshEntry_refreshEntry]
  rw [addEntry_removeEntry_addEntry d.layerName (pointNewIds d.features) e hnone]

theorem processLayer_line_seq {α : Type} (maxCells : ℕ∞) (G : GeomOracle α)
    (d : LayerDefinition α) (σ : Store α)
    (hkind : d.geometryType = GeometryKind.line)
    (hreg : (σ.layerRegistry.find? fun row => row.layerName = d.layerName) = none) :
    processLayer maxCells G d σ =
      (fun res : List String × Store α => upsertRegistry (refreshMeshFlags
          (addLayerPresence (removeLayerPresence res.2 d.layerName []) d.layerName res.1)
          (([] ++ res.1).dedup)) d)
        (processLineLayer maxCells G d (ensureLayerTables d (deleteLayerTables
          (deleteGenericRows σ d.layerName) d))) := by
  unfold processLayer
  rw [hreg, hkind]

theorem processLayer_line_seq2 {α : Type} (maxCells : ℕ∞) (G : GeomOracle α)
    (d : LayerDefinition α) (σ' : Store α) (m : String)
    (hkind : d.geometryType = GeometryKind.line) (hmap : d.meshMapTable = some m)
    (hreg : (σ'.layerRegistry.find? fun row => row.layerName = d.layerName) =
      some (regRowOf d)) :
    processLayer maxCells G d σ' =
      (fun res : List String × Store α => upsertRegistry (refreshMeshFlags
          (addLayerPresence (removeLayerPresence res.2 d.layerName
            (getLayerMeshIds σ' d.tableName (some m))) d.layerName res.1)
          ((getLayerMeshIds σ' d.tableName (some m) ++ res.1).dedup)) d)
        (processLineLayer maxCells G d (ensureLayerTables d (deleteLayerTables
          (deleteGenericRows σ' d.layerName) d))) := by
  unfold processLayer
  rw [hreg]
  dsimp only [regRowOf]
  rw [hmap, hkind]
  dsimp only
  rw [if_neg (show ¬ GeometryKind.line ≠ GeometryKind.line from fun c => c rfl)]

theorem processLineLayer_fresh_table {α : Type} (maxCells : ℕ∞) (G : GeomOracle α)
    (d : LayerDefinition α) (m : String) (σ : Store α)
    (hmap : d.meshMapTable = some m)
    (h8 : lookupTable σ.dynTables d.tableName = none)
    (h9 : lookupTable σ.dynTables m = none) (hmt : m ≠ d.tableName) :
    processLineLayer maxCells G d ({ σ with
        dynTables := σ.dynTables ++ [(d.tableName, []), (m, [])] } : Store α) =
      (linePieceIds (toLineItems maxCells G d.features),
       ({ σ with
          lineFeatures := σ.lineFeatures ++
            lineGenericRows d.layerName (toLineItems maxCells G d.features)
          lineMeshMap := σ.lineMeshMap ++
            lineMapRows d.layerName (toLineItems maxCells G d.features)
          dynTables := σ.dynTables ++
            [(d.tableName, lineLayerRows (toLineItems maxCells G d.features)),
             (m, lineDynMapRows (toLineItems maxCells G d.features))]
          meshIndex := upsertEntries σ.meshIndex
            (lineMeshIndexIds (toLineItems maxCells G d.features)) } : Store α)) := by
  have hmt2 : ¬ d.tableName = m := fun c => hmt c.symm
  unfold processLineLayer
  rw [hmap]
  unfold upsertMeshIndex insertRowsDynamic
  simp only [List.map_append,
    map_insert_of_none σ.dynTables d.tableName _ h8,
    map_insert_of_none σ.dynTables m _ h9,
    List.map_cons, List.map_nil, if_pos, if_neg hmt, if_neg hmt2, List.nil_append]

theorem processLayer_line_run1 {α : Type} (maxCells : ℕ∞) (G : GeomOracle α)
    (d : LayerDefinition α) (m : String) (σ : Store α)
    (hkind : d.geometryType = GeometryKind.line) (hmap : d.meshMapTable = some m)
    (hmt : m ≠ d.tableName) (hfresh : FreshFor σ d) :
    processLayer maxCells G d σ = lineRun1 d m (toLineItems maxCells G d.features) σ := by
  obtain ⟨h1, h2, h3, h4, h5, h6, h8, h9, h10⟩ := hfresh
  have h9' : lookupTable σ.dynTables m = none := h9 m (by rw [hmap]; rfl)
  rw [processLayer_line_seq maxCells G d σ hkind (find?_reg_none _ _ h6),
    deleteGenericRows_fresh σ d.layerName h1 h2 h3 h4 h5,
    deleteLayerTables_fresh σ d h8 h9,
    ensureLayerTables_line_fresh d σ m hkind hmap h8 h9' hmt,
    processLineLayer_fresh_table maxCells G d m σ hmap h8 h9' hmt]
  dsimp only
  rw [removeLayerPresence_nil]
  unfold addLayerPresence refreshMeshFlags
  dsimp only
  refine (upsertRegistry_fresh _ d ?_).trans ?_
  · exact h6
  · unfold lineRun1
    rw [List.map_map]
    congr 1
    refine List.map_congr_left fun e _ => ?_
    simp only [Function.comp_apply]
    exact refreshEntry_congr_ids _ _ _ _ _ (fun x => by simp) _

theorem processLayer_line_run2 {α : Type} (maxCells : ℕ∞) (G : GeomOracle α)
    (d : LayerDefinition α) (m : String) (items : List (LineItem α)) (σ : Store α)
    (hkind : d.geometryType = GeometryKind.line) (hmap : d.meshMapTable = some m)
    (hmt : m ≠ d.tableName) (hit : toLineItems maxCells G d.features = items)
    (hfresh : FreshFor σ d) :
    processLayer maxCells G d (lineRun1 d m items σ) = lineRun1 d m items σ := by
  obtain ⟨h1, h2, h3, h4, h5, h6, h8, h9, h10⟩ := hfresh
  have h9' : lookupTable σ.dynTables m = none := h9 m (by rw [hmap]; rfl)
  have hmt2 : ¬ d.tableName = m := fun c => hmt c.symm
  have hmtF : (m = d.tableName) = False := eq_false hmt
  have hmt2F : (d.tableName = m) = False := eq_false hmt2
  have hfind : ((lineRun1 d m items σ).layerRegistry.find? fun row =>
      row.layerName = d.layerName) = some (regRowOf d) :=
    find?_reg_append_self σ.layerRegistry (regRowOf d) d.layerName h6 rfl
  rw [processLayer_line_seq2 maxCells G d _ m hkind hmap hfind]
  have hlookm : lookupTable (σ.dynTables ++
      [(d.tableName, lineLayerRows items), (m, lineDynMapRows items)]) m =
      some (lineDynMapRows items) := by
    rw [lookupTable_append_of_none σ.dynTables _ _ h9']
    simp [lookupTable, hmt2]
  have hold : getLayerMeshIds (lineRun1 d m items σ) d.tableName (some m) =
      linePieceIds items := by
    unfold getLayerMeshIds lineRun1
    dsimp only
    rw [hlookm]
    exact lineDynMapRows_meshIds items
  rw [hold]
  have hdel : deleteGenericRows (lineRun1 d m items σ) d.layerName =
      ({ σ with
        dynTables := σ.dynTables ++
          [(d.tableName, lineLayerRows items), (m, lineDynMapRows items)]
        layerRegistry := σ.layerRegistry ++ [regRowOf d]
        meshIndex := (upsertEntries σ.meshIndex (lineMeshIndexIds items)).map fun e =>
          refreshEntry σ.pointFeatures (σ.lineMeshMap ++ lineMapRows d.layerName items)
            σ.polygonMeshMap (linePieceIds items)
            (addEntry d.layerName (linePieceIds items) e) } : Store α) := by
    unfold deleteGenericRows lineRun1
    dsimp only
    rw [List.filter_append, List.filter_append,
      List.filter_eq_self.mpr fun r hr => by simpa using h1 r hr,
      filter_src_eq_nil _ GenRow.sourceLayer d.layerName _ (fun r => rfl)
        (lineGenericRows_src d.layerName items),
      filter_src_eq_nil _ LineMapRow.sourceLayer d.layerName _ (fun r => rfl)
        (lineMapRows_src d.layerName items),
      List.append_nil, List.append_nil,
      List.filter_eq_self.mpr fun r hr => by simpa using h2 r hr,
      List.filter_eq_self.mpr fun r hr => by simpa using h3 r hr,
      List.filter_eq_self.mpr fun r hr => by simpa using h4 r hr,
      List.filter_eq_self.mpr fun r hr => by simpa using h5 r hr]
  rw [hdel]
  have hlookt : lookupTable (σ.dynTables ++
      [(d.tableName, lineLayerRows items), (m, lineDynMapRows items)]) d.tableName =
      some (lineLayerRows items) := by
    rw [lookupTable_append_of_none σ.dynTables _ _ h8]
    simp [lookupTable]
  have hlookm2 : lookupTable (σ.dynTables ++
      [(d.tableName, []), (m, lineDynMapRows items)]) m =
      some (lineDynMapRows items) := by
    rw [lookupTable_append_of_none σ.dynTables _ _ h9']
    simp [lookupTable, hmt2]
  have hdel2 : deleteLayerTables ({ σ with
        dynTables := σ.dynTables ++
          [(d.tableName, lineLayerRows items), (m, lineDynMapRows items)]
        layerRegistry := σ.layerRegistry ++ [regRowOf d]
        meshIndex := (upsertEntries σ.meshIndex (lineMeshIndexIds items)).map fun e =>
          refreshEntry σ.pointFeatures (σ.lineMeshMap ++ lineMapRows d.layerName items)
            σ.polygonMeshMap (linePieceIds items)
            (addEntry d.layerName (linePieceIds items) e) } : Store α) d =
      ({ σ with
        dynTables := σ.dynTables ++ [(d.tableName, []), (m, [])]
        layerRegistry := σ.layerRegistry ++ [regRowOf d]
        meshIndex := (upsertEntries σ.meshIndex (lineMeshIndexIds items)).map fun e =>
          refreshEntry σ.pointFeatures (σ.lineMeshMap ++ lineMapRows d.layerName items)
            σ.polygonMeshMap (linePieceIds items)
            (addEntry d.layerName (linePieceIds items) e) } : Store α) := by
    unfold deleteLayerTables tableExists setTable
    simp only [hmap]
    rw [hlookt]
    simp only [Option.isSome_some, if_true, List.map_append,
      map_set_of_none σ.dynTables d.tableName [] h8,
      map_set_of_none σ.dynTables m [] h9',
      List.map_cons, List.map_nil, hmtF, hmt2F, if_false, eq_self_iff_true, if_true,
      hlookm2, Option.isSome_some]
  rw [hdel2]
  have hlookt2 : lookupTable (σ.dynTables ++ [(d.tableName, []), (m, [])]) d.tableName =
      some [] := by
    rw [lookupTable_append_of_none σ.dynTables _ _ h8]
    simp [lookupTable]
  have hlookm3 : lookupTable (σ.dynTables ++ [(d.tableName, []), (m, [])]) m =
      some [] := by
    rw [lookupTable_append_of_none σ.dynTables _ _ h9']
    simp [lookupTable, hmt2]
  have hens : ensureLayerTables d ({ σ with
        dynTables := σ.dynTables ++ [(d.tableName, []), (m, [])]
        layerRegistry := σ.layerRegistry ++ [regRowOf d]
        meshIndex := (upsertEntries σ.meshIndex (lineMeshIndexIds items)).map fun e =>
          refreshEntry σ.pointFeatures (σ.lineMeshMap ++ lineMapRows d.layerName items)
            σ.polygonMeshMap (linePieceIds items)
            (addEntry d.layerName (linePieceIds items) e) } : Store α) =
      ({ σ with
        dynTables := σ.dynTables ++ [(d.tableName, []), (m, [])]
        layerRegistry := σ.layerRegistry ++ [regRowOf d]
        meshIndex := (upsertEntries σ.meshIndex (lineMeshIndexIds items)).map fun e =>
          refreshEntry σ.pointFeatures (σ.lineMeshMap ++ lineMapRows d.layerName items)
            σ.polygonMeshMap (linePieceIds items)
            (addEntry d.layerName (linePieceIds items) e) } : Store α) := by
    unfold ensureLayerTables
    rw [hkind, hmap]
    dsimp only
    rw [createTable_of_isSome _ _ _ hlookt2, createTable_of_isSome _ _ _ hlookm3]
  rw [hens]
  have hpp2 := processLineLayer_fresh_table maxCells G d m ({ σ with
        layerRegistry := σ.layerRegistry ++ [regRowOf d]
        meshIndex := (upsertEntries σ.meshIndex (lineMeshIndexIds items)).map fun e =>
          refreshEntry σ.pointFeatures (σ.lineMeshMap ++ lineMapRows d.layerName items)
            σ.polygonMeshMap (linePieceIds items)
            (addEntry d.layerName (linePieceIds items) e) } : Store α) hmap h8 h9' hmt
  rw [hit] at hpp2
  rw [hpp2]
  have hupsid : upsertEntries ((upsertEntries σ.meshIndex (lineMeshIndexIds items)).map
      fun e => refreshEntry σ.pointFeatures (σ.lineMeshMap ++ lineMapRows d.layerName items)
        σ.polygonMeshMap (linePieceIds items)
        (addEntry d.layerName (linePieceIds items) e)) (lineMeshIndexIds items) =
      (upsertEntries σ.meshIndex (lineMeshIndexIds items)).map
      fun e => refreshEntry σ.pointFeatures (σ.lineMeshMap ++ lineMapRows d.layerName items)
        σ.polygonMeshMap (linePieceIds items)
        (addEntry d.layerName (linePieceIds items) e) := by
    refine upsertEntries_of_all_any _ _ fun M hM => ?_
    rw [any_meshId_map _ _ (fun e => by
      rw [refreshEntry_meshId, addEntry_meshId]) M]
    exact upsertEntries_any _ _ M hM
  rw [hupsid]
  unfold removeLayerPresence addLayerPresence refreshMeshFlags
  dsimp only
  refine (upsertRegistry_existing _ d σ.layerRegistry rfl h6).trans ?_
  unfold lineRun1
  congr 1
  rw [List.map_map, List.map_map, List.map_map]
  refine List.map_congr_left fun e he => ?_
  have hnone : jsonbLookup e.layerPresence d.layerName = none :=
    upsertEntries_presence_none (lineMeshIndexIds items) σ.meshIndex d.layerName h10 e he
  simp only [Function.comp_apply]
  rw [refreshEntry_congr_ids σ.pointFeatures (σ.lineMeshMap ++ lineMapRows d.layerName items)
    σ.polygonMeshMap ((linePieceIds items ++ linePieceIds items).dedup) (linePieceIds items)
    (fun x => by simp)]
  rw [show removeEntry d.layerName (linePieceIds items)
      (refreshEntry σ.pointFeatures (σ.lineMeshMap ++ lineMapRows d.layerName items)
        σ.polygonMeshMap (linePieceIds items)
        (addEntry d.layerName (linePieceIds items) e)) = _ from
    (refreshEntry_removeEntry _ _ _ _ _ _ _).symm]
  rw [show addEntry d.layerName (linePieceIds items)
      (refreshEntry σ.pointFeatures (σ.lineMeshMap ++ lineMapRows d.layerName items)
        σ.polygonMeshMap (linePieceIds items)
        (removeEntry d.layerName (linePieceIds items)
          (addEntry d.layerName (linePieceIds items) e))) = _ from
    (refreshEntry_addEntry _ _ _ _ _ _ _).symm]
  rw [refreshEntry_refreshEntry]
  rw [addEntry_removeEntry_addEntry d.layerName (linePieceIds items) e hnone]

theorem processLayer_poly_seq {α : Type} (maxCells : ℕ∞) (G : GeomOracle α)
    (d : LayerDefinition α) (σ : Store α)
    (hkind : d.geometryType = GeometryKind.polygon)
    (hreg : (σ.layerRegistry.find? fun row => row.layerName = d.layerName) = none) :
    processLayer maxCells G d σ =
      (fun res : List String × Store α => upsertRegistry (refreshMeshFlags
          (addLayerPresence (removeLayerPresence res.2 d.layerName []) d.layerName res.1)
          (([] ++ res.1).dedup)) d)
        (processPolygonLayer maxCells G d (ensureLayerTables d (deleteLayerTables
          (deleteGenericRows σ d.layerName) d))) := by
  unfold processLayer
  rw [hreg, hkind]

theorem processLayer_poly_seq2 {α : Type} (maxCells : ℕ∞) (G : GeomOracle α)
    (d : LayerDefinition α) (σ' : Store α) (m : String)
    (hkind : d.geometryType = GeometryKind.polygon) (hmap : d.meshMapTable = some m)
    (hreg : (σ'.layerRegistry.find? fun row => row.layerName = d.layerName) =
      some (regRowOf d)) :
    processLayer maxCells G d σ' =
      (fun res : List String × Store α => upsertRegistry (refreshMeshFlags
          (addLayerPresence (removeLayerPresence res.2 d.layerName
            (getLayerMeshIds σ' d.tableName (some m))) d.layerName res.1)
          ((getLayerMeshIds σ' d.tableName (some m) ++ res.1).dedup)) d)
        (processPolygonLayer maxCells G d (ensureLayerTables d (deleteLayerTables
          (deleteGenericRows σ' d.layerName) d))) := by
  unfold processLayer
  rw [hreg]
  dsimp only [regRowOf]
  rw [hmap, hkind]
  dsimp only
  rw [if_neg (show ¬ GeometryKind.polygon ≠ GeometryKind.polygon from fun c => c rfl)]

theorem processPolygonLayer_fresh_table {α : Type} (maxCells : ℕ∞) (G : GeomOracle α)
    (d : LayerDefinition α) (m : String) (σ : Store α)
    (hmap : d.meshMapTable = some m)
    (h8 : lookupTable σ.dynTables d.tableName = none)
    (h9 : lookupTable σ.dynTables m = none) (hmt : m ≠ d.tableName) :
    processPolygonLayer maxCells G d ({ σ with
        dynTables := σ.dynTables ++ [(d.tableName, []), (m, [])] } : Store α) =
      (polyPieceIds (toPolygonItems maxCells G d.features),
       ({ σ with
          polygonFeatures := σ.polygonFeatures ++
            polyGenericRows d.layerName (toPolygonItems maxCells G d.features)
          polygonMeshMap := σ.polygonMeshMap ++
            polyMapRows d.layerName (toPolygonItems maxCells G d.features)
          dynTables := σ.dynTables ++
            [(d.tableName, polyLayerRows (toPolygonItems maxCells G d.features)),
             (m, polyDynMapRows (toPolygonItems maxCells G d.features))]
          meshIndex := upsertEntries σ.meshIndex
            (polyMeshIndexIds (toPolygonItems maxCells G d.features)) } : Store α)) := by
  have hmt2 : ¬ d.tableName = m := fun c => hmt c.symm
  unfold processPolygonLayer
  rw [hmap]
  unfold upsertMeshIndex insertRowsDynamic
  simp only [List.map_append,
    map_insert_of_none σ.dynTables d.tableName _ h8,
    map_insert_of_none σ.dynTables m _ h9,
    List.map_cons, List.map_nil, if_pos, if_neg hmt, if_neg hmt2, List.nil_append]

theorem processLayer_poly_run1 {α : Type} (maxCells : ℕ∞) (G : GeomOracle α)
    (d : LayerDefinition α) (m : String) (σ : Store α)
    (hkind : d.geometryType = GeometryKind.polygon) (hmap : d.meshMapTable = some m)
    (hmt : m ≠ d.tableName) (hfresh : FreshFor σ d) :
    processLayer maxCells G d σ =
      polyRun1 d m (toPolygonItems maxCells G d.features) σ := by
  obtain ⟨h1, h2, h3, h4, h5, h6, h8, h9, h10⟩ := hfresh
  have h9' : lookupTable σ.dynTables m = none := h9 m (by rw [hmap]; rfl)
  rw [processLayer_poly_seq maxCells G d σ hkind (find?_reg_none _ _ h6),
    deleteGenericRows_fresh σ d.layerName h1 h2 h3 h4 h5,
    deleteLayerTables_fresh σ d h8 h9,
    ensureLayerTables_poly_fresh d σ m hkind hmap h8 h9' hmt,
    processPolygonLayer_fresh_table maxCells G d m σ hmap h8 h9' hmt]
  dsimp only
  rw [removeLayerPresence_nil]
  unfold addLayerPresence refreshMeshFlags
  dsimp only
  refine (upsertRegistry_fresh _ d ?_).trans ?_
  · exact h6
  · unfold polyRun1
    rw [List.map_map]
    congr 1
    refine List.map_congr_left fun e _ => ?_
    simp only [Function.comp_apply]
    exact refreshEntry_congr_ids _ _ _ _ _ (fun x => by simp) _

theorem processLayer_poly_run2 {α : Type} (maxCells : ℕ∞) (G : GeomOracle α)
    (d : LayerDefinition α) (m : String) (items : List (PolygonItem α)) (σ : Store α)
    (hkind : d.geometryType = GeometryKind.polygon) (hmap : d.meshMapTable = some m)
    (hmt : m ≠ d.tableName) (hit : toPolygonItems maxCells G d.features = items)
    (hfresh : FreshFor σ d) :
    processLayer maxCells G d (polyRun1 d m items σ) = polyRun1 d m items σ := by
  obtain ⟨h1, h2, h3, h4, h5, h6, h8, h9, h10⟩ := hfresh
  have h9' : lookupTable σ.dynTables m = none := h9 m (by rw [hmap]; rfl)
  have hmt2 : ¬ d.tableName = m := fun c => hmt c.symm
  have hmtF : (m = d.tableName) = False := eq_false hmt
  have hmt2F : (d.tableName = m) = False := eq_false hmt2
  have hfind : ((polyRun1 d m items σ).layerRegistry.find? fun row =>
      row.layerName = d.layerName) = some (regRowOf d) :=
    find?_reg_append_self σ.layerRegistry (regRowOf d) d.layerName h6 rfl
  rw [processLayer_poly_seq2 maxCells G d _ m hkind hmap hfind]
  have hlookm : lookupTable (σ.dynTables ++
      [(d.tableName, polyLayerRows items), (m, polyDynMapRows items)]) m =
      some (polyDynMapRows items) := by
    rw [lookupTable_append_of_none σ.dynTables _ _ h9']
    simp [lookupTable, hmt2]
  have hold : getLayerMeshIds (polyRun1 d m items σ) d.tableName (some m) =
      polyPieceIds items := by
    unfold getLayerMeshIds polyRun1
    dsimp only
    rw [hlookm]
    exact polyDynMapRows_meshIds items
  rw [hold]
  have hdel : deleteGenericRows (polyRun1 d m items σ) d.layerName =
      ({ σ with
        dynTables := σ.dynTables ++
          [(d.tableName, polyLayerRows items), (m, polyDynMapRows items)]
        layerRegistry := σ.layerRegistry ++ [regRowOf d]
        meshIndex := (upsertEntries σ.meshIndex (polyMeshIndexIds items)).map fun e =>
          refreshEntry σ.pointFeatures σ.lineMeshMap
            (σ.polygonMeshMap ++ polyMapRows d.layerName items) (polyPieceIds items)
            (addEntry d.layerName (polyPieceIds items) e) } : Store α) := by
    unfold deleteGenericRows polyRun1
    dsimp only
    rw [List.filter_append, List.filter_append,
      List.filter_eq_self.mpr fun r hr => by simpa using h1 r hr,
      List.filter_eq_self.mpr fun r hr => by simpa using h2 r hr,
      filter_src_eq_nil _ GenRow.sourceLayer d.layerName _ (fun r => rfl)
        (polyGenericRows_src d.layerName items),
      filter_src_eq_nil _ PolyMapRow.sourceLayer d.layerName _ (fun r => rfl)
        (polyMapRows_src d.layerName items),
      List.append_nil, List.append_nil,
      List.filter_eq_self.mpr fun r hr => by simpa using h3 r hr,
      List.filter_eq_self.mpr fun r hr => by simpa using h4 r hr,
      List.filter_eq_self.mpr fun r hr => by simpa using h5 r hr]
  rw [hdel]
  have hlookt : lookupTable (σ.dynTables ++
      [(d.tableName, polyLayerRows items), (m, polyDynMapRows items)]) d.tableName =
      some (polyLayerRows items) := by
    rw [lookupTable_append_of_none σ.dynTables _ _ h8]
    simp [lookupTable]
  have hlookm2 : lookupTable (σ.dynTables ++
      [(d.tableName, []), (m, polyDynMapRows items)]) m =
      some (polyDynMapRows items) := by
    rw [lookupTable_append_of_none σ.dynTables _ _ h9']
    simp [lookupTable, hmt2]
  have hdel2 : deleteLayerTables ({ σ with
        dynTables := σ.dynTables ++
          [(d.tableName, polyLayerRows items), (m, polyDynMapRows items)]
        layerRegistry := σ.layerRegistry ++ [regRowOf d]
        meshIndex := (upsertEntries σ.meshIndex (polyMeshIndexIds items)).map fun e =>
          refreshEntry σ.pointFeatures σ.lineMeshMap
            (σ.polygonMeshMap ++ polyMapRows d.layerName items) (polyPieceIds items)
            (addEntry d.layerName (polyPieceIds items) e) } : Store α) d =
      ({ σ with
        dynTables := σ.dynTables ++ [(d.tableName, []), (m, [])]
        layerRegistry := σ.layerRegistry ++ [regRowOf d]
        meshIndex := (upsertEntries σ.meshIndex (polyMeshIndexIds items)).map fun e =>
          refreshEntry σ.pointFeatures σ.lineMeshMap
            (σ.polygonMeshMap ++ polyMapRows d.layerName items) (polyPieceIds items)
            (addEntry d.layerName (polyPieceIds items) e) } : Store α) := by
    unfold deleteLayerTables tableExists setTable
    simp only [hmap]
    rw [hlookt]
    simp only [Option.isSome_some, if_true, List.map_append,
      map_set_of_none σ.dynTables d.tableName [] h8,
      map_set_of_none σ.dynTables m [] h9',
      List.map_cons, List.map_nil, hmtF, hmt2F, if_false, eq_self_iff_true, if_true,
      hlookm2, Option.isSome_some]
  rw [hdel2]
  have hlookt2 : lookupTable (σ.dynTables ++ [(d.tableName, []), (m, [])]) d.tableName =
      some [] := by
    rw [lookupTable_append_of_none σ.dynTables _ _ h8]
    simp [lookupTable]
  have hlookm3 : lookupTable (σ.dynTables ++ [(d.tableName, []), (m, [])]) m =
      some [] := by
    rw [lookupTable_append_of_none σ.dynTables _ _ h9']
    simp [lookupTable, hmt2]
  have hens : ensureLayerTables d ({ σ with
        dynTables := σ.dynTables ++ [(d.tableName, []), (m, [])]
        layerRegistry := σ.layerRegistry ++ [regRowOf d]
        meshIndex := (upsertEntries σ.meshIndex (polyMeshIndexIds items)).map fun e =>
          refreshEntry σ.pointFeatures σ.lineMeshMap
            (σ.polygonMeshMap ++ polyMapRows d.layerName items) (polyPieceIds items)
            (addEntry d.layerName (polyPieceIds items) e) } : Store α) =
      ({ σ with
        dynTables := σ.dynTables ++ [(d.tableName, []), (m, [])]
        layerRegistry := σ.layerRegistry ++ [regRowOf d]
        meshIndex := (upsertEntries σ.meshIndex (polyMeshIndexIds items)).map fun e =>
          refreshEntry σ.pointFeatures σ.lineMeshMap
            (σ.polygonMeshMap ++ polyMapRows d.layerName items) (polyPieceIds items)
            (addEntry d.layerName (polyPieceIds items) e) } : Store α) := by
    unfold ensureLayerTables
    rw [hkind, hmap]
    dsimp only
    rw [createTable_of_isSome _ _ _ hlookt2, createTable_of_isSome _ _ _ hlookm3]
  rw [hens]
  have hpp2 := processPolygonLayer_fresh_table maxCells G d m ({ σ with
        layerRegistry := σ.layerRegistry ++ [regRowOf d]
        meshIndex := (upsertEntries σ.meshIndex (polyMeshIndexIds items)).map fun e =>
          refreshEntry σ.pointFeatures σ.lineMeshMap
            (σ.polygonMeshMap ++ polyMapRows d.layerName items) (polyPieceIds items)
            (addEntry d.layerName (polyPieceIds items) e) } : Store α) hmap h8 h9' hmt
  rw [hit] at hpp2
  rw [hpp2]
  have hupsid : upsertEntries ((upsertEntries σ.meshIndex (polyMeshIndexIds items)).map
      fun e => refreshEntry σ.pointFeatures σ.lineMeshMap
        (σ.polygonMeshMap ++ polyMapRows d.layerName items) (polyPieceIds items)
        (addEntry d.layerName (polyPieceIds items) e)) (polyMeshIndexIds items) =
      (upsertEntries σ.meshIndex (polyMeshIndexIds items)).map
      fun e => refreshEntry σ.pointFeatures σ.lineMeshMap
        (σ.polygonMeshMap ++ polyMapRows d.layerName items) (polyPieceIds items)
        (addEntry d.layerName (polyPieceIds items) e) := by
    refine upsertEntries_of_all_any _ _ fun M hM => ?_
    rw [any_meshId_map _ _ (fun e => by
      rw [refreshEntry_meshId, addEntry_meshId]) M]
    exact upsertEntries_any _ _ M hM
  rw [hupsid]
  unfold removeLayerPresence addLayerPresence refreshMeshFlags
  dsimp only
  refine (upsertRegistry_existing _ d σ.layerRegistry rfl h6).trans ?_
  unfold polyRun1
  congr 1
  rw [List.map_map, List.map_map, List.map_map]
  refine List.map_congr_left fun e he => ?_
  have hnone : jsonbLookup e.layerPresence d.layerName = none :=
    upsertEntries_presence_none (polyMeshIndexIds items) σ.meshIndex d.layerName h10 e he
  simp only [Function.comp_apply]
  rw [refreshEntry_congr_ids σ.pointFeatures σ.lineMeshMap
    (σ.polygonMeshMap ++ polyMapRows d.layerName items)
    ((polyPieceIds items ++ polyPieceIds items).dedup) (polyPieceIds items)
    (fun x => by simp)]
  rw [show removeEntry d.layerName (polyPieceIds items)
      (refreshEntry σ.pointFeatures σ.lineMeshMap
        (σ.polygonMeshMap ++ polyMapRows d.layerName items) (polyPieceIds items)
        (addEntry d.layerName (polyPieceIds items) e)) = _ from
    (refreshEntry_removeEntry _ _ _ _ _ _ _).symm]
  rw [show addEntry d.layerName (polyPieceIds items)
      (refreshEntry σ.pointFeatures σ.lineMeshMap
        (σ.polygonMeshMap ++ polyMapRows d.layerName items) (polyPieceIds items)
        (removeEntry d.layerName (polyPieceIds items)
          (addEntry d.layerName (polyPieceIds items) e))) = _ from
    (refreshEntry_addEntry _ _ _ _ _ _ _).symm]
  rw [refreshEntry_refreshEntry]
  rw [addEntry_removeEntry_addEntry d.layerName (polyPieceIds items) e hnone]

theorem processLayer_idem_of_fresh {α : Type} (maxCells : ℕ∞) (G : GeomOracle α)
    (d : LayerDefinition α) (σ : Store α) (hshape : shapeOk d) (hfresh : FreshFor σ d) :
    processLayer maxCells G d (processLayer maxCells G d σ) =
      processLayer maxCells G d σ := by
  cases hk : d.geometryType with
  | point =>
    rcases hmm : d.meshMapTable with _ | m
    · rw [processLayer_point_run1 maxCells G d σ hk hmm hfresh,
        processLayer_point_run2 maxCells G d σ hk hmm hfresh]
    · exfalso
      unfold shapeOk at hshape
      rw [hk, hmm] at hshape
      exact hshape
  | line =>
    rcases hmm : d.meshMapTable with _ | m
    · exfalso
      unfold shapeOk at hshape
      rw [hk, hmm] at hshape
      exact hshape
    · have hmt : m ≠ d.tableName := by
        unfold shapeOk at hshape
        rw [hk, hmm] at hshape
        exact hshape
      rw [processLayer_line_run1 maxCells G d m σ hk hmm hmt hfresh,
        processLayer_line_run2 maxCells G d m (toLineItems maxCells G d.features) σ
          hk hmm hmt rfl hfresh]
  | polygon =>
    rcases hmm : d.meshMapTable with _ | m
    · exfalso
      unfold shapeOk at hshape
      rw [hk, hmm] at hshape
      exact hshape
    · have hmt : m ≠ d.tableName := by
        unfold shapeOk at hshape
        rw [hk, hmm] at hshape
        exact hshape
      rw [processLayer_poly_run1 maxCells G d m σ hk hmm hmt hfresh,
        processLayer_poly_run2 maxCells G d m (toPolygonItems maxCells G d.features) σ
          hk hmm hmt rfl hfresh]

theorem processLayer_registry_fresh {α : Type} (maxCells : ℕ∞) (G : GeomOracle α)
    (d : LayerDefinition α) (σ : Store α) (hshape : shapeOk d) (hfresh : FreshFor σ d) :
    (processLayer maxCells G d σ).layerRegistry =
      σ.layerRegistry ++ [regRowOf d] := by
  cases hk : d.geometryType with
  | point =>
    rcases hmm : d.meshMapTable with _ | m
    · rw [processLayer_point_run1 maxCells G d σ hk hmm hfresh]
      rfl
    · exfalso
      unfold shapeOk at hshape
      rw [hk, hmm] at hshape
      exact hshape
  | line =>
    rcases hmm : d.meshMapTable with _ | m
    · exfalso
      unfold shapeOk at hshape
      rw [hk, hmm] at hshape
      exact hshape
    · have hmt : m ≠ d.tableName := by
        unfold shapeOk at hshape
        rw [hk, hmm] at hshape
        exact hshape
      rw [processLayer_line_run1 maxCells G d m σ hk hmm hmt hfresh]
      rfl
  | polygon =>
    rcases hmm : d.meshMapTable with _ | m
    · exfalso
      unfold shapeOk at hshape
      rw [hk, hmm] at hshape
      exact hshape
    · have hmt : m ≠ d.tableName := by
        unfold shapeOk at hshape
        rw [hk, hmm] at hshape
        exact hshape
      rw [processLayer_poly_run1 maxCells G d m σ hk hmm hmt hfresh]
      rfl

theorem ingestFile_single_fresh {α : Type} (maxCells : ℕ∞) (G : GeomOracle α)
    (fileName baseName : String) (features : List (Feat α)) (d : LayerDefinition α)
    (σ : Store α) (hdefs : layerDefsOf fileName baseName features = [d])
    (hfile : ∀ r ∈ σ.layerRegistry, r.sourceFile ≠ fileName) :
    ingestFile maxCells G fileName baseName features σ = processLayer maxCells G d σ := by
  unfold ingestFile
  rw [hdefs]
  have hfσ : (σ.layerRegistry.filter fun row => decide (row.sourceFile = fileName)) =
      [] := List.filter_eq_nil_iff.mpr fun r hr => by simpa using hfile r hr
  simp only [List.isEmpty_cons, Bool.false_eq_true, if_false, hfσ, List.filter_nil,
    List.foldl_nil, List.foldl_cons]

/-- Counterexample to C5 as stated: ingesting the same two-feature file
(one point, one capacity-exceeded line) twice in a row does NOT leave the
mesh index identical when the store already held a `line_mesh_map` row
attributed to the file's line layer at the point's mesh id — the first run
leaves `has_lines` stale (`true`) at that mesh id, the second run flips it
to `false`, so the mesh-presence index drifts between the runs. -/
theorem c5_reingest_drift_counterexample :
    ingestFile 1 (constOracle capBBox) "base.geojson" "base" c5Feats
        (ingestFile 1 (constOracle capBBox) "base.geojson" "base" c5Feats c5Store) ≠
      ingestFile 1 (constOracle capBBox) "base.geojson" "base" c5Feats c5Store := by
  decide

theorem jsonbLookup_none_of_keys (m : List (String × Bool)) (k : String)
    (h : ∀ b ∈ m, b.1 ≠ k) : jsonbLookup m k = none := by
  induction m with
  | nil => rfl
  | cons hd tl ih =>
    obtain ⟨k1, v1⟩ := hd
    unfold jsonbLookup
    rw [if_neg (h (k1, v1) (by simp))]
    exact ih fun b hb => h b (List.mem_cons_of_mem _ hb)

theorem jsonbSetKey_keys (m : List (String × Bool)) (k' : String) (v : Bool)
    (k : String) (hm : ∀ b ∈ m, b.1 ≠ k) (hk : k' ≠ k) :
    ∀ b ∈ jsonbSetKey m k' v, b.1 ≠ k := by
  induction m with
  | nil =>
    intro b hb
    simp only [jsonbSetKey, List.mem_singleton] at hb
    rw [hb]
    exact hk
  | cons hd tl ih =>
    obtain ⟨k1, v1⟩ := hd
    intro b hb
    unfold jsonbSetKey at hb
    by_cases h1 : k' = k1
    · rw [if_pos h1] at hb
      rcases List.mem_cons.mp hb with rfl | hb2
      · exact hk
      · exact hm b (List.mem_cons_of_mem _ hb2)
    · rw [if_neg h1] at hb
      by_cases h2 : k' < k1
      · rw [if_pos h2] at hb
        rcases List.mem_cons.mp hb with rfl | hb2
        · exact hk
        · exact hm b hb2
      · rw [if_neg h2] at hb
        rcases List.mem_cons.mp hb with rfl | hb2
        · exact hm (k1, v1) (by simp)
        · exact ih (fun b hb => hm b (List.mem_cons_of_mem _ hb)) b hb2

theorem jsonbLookup_setKey_none (p : List (String × Bool)) (k k' : String) (v : Bool)
    (h : jsonbLookup p k = none) (hk : k' ≠ k) :
    jsonbLookup (jsonbSetKey p k' v) k = none :=
  jsonbLookup_none_of_keys _ _
    (jsonbSetKey_keys p k' v k (jsonbLookup_none_keys p k h) hk)

theorem presOk_cancel (k : String) (p : List (String × Bool)) (h : presOk k p) :
    jsonbSetKey (jsonbRemoveKey p k) k true = p := by
  obtain ⟨A, B, rfl, hA, hB, hB0⟩ := h
  have hrem : jsonbRemoveKey (A ++ (k, true) :: B) k = A ++ B := by
    unfold jsonbRemoveKey
    rw [List.filter_append]
    rw [List.filter_eq_self.mpr fun a ha => by
      simpa using ne_of_lt (hA a ha)]
    rw [List.filter_cons]
    rw [List.filter_eq_self.mpr fun b hb => by simpa using hB b hb]
    simp
  rw [hrem]
  clear hrem
  induction A with
  | nil =>
    simp only [List.nil_append]
    cases B with
    | nil => rfl
    | cons b0 B2 =>
      have hlt : k < b0.1 := hB0 b0 (by simp)
      unfold jsonbSetKey
      rw [if_neg (ne_of_lt hlt), if_pos hlt]
  | cons a A' ih =>
    have halt : a.1 < k := hA a (by simp)
    simp only [List.cons_append]
    unfold jsonbSetKey
    obtain ⟨a1, av⟩ := a
    simp only at halt
    rw [if_neg (ne_of_gt halt), if_neg (lt_asymm halt)]
    rw [ih fun x hx => hA x (List.mem_cons_of_mem _ hx)]

theorem presOk_establish (k : String) (p : List (String × Bool))
    (h : jsonbLookup p k = none) : presOk k (jsonbSetKey p k true) := by
  induction p with
  | nil =>
    exact ⟨[], [], rfl, by simp, by simp, by simp⟩
  | cons hd tl ih =>
    obtain ⟨k1, v1⟩ := hd
    unfold jsonbLookup at h
    by_cases h1 : k1 = k
    · rw [if_pos h1] at h; exact absurd h (by simp)
    · rw [if_neg h1] at h
      unfold jsonbSetKey
      have h1' : ¬ k = k1 := fun c => h1 c.symm
      rw [if_neg h1']
      by_cases h2 : k < k1
      · rw [if_pos h2]
        refine ⟨[], (k1, v1) :: tl, rfl, by simp, ?_, ?_⟩
        · intro b hb
          rcases List.mem_cons.mp hb with rfl | hb2
          · exact h1
          · exact jsonbLookup_none_keys tl k h b hb2
        · intro b0 hb0
          simp only [List.head?_cons, Option.mem_def, Option.some.injEq] at hb0
          rw [← hb0]
          exact h2
      · rw [if_neg h2]
        have hgt : k1 < k := by
          rcases lt_trichotomy k k1 with hc | hc | hc
          · exact absurd hc h2
          · exact absurd hc h1'
          · exact hc
        obtain ⟨A', B', heq, hA', hB', h0'⟩ := ih h
        exact ⟨(k1, v1) :: A', B', by rw [heq]; rfl, by
          intro a ha
          rcases List.mem_cons.mp ha with rfl | ha2
          · exact hgt
          · exact hA' a ha2, hB', h0'⟩

theorem presOk_setKey_other (k k' : String) (v : Bool) (p : List (String × Bool))
    (hk : k' ≠ k) (h : presOk k p) : presOk k (jsonbSetKey p k' v) := by
  obtain ⟨A, B, rfl, hA, hB, hB0⟩ := h
  induction A with
  | nil =>
    simp only [List.nil_append]
    unfold jsonbSetKey
    rw [if_neg hk]
    by_cases h2 : k' < k
    · rw [if_pos h2]
      exact ⟨[(k', v)], B, rfl, by simpa using h2, hB, hB0⟩
    · rw [if_neg h2]
      have hgt : k < k' := by
        rcases lt_trichotomy k' k with hc | hc | hc
        · exact absurd hc h2
        · exact absurd hc hk
        · exact hc
      refine ⟨[], jsonbSetKey B k' v, rfl, by simp, jsonbSetKey_keys B k' v k hB hk, ?_⟩
      cases B with
      | nil =>
        intro b0 hb0
        simp only [jsonbSetKey, List.head?_cons, Option.mem_def, Option.some.injEq] at hb0
        rw [← hb0]
        exact hgt
      | cons b0 B2 =>
        obtain ⟨b1, bv⟩ := b0
        intro x hx
        unfold jsonbSetKey at hx
        by_cases hb1 : k' = b1
        · rw [if_pos hb1] at hx
          simp only [List.head?_cons, Option.mem_def, Option.some.injEq] at hx
          rw [← hx]
          exact hgt
        · rw [if_neg hb1] at hx
          by_cases hb2 : k' < b1
          · rw [if_pos hb2] at hx
            simp only [List.head?_cons, Option.mem_def, Option.some.injEq] at hx
            rw [← hx]
            exact hgt
          · rw [if_neg hb2] at hx
            simp only [List.head?_cons, Option.mem_def, Option.some.injEq] at hx
            rw [← hx]
            exact hB0 (b1, bv) (by simp)
  | cons a A' ih =>
    obtain ⟨a1, av⟩ := a
    have halt : a1 < k := by simpa using hA (a1, av) (by simp)
    simp only [List.cons_append]
    unfold jsonbSetKey
    by_cases h1 : k' = a1
    · rw [if_pos h1]
      refine ⟨(k', v) :: A', B, rfl, ?_, hB, hB0⟩
      intro x hx
      rcases List.mem_cons.mp hx with rfl | hx2
      · simpa [h1] using halt
      · exact hA x (List.mem_cons_of_mem _ hx2)
    · rw [if_neg h1]
      by_cases h2 : k' < a1
      · rw [if_pos h2]
        refine ⟨(k', v) :: (a1, av) :: A', B, rfl, ?_, hB, hB0⟩
        intro x hx
        rcases List.mem_cons.mp hx with rfl | hx2
        · exact lt_trans h2 halt
        · exact hA x hx2
      · rw [if_neg h2]
        obtain ⟨A'', B'', heq, hA'', hB'', h0''⟩ :=
          ih fun x hx => hA x (List.mem_cons_of_mem _ hx)
        exact ⟨(a1, av) :: A'', B'', by rw [heq]; rfl, by
          intro x hx
          rcases List.mem_cons.mp hx with rfl | hx2
          · exact halt
          · exact hA'' x hx2, hB'', h0''⟩

theorem find?_middle (A B : List RegRow) (r0 : RegRow) (n : String)
    (hA : ∀ r ∈ A, r.layerName ≠ n) (h0 : r0.layerName = n) :
    ((A ++ r0 :: B).find? fun row => row.layerName = n) = some r0 := by
  induction A with
  | nil =>
    simp only [List.nil_append]
    exact List.find?_cons_of_pos _ (by simpa using h0)
  | cons hd tl ih =>
    rw [List.cons_append, List.find?_cons_of_neg _ (by simpa using hA hd (by simp))]
    exact ih fun r hr => hA r (List.mem_cons_of_mem _ hr)

theorem lookupTable_middle {α : Type} (D1 D2 : List (String × List (DynRow α)))
    (n : String) (R : List (DynRow α)) (h1 : ∀ e ∈ D1, e.1 ≠ n) :
    lookupTable (D1 ++ (n, R) :: D2) n = some R := by
  induction D1 with
  | nil =>
    simp only [List.nil_append]
    unfold lookupTable
    rw [if_pos rfl]
  | cons hd tl ih =>
    rw [List.cons_append]
    unfold lookupTable
    rw [if_neg (h1 hd (by simp))]
    exact ih fun e he => h1 e (List.mem_cons_of_mem _ he)

theorem map_set_middle {α : Type} (D1 D2 : List (String × List (DynRow α)))
    (n : String) (R rows : List (DynRow α))
    (h1 : ∀ e ∈ D1, e.1 ≠ n) (h2 : ∀ e ∈ D2, e.1 ≠ n) :
    ((D1 ++ (n, R) :: D2).map fun e => if e.1 = n then (e.1, rows) else e) =
      D1 ++ (n, rows) :: D2 := by
  have e1 : (D1.map fun e => if e.1 = n then ((e.1 : String), rows) else e) = D1 := by
    rw [List.map_congr_left fun e he => if_neg (h1 e he)]
    exact List.map_id _
  have e2 : (D2.map fun e => if e.1 = n then ((e.1 : String), rows) else e) = D2 := by
    rw [List.map_congr_left fun e he => if_neg (h2 e he)]
    exact List.map_id _
  rw [List.map_append, List.map_cons, e1, e2, if_pos rfl]

theorem map_ins_middle {α : Type} (D1 D2 : List (String × List (DynRow α)))
    (n : String) (R new : List (DynRow α))
    (h1 : ∀ e ∈ D1, e.1 ≠ n) (h2 : ∀ e ∈ D2, e.1 ≠ n) :
    ((D1 ++ (n, R) :: D2).map fun e => if e.1 = n then (e.1, e.2 ++ new) else e) =
      D1 ++ (n, R ++ new) :: D2 := by
  have e1 : (D1.map fun e => if e.1 = n then ((e.1 : String), e.2 ++ new) else e) = D1 := by
    rw [List.map_congr_left fun e he => if_neg (h1 e he)]
    exact List.map_id _
  have e2 : (D2.map fun e => if e.1 = n then ((e.1 : String), e.2 ++ new) else e) = D2 := by
    rw [List.map_congr_left fun e he => if_neg (h2 e he)]
    exact List.map_id _
  rw [List.map_append, List.map_cons, e1, e2, if_pos rfl]

theorem upsertRegistry_middle {α : Type} (σ : Store α) (d : LayerDefinition α)
    (A B : List RegRow) (hreg : σ.layerRegistry = A ++ regRowOf d :: B)
    (hA : ∀ r ∈ A, r.layerName ≠ d.layerName)
    (hB : ∀ r ∈ B, r.layerName ≠ d.layerName) :
    upsertRegistry σ d = σ := by
  unfold upsertRegistry
  have hany : (σ.layerRegistry.any fun e => e.layerName = d.layerName) = true := by
    rw [hreg]
    simp [List.any_append, regRowOf]
  rw [hany]
  simp only [if_true]
  have hmap : (σ.layerRegistry.map fun e =>
      if e.layerName = d.layerName then regRowOf d else e) = σ.layerRegistry := by
    rw [hreg, List.map_append, List.map_cons]
    have e1 : (A.map fun e => if e.layerName = d.layerName then regRowOf d else e) =
        A := by
      rw [List.map_congr_left fun e he => if_neg (hA e he)]
      exact List.map_id _
    have e2 : (B.map fun e => if e.layerName = d.layerName then regRowOf d else e) =
        B := by
      rw [List.map_congr_left fun e he => if_neg (hB e he)]
      exact List.map_id _
    rw [e1, e2, ite_self]
  rw [hmap]

theorem upsertEntries_mem_cases (ids : List String) (mi : List MeshEntry) :
    ∀ e ∈ upsertEntries mi ids,
      e ∈ mi ∨ (mi.any fun x => x.meshId = e.meshId) = false := by
  suffices h : ∀ acc : List MeshEntry,
      (∀ e ∈ acc, e ∈ mi ∨ (mi.any fun x => x.meshId = e.meshId) = false) →
      (∀ x ∈ mi, x ∈ acc) →
      ∀ e ∈ upsertEntries acc ids,
        e ∈ mi ∨ (mi.any fun x => x.meshId = e.meshId) = false by
    exact h mi (fun e he => Or.inl he) fun x hx => hx
  induction ids with
  | nil => exact fun acc hacc _ => hacc
  | cons i rest ih =>
    intro acc hacc hsub
    unfold upsertEntries
    simp only [List.foldl_cons]
    by_cases hc : acc.any (fun e => e.meshId = i) = true
    · rw [if_pos hc]
      exact ih acc hacc hsub
    · rw [if_neg hc]
      refine ih _ (fun e he => ?_) fun x hx => List.mem_append_left _ (hsub x hx)
      rcases List.mem_append.mp he with he1 | he2
      · exact hacc e he1
      · have he3 : e = ⟨i, false, false, false, []⟩ := by simpa using he2
        right
        rw [List.any_eq_false]
        intro x hx
        simp only [he3, decide_eq_true_eq]
        intro hxm
        exact hc (List.any_eq_true.mpr ⟨x, hsub x hx, by simp [hxm]⟩)

theorem any_append_eq_left {β : Type} (l1 l2 : List β) (p : β → Bool)
    (h : ∀ x ∈ l2, p x = false) : (l1 ++ l2).any p = l1.any p := by
  rw [List.any_append]
  rw [show l2.any p = false from List.any_eq_false.mpr fun x hx => by simp [h x hx]]
  simp

theorem pointGenericRows_meshId_mem {α : Type} (n : String) (fs : List (Feat α)) :
    ∀ r ∈ pointGenericRows n fs, r.meshId ∈ pointNewIds fs := by
  intro r hr
  unfold pointGenericRows at hr
  obtain ⟨e, he, rfl⟩ := List.mem_map.mp hr
  unfold pointNewIds pointEntries
  rw [List.mem_dedup]
  unfold pointEntries at he
  exact List.mem_map.mpr ⟨e, he, rfl⟩

theorem lineMapRows_meshId_mem {α : Type} (n : String) (items : List (LineItem α)) :
    ∀ r ∈ lineMapRows n items, r.meshId ∈ linePieceIds items := by
  intro r hr
  unfold lineMapRows at hr
  obtain ⟨it, hit, hr2⟩ := List.mem_flatMap.mp hr
  obtain ⟨p, hp, rfl⟩ := List.mem_map.mp hr2
  unfold linePieceIds
  rw [List.mem_dedup]
  exact List.mem_flatMap.mpr ⟨it, hit, List.mem_map.mpr ⟨p, hp, rfl⟩⟩

theorem polyMapRows_meshId_mem {α : Type} (n : String) (items : List (PolygonItem α)) :
    ∀ r ∈ polyMapRows n items, r.meshId ∈ polyPieceIds items := by
  intro r hr
  unfold polyMapRows at hr
  obtain ⟨it, hit, hr2⟩ := List.mem_flatMap.mp hr
  obtain ⟨p, hp, rfl⟩ := List.mem_map.mp hr2
  unfold polyPieceIds
  rw [List.mem_dedup]
  exact List.mem_flatMap.mpr ⟨it, hit, List.mem_map.mpr ⟨p, hp, rfl⟩⟩

theorem entry_roundtrip {α : Type} (pf : List (GenRow α)) (lmm : List (LineMapRow α))
    (pmm : List (PolyMapRow α)) (k : String) (ids ids2 : List String)
    (hids : ∀ x, x ∈ ids2 ↔ x ∈ ids) (e : MeshEntry)
    (h : e.meshId ∈ ids → presOk k e.layerPresence ∧
      e.hasPoints = pf.any (fun row => row.meshId = e.meshId) ∧
      e.hasLines = lmm.any (fun row => row.meshId = e.meshId) ∧
      e.hasPolygons = pmm.any (fun row => row.meshId = e.meshId)) :
    refreshEntry pf lmm pmm ids2 (addEntry k ids (removeEntry k ids e)) = e := by
  by_cases hm : e.meshId ∈ ids
  · obtain ⟨hp, f1, f2, f3⟩ := h hm
    cases e with
    | mk M hP hL hG p =>
      unfold removeEntry addEntry refreshEntry
      rw [if_pos hm, if_pos hm]
      rw [presOk_cancel k p hp]
      rw [if_pos ((hids M).mpr hm)]
      rw [← f1, ← f2, ← f3]
  · have hm2 : ¬ e.meshId ∈ ids2 := fun c => hm ((hids _).mp c)
    unfold removeEntry addEntry refreshEntry
    rw [if_neg hm, if_neg hm, if_neg hm2]

theorem processLayer_fixpoint_point {α : Type} (maxCells : ℕ∞) (G : GeomOracle α)
    (d : LayerDefinition α) (σ : Store α)
    (hkind : d.geometryType = GeometryKind.point) (hmap : d.meshMapTable = none)
    (hs : SettledPoint d σ) : processLayer maxCells G d σ = σ := by
  obtain ⟨⟨A, B, hreg, hA, hB⟩, ⟨D1, D2, hdyn, hD1, hD2⟩, ⟨P0, hpf, hP0⟩,
    h2, h3, h4, h5, hany, hent⟩ := hs
  have hfind : (σ.layerRegistry.find? fun row => row.layerName = d.layerName) =
      some (regRowOf d) := by
    rw [hreg]
    exact find?_middle A B (regRowOf d) d.layerName hA rfl
  rw [processLayer_point_seq2 maxCells G d σ hkind hmap hfind]
  have hlookt : lookupTable σ.dynTables d.tableName =
      some (pointLayerRows d.features) := by
    rw [hdyn]
    exact lookupTable_middle D1 D2 _ _ hD1
  have hold : getLayerMeshIds σ d.tableName none = pointNewIds d.features := by
    unfold getLayerMeshIds
    rw [hlookt]
    exact pointLayerRows_meshIds d.features
  rw [hold]
  have hdel : deleteGenericRows σ d.layerName =
      ({ σ with pointFeatures := P0 } : Store α) := by
    unfold deleteGenericRows
    rw [hpf, List.filter_append,
      List.filter_eq_self.mpr fun r hr => by simpa using hP0 r hr,
      filter_src_eq_nil _ GenRow.sourceLayer d.layerName _ (fun r => rfl)
        (pointGenericRows_src d.layerName d.features),
      List.append_nil,
      List.filter_eq_self.mpr fun r hr => by simpa using h2 r hr,
      List.filter_eq_self.mpr fun r hr => by simpa using h3 r hr,
      List.filter_eq_self.mpr fun r hr => by simpa using h4 r hr,
      List.filter_eq_self.mpr fun r hr => by simpa using h5 r hr]
  rw [hdel]
  have hdel2 : deleteLayerTables ({ σ with pointFeatures := P0 } : Store α) d =
      ({ σ with
          pointFeatures := P0
          dynTables := D1 ++ (d.tableName, []) :: D2 } : Store α) := by
    unfold deleteLayerTables tableExists setTable
    simp only [hmap]
    rw [hlookt]
    simp only [Option.isSome_some, if_true]
    rw [hdyn, map_set_middle D1 D2 d.tableName _ [] hD1 hD2]
  rw [hdel2]
  have hens : ensureLayerTables d ({ σ with
        pointFeatures := P0
        dynTables := D1 ++ (d.tableName, []) :: D2 } : Store α) =
      ({ σ with
          pointFeatures := P0
          dynTables := D1 ++ (d.tableName, []) :: D2 } : Store α) := by
    unfold ensureLayerTables
    rw [hkind, hmap]
    dsimp only
    rw [createTable_of_isSome _ _ _ (lookupTable_middle D1 D2 d.tableName [] hD1)]
  rw [hens]
  have hpp : processPointLayer d ({ σ with
        pointFeatures := P0
        dynTables := D1 ++ (d.tableName, []) :: D2 } : Store α) =
      (pointNewIds d.features, σ) := by
    unfold processPointLayer upsertMeshIndex insertRowsDynamic
    dsimp only
    rw [map_ins_middle D1 D2 d.tableName [] _ hD1 hD2, List.nil_append]
    rw [upsertEntries_of_all_any _ _ hany]
    rw [← hdyn, ← hpf]
  rw [hpp]
  unfold removeLayerPresence addLayerPresence refreshMeshFlags
  dsimp only
  have hmi : ((σ.meshIndex.map (removeEntry d.layerName (pointNewIds d.features))).map
      (addEntry d.layerName (pointNewIds d.features))).map
      (refreshEntry σ.pointFeatures σ.lineMeshMap σ.polygonMeshMap
        ((pointNewIds d.features ++ pointNewIds d.features).dedup)) = σ.meshIndex := by
    rw [List.map_map, List.map_map]
    have happ : σ.meshIndex.map
        ((refreshEntry σ.pointFeatures σ.lineMeshMap σ.polygonMeshMap
          ((pointNewIds d.features ++ pointNewIds d.features).dedup) ∘
        addEntry d.layerName (pointNewIds d.features)) ∘
         removeEntry d.layerName (pointNewIds d.features)) =
        σ.meshIndex.map (fun e => e) :=
      List.map_congr_left fun e he =>
        entry_roundtrip σ.pointFeatures σ.lineMeshMap σ.polygonMeshMap d.layerName
          (pointNewIds d.features) ((pointNewIds d.features ++ pointNewIds d.features).dedup)
          (fun x => by simp) e (hent e he)
    rw [happ, List.map_id']
  rw [hmi]
  exact upsertRegistry_middle σ d A B hreg hA hB

theorem lookupTable_middle2 {α : Type} (D1 D2 D3 : List (String × List (DynRow α)))
    (t m : String) (R1 R2 : List (DynRow α)) (htm : t ≠ m)
    (hD1 : ∀ e ∈ D1, e.1 ≠ m) (hD2 : ∀ e ∈ D2, e.1 ≠ m) :
    lookupTable (D1 ++ (t, R1) :: (D2 ++ (m, R2) :: D3)) m = some R2 := by
  induction D1 with
  | nil =>
    show (if t = m then some R1 else lookupTable (D2 ++ (m, R2) :: D3) m) = some R2
    rw [if_neg htm]
    exact lookupTable_middle D2 D3 m R2 hD2
  | cons hd tl ih =>
    show (if hd.1 = m then some hd.2
      else lookupTable (tl ++ (t, R1) :: (D2 ++ (m, R2) :: D3)) m) = some R2
    rw [if_neg (hD1 hd (by simp))]
    exact ih fun e he => hD1 e (List.mem_cons_of_mem _ he)

theorem map_set_middle2 {α : Type} (D1 D2 D3 : List (String × List (DynRow α)))
    (t m : String) (R1 R2 rows : List (DynRow α)) (htm : t ≠ m)
    (hD1 : ∀ e ∈ D1, e.1 ≠ m) (hD2 : ∀ e ∈ D2, e.1 ≠ m)
    (hD3 : ∀ e ∈ D3, e.1 ≠ m) :
    ((D1 ++ (t, R1) :: (D2 ++ (m, R2) :: D3)).map fun e =>
      if e.1 = m then (e.1, rows) else e) =
      D1 ++ (t, R1) :: (D2 ++ (m, rows) :: D3) := by
  induction D1 with
  | nil =>
    show ((if t = m then ((t : String), rows) else (t, R1)) ::
        ((D2 ++ (m, R2) :: D3).map fun e => if e.1 = m then (e.1, rows) else e)) =
      (t, R1) :: (D2 ++ (m, rows) :: D3)
    rw [if_neg htm, map_set_middle D2 D3 m R2 rows hD2 hD3]
  | cons hd tl ih =>
    show ((if hd.1 = m then (hd.1, rows) else hd) ::
        ((tl ++ (t, R1) :: (D2 ++ (m, R2) :: D3)).map fun e =>
          if e.1 = m then (e.1, rows) else e)) =
      hd :: (tl ++ (t, R1) :: (D2 ++ (m, rows) :: D3))
    rw [if_neg (hD1 hd (by simp)), ih fun e he => hD1 e (List.mem_cons_of_mem _ he)]

theorem map_ins_middle2 {α : Type} (D1 D2 D3 : List (String × List (DynRow α)))
    (t m : String) (R1 R2 new : List (DynRow α)) (htm : t ≠ m)
    (hD1 : ∀ e ∈ D1, e.1 ≠ m) (hD2 : ∀ e ∈ D2, e.1 ≠ m)
    (hD3 : ∀ e ∈ D3, e.1 ≠ m) :
    ((D1 ++ (t, R1) :: (D2 ++ (m, R2) :: D3)).map fun e =>
      if e.1 = m then (e.1, e.2 ++ new) else e) =
      D1 ++ (t, R1) :: (D2 ++ (m, R2 ++ new) :: D3) := by
  induction D1 with
  | nil =>
    show ((if t = m then ((t : String), R1 ++ new) else (t, R1)) ::
        ((D2 ++ (m, R2) :: D3).map fun e => if e.1 = m then (e.1, e.2 ++ new) else e)) =
      (t, R1) :: (D2 ++ (m, R2 ++ new) :: D3)
    rw [if_neg htm, map_ins_middle D2 D3 m R2 new hD2 hD3]
  | cons hd tl ih =>
    show ((if hd.1 = m then (hd.1, hd.2 ++ new) else hd) ::
        ((tl ++ (t, R1) :: (D2 ++ (m, R2) :: D3)).map fun e =>
          if e.1 = m then (e.1, e.2 ++ new) else e)) =
      hd :: (tl ++ (t, R1) :: (D2 ++ (m, R2 ++ new) :: D3))
    rw [if_neg (hD1 hd (by simp)), ih fun e he => hD1 e (List.mem_cons_of_mem _ he)]

theorem processLayer_fixpoint_line {α : Type} (maxCells : ℕ∞) (G : GeomOracle α)
    (d : LayerDefinition α) (σ : Store α) (m : String) (items : List (LineItem α))
    (hkind : d.geometryType = GeometryKind.line) (hmap : d.meshMapTable = some m)
    (hmt : m ≠ d.tableName) (hit : toLineItems maxCells G d.features = items)
    (hs : SettledLine d m items σ) : processLayer maxCells G d σ = σ := by
  obtain ⟨⟨A, B, hreg, hA, hB⟩, ⟨D1, D2, D3, hdyn, hD1, hD2, hD3⟩,
    ⟨L0, hlf, hL0⟩, ⟨M0, hlmm, hM0⟩, h1, h3, h5, hany, hent⟩ := hs
  have hD1t : ∀ e ∈ D1, e.1 ≠ d.tableName := fun e he => (hD1 e he).1
  have hD2t : ∀ e ∈ D2, e.1 ≠ d.tableName := fun e he => (hD2 e he).1
  have hD3t : ∀ e ∈ D3, e.1 ≠ d.tableName := fun e he => (hD3 e he).1
  have hD1m : ∀ e ∈ D1, e.1 ≠ m := fun e he => (hD1 e he).2
  have hD2m : ∀ e ∈ D2, e.1 ≠ m := fun e he => (hD2 e he).2
  have hD3m : ∀ e ∈ D3, e.1 ≠ m := fun e he => (hD3 e he).2
  have htm : d.tableName ≠ m := fun c => hmt c.symm
  have hrest2t : ∀ e ∈ D2 ++ (m, lineDynMapRows items) :: D3, e.1 ≠ d.tableName := by
    intro e he
    rcases List.mem_append.mp he with h | h
    · exact hD2t e h
    · rcases List.mem_cons.mp h with rfl | h
      · exact hmt
      · exact hD3t e h
  have hrest2t' : ∀ e ∈ D2 ++ (m, ([] : List (DynRow α))) :: D3, e.1 ≠ d.tableName := by
    intro e he
    rcases List.mem_append.mp he with h | h
    · exact hD2t e h
    · rcases List.mem_cons.mp h with rfl | h
      · exact hmt
      · exact hD3t e h
  have hfind : (σ.layerRegistry.find? fun row => row.layerName = d.layerName) =
      some (regRowOf d) := by
    rw [hreg]
    exact find?_middle A B (regRowOf d) d.layerName hA rfl
  rw [processLayer_line_seq2 maxCells G d σ m hkind hmap hfind]
  have hlookm : lookupTable σ.dynTables m = some (lineDynMapRows items) := by
    rw [hdyn]
    exact lookupTable_middle2 D1 D2 D3 _ m _ _ htm hD1m hD2m
  have hlookt : lookupTable σ.dynTables d.tableName = some (lineLayerRows items) := by
    rw [hdyn]
    exact lookupTable_middle D1 _ _ _ hD1t
  have hold : getLayerMeshIds σ d.tableName (some m) = linePieceIds items := by
    unfold getLayerMeshIds
    dsimp only
    rw [hlookm]
    exact lineDynMapRows_meshIds items
  rw [hold]
  have hdel : deleteGenericRows σ d.layerName =
      ({ σ with lineFeatures := L0, lineMeshMap := M0 } : Store α) := by
    unfold deleteGenericRows
    rw [hlf, hlmm, List.filter_append, List.filter_append,
      List.filter_eq_self.mpr fun r hr => by simpa using h1 r hr,
      List.filter_eq_self.mpr fun r hr => by simpa using hL0 r hr,
      filter_src_eq_nil _ GenRow.sourceLayer d.layerName _ (fun r => rfl)
        (lineGenericRows_src d.layerName items),
      List.append_nil,
      List.filter_eq_self.mpr fun r hr => by simpa using h3 r hr,
      List.filter_eq_self.mpr fun r hr => by simpa using hM0 r hr,
      filter_src_eq_nil _ LineMapRow.sourceLayer d.layerName _ (fun r => rfl)
        (lineMapRows_src d.layerName items),
      List.append_nil,
      List.filter_eq_self.mpr fun r hr => by simpa using h5 r hr]
  rw [hdel]
  have hdel2 : deleteLayerTables
      ({ σ with lineFeatures := L0, lineMeshMap := M0 } : Store α) d =
      ({ σ with
          lineFeatures := L0
          lineMeshMap := M0
          dynTables := D1 ++ (d.tableName, []) :: (D2 ++ (m, []) :: D3) } : Store α) := by
    unfold deleteLayerTables tableExists setTable
    simp only [hmap]
    rw [hlookt]
    simp only [Option.isSome_some, if_true]
    rw [hdyn, map_set_middle D1 _ d.tableName _ [] hD1t hrest2t]
    rw [lookupTable_middle2 D1 D2 D3 d.tableName m [] _ htm hD1m hD2m]
    simp only [Option.isSome_some, if_true]
    rw [map_set_middle2 D1 D2 D3 d.tableName m [] _ [] htm hD1m hD2m hD3m]
  rw [hdel2]
  have hens : ensureLayerTables d ({ σ with
        lineFeatures := L0
        lineMeshMap := M0
        dynTables := D1 ++ (d.tableName, []) :: (D2 ++ (m, []) :: D3) } : Store α) =
      ({ σ with
          lineFeatures := L0
          lineMeshMap := M0
          dynTables := D1 ++ (d.tableName, []) :: (D2 ++ (m, []) :: D3) } : Store α) := by
    unfold ensureLayerTables
    rw [hkind, hmap]
    dsimp only
    rw [createTable_of_isSome _ _ _ (lookupTable_middle D1 _ d.tableName [] hD1t)]
    rw [createTable_of_isSome _ _ _
      (lookupTable_middle2 D1 D2 D3 d.tableName m [] [] htm hD1m hD2m)]
  rw [hens]
  have hpp : processLineLayer maxCells G d ({ σ with
        lineFeatures := L0
        lineMeshMap := M0
        dynTables := D1 ++ (d.tableName, []) :: (D2 ++ (m, []) :: D3) } : Store α) =
      (linePieceIds items, σ) := by
    unfold processLineLayer
    rw [hmap]
    rw [hit]
    unfold upsertMeshIndex insertRowsDynamic
    dsimp only
    rw [map_ins_middle D1 _ d.tableName [] _ hD1t hrest2t', List.nil_append]
    rw [upsertEntries_of_all_any _ _ hany]
    rw [map_ins_middle2 D1 D2 D3 d.tableName m (lineLayerRows items) [] _ htm hD1m
      hD2m hD3m, List.nil_append]
    rw [← hdyn, ← hlf, ← hlmm]
  rw [hpp]
  unfold removeLayerPresence addLayerPresence refreshMeshFlags
  dsimp only
  have hmi : ((σ.meshIndex.map (removeEntry d.layerName (linePieceIds items))).map
      (addEntry d.layerName (linePieceIds items))).map
      (refreshEntry σ.pointFeatures σ.lineMeshMap σ.polygonMeshMap
        ((linePieceIds items ++ linePieceIds items).dedup)) = σ.meshIndex := by
    rw [List.map_map, List.map_map]
    have happ : σ.meshIndex.map
        ((refreshEntry σ.pointFeatures σ.lineMeshMap σ.polygonMeshMap
          ((linePieceIds items ++ linePieceIds items).dedup) ∘
        addEntry d.layerName (linePieceIds items)) ∘
         removeEntry d.layerName (linePieceIds items)) =
        σ.meshIndex.map (fun e => e) :=
      List.map_congr_left fun e he =>
        entry_roundtrip σ.pointFeatures σ.lineMeshMap σ.polygonMeshMap d.layerName
          (linePieceIds items) ((linePieceIds items ++ linePieceIds items).dedup)
          (fun x => by simp) e (hent e he)
    rw [happ, List.map_id']
  rw [hmi]
  exact upsertRegistry_middle σ d A B hreg hA hB

theorem processLayer_fixpoint_poly {α : Type} (maxCells : ℕ∞) (G : GeomOracle α)
    (d : LayerDefinition α) (σ : Store α) (m : String) (items : List (PolygonItem α))
    (hkind : d.geometryType = GeometryKind.polygon) (hmap : d.meshMapTable = some m)
    (hmt : m ≠ d.tableName) (hit : toPolygonItems maxCells G d.features = items)
    (hs : SettledPoly d m items σ) : processLayer maxCells G d σ = σ := by
  obtain ⟨⟨A, B, hreg, hA, hB⟩, ⟨D1, D2, D3, hdyn, hD1, hD2, hD3⟩,
    ⟨G0, hgf, hG0⟩, ⟨M0, hpmm, hM0⟩, h1, h2, h4, hany, hent⟩ := hs
  have hD1t : ∀ e ∈ D1, e.1 ≠ d.tableName := fun e he => (hD1 e he).1
  have hD2t : ∀ e ∈ D2, e.1 ≠ d.tableName := fun e he => (hD2 e he).1
  have hD3t : ∀ e ∈ D3, e.1 ≠ d.tableName := fun e he => (hD3 e he).1
  have hD1m : ∀ e ∈ D1, e.1 ≠ m := fun e he => (hD1 e he).2
  have hD2m : ∀ e ∈ D2, e.1 ≠ m := fun e he => (hD2 e he).2
  have hD3m : ∀ e ∈ D3, e.1 ≠ m := fun e he => (hD3 e he).2
  have htm : d.tableName ≠ m := fun c => hmt c.symm
  have hrest2t : ∀ e ∈ D2 ++ (m, polyDynMapRows items) :: D3, e.1 ≠ d.tableName := by
    intro e he
    rcases List.mem_append.mp he with h | h
    · exact hD2t e h
    · rcases List.mem_cons.mp h with rfl | h
      · exact hmt
      · exact hD3t e h
  have hrest2t' : ∀ e ∈ D2 ++ (m, ([] : List (DynRow α))) :: D3, e.1 ≠ d.tableName := by
    intro e he
    rcases List.mem_append.mp he with h | h
    · exact hD2t e h
    · rcases List.mem_cons.mp h with rfl | h
      · exact hmt
      · exact hD3t e h
  have hfind : (σ.layerRegistry.find? fun row => row.layerName = d.layerName) =
      some (regRowOf d) := by
    rw [hreg]
    exact find?_middle A B (regRowOf d) d.layerName hA rfl
  rw [processLayer_poly_seq2 maxCells G d σ m hkind hmap hfind]
  have hlookm : lookupTable σ.dynTables m = some (polyDynMapRows items) := by
    rw [hdyn]
    exact lookupTable_middle2 D1 D2 D3 _ m _ _ htm hD1m hD2m
  have hlookt : lookupTable σ.dynTables d.tableName = some (polyLayerRows items) := by
    rw [hdyn]
    exact lookupTable_middle D1 _ _ _ hD1t
  have hold : getLayerMeshIds σ d.tableName (some m) = polyPieceIds items := by
    unfold getLayerMeshIds
    dsimp only
    rw [hlookm]
    exact polyDynMapRows_meshIds items
  rw [hold]
  have hdel : deleteGenericRows σ d.layerName =
      ({ σ with polygonFeatures := G0, polygonMeshMap := M0 } : Store α) := by
    unfold deleteGenericRows
    rw [hgf, hpmm, List.filter_append, List.filter_append,
      List.filter_eq_self.mpr fun r hr => by simpa using h1 r hr,
      List.filter_eq_self.mpr fun r hr => by simpa using h2 r hr,
      List.filter_eq_self.mpr fun r hr => by simpa using hG0 r hr,
      filter_src_eq_nil _ GenRow.sourceLayer d.layerName _ (fun r => rfl)
        (polyGenericRows_src d.layerName items),
      List.append_nil,
      List.filter_eq_self.mpr fun r hr => by simpa using h4 r hr,
      List.filter_eq_self.mpr fun r hr => by simpa using hM0 r hr,
      filter_src_eq_nil _ PolyMapRow.sourceLayer d.layerName _ (fun r => rfl)
        (polyMapRows_src d.layerName items),
      List.append_nil]
  rw [hdel]
  have hdel2 : deleteLayerTables
      ({ σ with polygonFeatures := G0, polygonMeshMap := M0 } : Store α) d =
      ({ σ with
          polygonFeatures := G0
          polygonMeshMap := M0
          dynTables := D1 ++ (d.tableName, []) :: (D2 ++ (m, []) :: D3) } : Store α) := by
    unfold deleteLayerTables tableExists setTable
    simp only [hmap]
    rw [hlookt]
    simp only [Option.isSome_some, if_true]
    rw [hdyn, map_set_middle D1 _ d.tableName _ [] hD1t hrest2t]
    rw [lookupTable_middle2 D1 D2 D3 d.tableName m [] _ htm hD1m hD2m]
    simp only [Option.isSome_some, if_true]
    rw [map_set_middle2 D1 D2 D3 d.tableName m [] _ [] htm hD1m hD2m hD3m]
  rw [hdel2]
  have hens : ensureLayerTables d ({ σ with
        polygonFeatures := G0
        polygonMeshMap := M0
        dynTables := D1 ++ (d.tableName, []) :: (D2 ++ (m, []) :: D3) } : Store α) =
      ({ σ with
          polygonFeatures := G0
          polygonMeshMap := M0
          dynTables := D1 ++ (d.tableName, []) :: (D2 ++ (m, []) :: D3) } : Store α) := by
    unfold ensureLayerTables
    rw [hkind, hmap]
    dsimp only
    rw [createTable_of_isSome _ _ _ (lookupTable_middle D1 _ d.tableName [] hD1t)]
    rw [createTable_of_isSome _ _ _
      (lookupTable_middle2 D1 D2 D3 d.tableName m [] [] htm hD1m hD2m)]
  rw [hens]
  have hpp : processPolygonLayer maxCells G d ({ σ with
        polygonFeatures := G0
        polygonMeshMap := M0
        dynTables := D1 ++ (d.tableName, []) :: (D2 ++ (m, []) :: D3) } : Store α) =
      (polyPieceIds items, σ) := by
    unfold processPolygonLayer
    rw [hmap]
    rw [hit]
    unfold upsertMeshIndex insertRowsDynamic
    dsimp only
    rw [map_ins_middle D1 _ d.tableName [] _ hD1t hrest2t', List.nil_append]
    rw [upsertEntries_of_all_any _ _ hany]
    rw [map_ins_middle2 D1 D2 D3 d.tableName m (polyLayerRows items) [] _ htm hD1m
      hD2m hD3m, List.nil_append]
    rw [← hdyn, ← hgf, ← hpmm]
  rw [hpp]
  unfold removeLayerPresence addLayerPresence refreshMeshFlags
  dsimp only
  have hmi : ((σ.meshIndex.map (removeEntry d.layerName (polyPieceIds items))).map
      (addEntry d.layerName (polyPieceIds items))).map
      (refreshEntry σ.pointFeatures σ.lineMeshMap σ.polygonMeshMap
        ((polyPieceIds items ++ polyPieceIds items).dedup)) = σ.meshIndex := by
    rw [List.map_map, List.map_map]
    have happ : σ.meshIndex.map
        ((refreshEntry σ.pointFeatures σ.lineMeshMap σ.polygonMeshMap
          ((polyPieceIds items ++ polyPieceIds items).dedup) ∘
        addEntry d.layerName (polyPieceIds items)) ∘
         removeEntry d.layerName (polyPieceIds items)) =
        σ.meshIndex.map (fun e => e) :=
      List.map_congr_left fun e he =>
        entry_roundtrip σ.pointFeatures σ.lineMeshMap σ.polygonMeshMap d.layerName
          (polyPieceIds items) ((polyPieceIds items ++ polyPieceIds items).dedup)
          (fun x => by simp) e (hent e he)
    rw [happ, List.map_id']
  rw [hmi]
  exact upsertRegistry_middle σ d A B hreg hA hB

theorem refresh_add_meshId {α : Type} (pf : List (GenRow α)) (lmm : List (LineMapRow α))
    (pmm : List (PolyMapRow α)) (k : String) (ids ids2 : List String) (e : MeshEntry) :
    (refreshEntry pf lmm pmm ids2 (addEntry k ids e)).meshId = e.meshId := by
  cases e with
  | mk M hP hL hG p =>
    unfold refreshEntry addEntry
    by_cases h1 : M ∈ ids <;> by_cases h2 : M ∈ ids2 <;> simp [h1, h2]

theorem mapped_any_meshId {α : Type} (pf : List (GenRow α)) (lmm : List (LineMapRow α))
    (pmm : List (PolyMapRow α)) (k : String) (ids ids2 : List String)
    (mi : List MeshEntry) (M : String) :
    ((mi.map fun e => refreshEntry pf lmm pmm ids2 (addEntry k ids e)).any
      fun e => e.meshId = M) = mi.any fun e => e.meshId = M := by
  rw [List.any_map]
  congr 1
  funext e
  show decide ((refreshEntry pf lmm pmm ids2 (addEntry k ids e)).meshId = M) =
    decide (e.meshId = M)
  rw [refresh_add_meshId]

theorem run1_entry_settled {α : Type} (pf : List (GenRow α)) (lmm : List (LineMapRow α))
    (pmm : List (PolyMapRow α)) (k : String) (ids : List String) (e0 : MeshEntry)
    (hm : e0.meshId ∈ ids) :
    refreshEntry pf lmm pmm ids (addEntry k ids e0) =
      ⟨e0.meshId, pf.any (fun row => row.meshId = e0.meshId),
       lmm.any (fun row => row.meshId = e0.meshId),
       pmm.any (fun row => row.meshId = e0.meshId),
       jsonbSetKey e0.layerPresence k true⟩ := by
  cases e0 with
  | mk M hP hL hG p =>
    unfold addEntry refreshEntry
    simp [hm]

theorem settledPoint_establish {α : Type} (d : LayerDefinition α) (σ : Store α)
    (hfresh : FreshFor σ d) : SettledPoint d (pointRun1 d σ) := by
  obtain ⟨h1, h2, h3, h4, h5, h6, h8, h9, h10⟩ := hfresh
  refine ⟨⟨σ.layerRegistry, [], rfl, h6, by simp⟩,
    ⟨σ.dynTables, [], rfl, (lookupTable_none_iff _ _).mp h8, by simp⟩,
    ⟨σ.pointFeatures, rfl, h1⟩, h2, h3, h4, h5, ?_, ?_⟩
  · intro M hM
    show (((upsertEntries σ.meshIndex (pointNewIds d.features)).map fun e =>
      refreshEntry (σ.pointFeatures ++ pointGenericRows d.layerName d.features)
        σ.lineMeshMap σ.polygonMeshMap (pointNewIds d.features)
        (addEntry d.layerName (pointNewIds d.features) e)).any
          fun e => e.meshId = M) = true
    rw [mapped_any_meshId]
    exact upsertEntries_any _ _ M hM
  · intro e he hm
    obtain ⟨e0, he0, rfl⟩ := List.mem_map.mp he
    rw [refresh_add_meshId] at hm
    have hpres := upsertEntries_presence_none (pointNewIds d.features)
      σ.meshIndex d.layerName h10 e0 he0
    rw [run1_entry_settled _ _ _ _ _ _ hm]
    exact ⟨presOk_establish _ _ hpres, rfl, rfl, rfl⟩

theorem settledLine_establish {α : Type} (d : LayerDefinition α) (m : String)
    (items : List (LineItem α)) (σ : Store α) (hmap : d.meshMapTable = some m)
    (hfresh : FreshFor σ d) : SettledLine d m items (lineRun1 d m items σ) := by
  obtain ⟨h1, h2, h3, h4, h5, h6, h8, h9, h10⟩ := hfresh
  have h9' := h9 m hmap
  refine ⟨⟨σ.layerRegistry, [], rfl, h6, by simp⟩,
    ⟨σ.dynTables, [], [], rfl, fun e he =>
      ⟨(lookupTable_none_iff _ _).mp h8 e he,
       (lookupTable_none_iff _ _).mp h9' e he⟩, by simp, by simp⟩,
    ⟨σ.lineFeatures, rfl, h2⟩, ⟨σ.lineMeshMap, rfl, h4⟩, h1, h3, h5, ?_, ?_⟩
  · intro M hM
    show (((upsertEntries σ.meshIndex (lineMeshIndexIds items)).map fun e =>
      refreshEntry σ.pointFeatures (σ.lineMeshMap ++ lineMapRows d.layerName items)
        σ.polygonMeshMap (linePieceIds items)
        (addEntry d.layerName (linePieceIds items) e)).any
          fun e => e.meshId = M) = true
    rw [mapped_any_meshId]
    exact upsertEntries_any _ _ M hM
  · intro e he hm
    obtain ⟨e0, he0, rfl⟩ := List.mem_map.mp he
    rw [refresh_add_meshId] at hm
    have hpres := upsertEntries_presence_none (lineMeshIndexIds items)
      σ.meshIndex d.layerName h10 e0 he0
    rw [run1_entry_settled _ _ _ _ _ _ hm]
    exact ⟨presOk_establish _ _ hpres, rfl, rfl, rfl⟩

theorem settledPoly_establish {α : Type} (d : LayerDefinition α) (m : String)
    (items : List (PolygonItem α)) (σ : Store α) (hmap : d.meshMapTable = some m)
    (hfresh : FreshFor σ d) : SettledPoly d m items (polyRun1 d m items σ) := by
  obtain ⟨h1, h2, h3, h4, h5, h6, h8, h9, h10⟩ := hfresh
  have h9' := h9 m hmap
  refine ⟨⟨σ.layerRegistry, [], rfl, h6, by simp⟩,
    ⟨σ.dynTables, [], [], rfl, fun e he =>
      ⟨(lookupTable_none_iff _ _).mp h8 e he,
       (lookupTable_none_iff _ _).mp h9' e he⟩, by simp, by simp⟩,
    ⟨σ.polygonFeatures, rfl, h3⟩, ⟨σ.polygonMeshMap, rfl, h5⟩, h1, h2, h4, ?_, ?_⟩
  · intro M hM
    show (((upsertEntries σ.meshIndex (polyMeshIndexIds items)).map fun e =>
      refreshEntry σ.pointFeatures σ.lineMeshMap
        (σ.polygonMeshMap ++ polyMapRows d.layerName items) (polyPieceIds items)
        (addEntry d.layerName (polyPieceIds items) e)).any
          fun e => e.meshId = M) = true
    rw [mapped_any_meshId]
    exact upsertEntries_any _ _ M hM
  · intro e he hm
    obtain ⟨e0, he0, rfl⟩ := List.mem_map.mp he
    rw [refresh_add_meshId] at hm
    have hpres := upsertEntries_presence_none (polyMeshIndexIds items)
      σ.meshIndex d.layerName h10 e0 he0
    rw [run1_entry_settled _ _ _ _ _ _ hm]
    exact ⟨presOk_establish _ _ hpres, rfl, rfl, rfl⟩

theorem entry_preserved {α : Type} (pfN : List (GenRow α)) (lmmN : List (LineMapRow α))
    (pmmN : List (PolyMapRow α)) (pfO : List (GenRow α)) (lmmO : List (LineMapRow α))
    (pmmO : List (PolyMapRow α)) (k k' : String) (ids' : List String)
    (hkk : k' ≠ k)
    (hpfE : ∀ M, M ∉ ids' → pfN.any (fun row => row.meshId = M) =
      pfO.any (fun row => row.meshId = M))
    (hlmmE : ∀ M, M ∉ ids' → lmmN.any (fun row => row.meshId = M) =
      lmmO.any (fun row => row.meshId = M))
    (hpmmE : ∀ M, M ∉ ids' → pmmN.any (fun row => row.meshId = M) =
      pmmO.any (fun row => row.meshId = M))
    (e0 : MeshEntry)
    (h1 : presOk k e0.layerPresence)
    (h2 : e0.hasPoints = pfO.any (fun row => row.meshId = e0.meshId))
    (h3 : e0.hasLines = lmmO.any (fun row => row.meshId = e0.meshId))
    (h4 : e0.hasPolygons = pmmO.any (fun row => row.meshId = e0.meshId)) :
    presOk k (refreshEntry pfN lmmN pmmN ids' (addEntry k' ids' e0)).layerPresence ∧
    (refreshEntry pfN lmmN pmmN ids' (addEntry k' ids' e0)).hasPoints =
      pfN.any (fun row => row.meshId =
        (refreshEntry pfN lmmN pmmN ids' (addEntry k' ids' e0)).meshId) ∧
    (refreshEntry pfN lmmN pmmN ids' (addEntry k' ids' e0)).hasLines =
      lmmN.any (fun row => row.meshId =
        (refreshEntry pfN lmmN pmmN ids' (addEntry k' ids' e0)).meshId) ∧
    (refreshEntry pfN lmmN pmmN ids' (addEntry k' ids' e0)).hasPolygons =
      pmmN.any (fun row => row.meshId =
        (refreshEntry pfN lmmN pmmN ids' (addEntry k' ids' e0)).meshId) := by
  by_cases hmem : e0.meshId ∈ ids'
  · rw [run1_entry_settled pfN lmmN pmmN k' ids' e0 hmem]
    exact ⟨presOk_setKey_other k k' true _ hkk h1, rfl, rfl, rfl⟩
  · have heq : refreshEntry pfN lmmN pmmN ids' (addEntry k' ids' e0) = e0 := by
      cases e0 with
      | mk M hP hL hG p =>
        unfold addEntry refreshEntry
        simp [hmem]
    rw [heq]
    exact ⟨h1, by rw [hpfE _ hmem]; exact h2, by rw [hlmmE _ hmem]; exact h3,
      by rw [hpmmE _ hmem]; exact h4⟩

theorem settledPoint_after_lineRun1 {α : Type} (d d' : LayerDefinition α) (m' : String)
    (items' : List (LineItem α)) (σ : Store α)
    (hname : d'.layerName ≠ d.layerName)
    (ht : d'.tableName ≠ d.tableName) (hmt : m' ≠ d.tableName)
    (hs : SettledPoint d σ) : SettledPoint d (lineRun1 d' m' items' σ) := by
  obtain ⟨⟨A, B, hreg, hA, hB⟩, ⟨D1, D2, hdyn, hD1, hD2⟩, ⟨P0, hpf, hP0⟩,
    h2, h3, h4, h5, hany, hent⟩ := hs
  refine ⟨⟨A, B ++ [regRowOf d'],
      by dsimp only [lineRun1]; rw [hreg]; simp [List.append_assoc], hA, ?_⟩,
    ⟨D1, D2 ++ [(d'.tableName, lineLayerRows items'), (m', lineDynMapRows items')],
      by dsimp only [lineRun1]; rw [hdyn]; simp [List.append_assoc], hD1, ?_⟩,
    ⟨P0, hpf, hP0⟩, ?_, h3, ?_, h5, ?_, ?_⟩
  · intro r hr
    rcases List.mem_append.mp hr with h | h
    · exact hB r h
    · have : r = regRowOf d' := by simpa using h
      rw [this]
      exact hname
  · intro e he
    rcases List.mem_append.mp he with h | h
    · exact hD2 e h
    · rcases List.mem_cons.mp h with rfl | h
      · exact ht
      · have : e = (m', lineDynMapRows items') := by simpa using h
        rw [this]
        exact hmt
  · intro r hr
    rcases List.mem_append.mp hr with h | h
    · exact h2 r h
    · rw [lineGenericRows_src d'.layerName items' r h]
      exact hname
  · intro r hr
    rcases List.mem_append.mp hr with h | h
    · exact h4 r h
    · rw [lineMapRows_src d'.layerName items' r h]
      exact hname
  · intro M hM
    show (((upsertEntries σ.meshIndex (lineMeshIndexIds items')).map fun e =>
      refreshEntry σ.pointFeatures (σ.lineMeshMap ++ lineMapRows d'.layerName items')
        σ.polygonMeshMap (linePieceIds items')
        (addEntry d'.layerName (linePieceIds items') e)).any
          fun e => e.meshId = M) = true
    rw [mapped_any_meshId]
    exact upsertEntries_any_mono _ _ _ (hany M hM)
  · intro e he hm
    obtain ⟨e0, he0, rfl⟩ := List.mem_map.mp he
    rw [refresh_add_meshId] at hm
    rcases upsertEntries_mem_cases _ _ e0 he0 with hmem | hnone
    · obtain ⟨hp, f1, f2, f3⟩ := hent e0 hmem hm
      exact entry_preserved _ _ _ σ.pointFeatures σ.lineMeshMap σ.polygonMeshMap
        d.layerName d'.layerName (linePieceIds items') hname
        (fun M _ => rfl)
        (fun M hM => any_append_eq_left _ _ _ fun x hx => by
          simp only [decide_eq_false_iff_not]
          intro c
          exact hM (c ▸ lineMapRows_meshId_mem d'.layerName items' x hx))
        (fun M _ => rfl) e0 hp f1 f2 f3
    · have htrue := hany e0.meshId hm
      rw [htrue] at hnone
      exact absurd hnone (by decide)

theorem settledPoint_after_polyRun1 {α : Type} (d d' : LayerDefinition α) (m' : String)
    (items' : List (PolygonItem α)) (σ : Store α)
    (hname : d'.layerName ≠ d.layerName)
    (ht : d'.tableName ≠ d.tableName) (hmt : m' ≠ d.tableName)
    (hs : SettledPoint d σ) : SettledPoint d (polyRun1 d' m' items' σ) := by
  obtain ⟨⟨A, B, hreg, hA, hB⟩, ⟨D1, D2, hdyn, hD1, hD2⟩, ⟨P0, hpf, hP0⟩,
    h2, h3, h4, h5, hany, hent⟩ := hs
  refine ⟨⟨A, B ++ [regRowOf d'],
      by dsimp only [polyRun1]; rw [hreg]; simp [List.append_assoc], hA, ?_⟩,
    ⟨D1, D2 ++ [(d'.tableName, polyLayerRows items'), (m', polyDynMapRows items')],
      by dsimp only [polyRun1]; rw [hdyn]; simp [List.append_assoc], hD1, ?_⟩,
    ⟨P0, hpf, hP0⟩, h2, ?_, h4, ?_, ?_, ?_⟩
  · intro r hr
    rcases List.mem_append.mp hr with h | h
    · exact hB r h
    · have : r = regRowOf d' := by simpa using h
      rw [this]
      exact hname
  · intro e he
    rcases List.mem_append.mp he with h | h
    · exact hD2 e h
    · rcases List.mem_cons.mp h with rfl | h
      · exact ht
      · have : e = (m', polyDynMapRows items') := by simpa using h
        rw [this]
        exact hmt
  · intro r hr
    rcases List.mem_append.mp hr with h | h
    · exact h3 r h
    · rw [polyGenericRows_src d'.layerName items' r h]
      exact hname
  · intro r hr
    rcases List.mem_append.mp hr with h | h
    · exact h5 r h
    · rw [polyMapRows_src d'.layerName items' r h]
      exact hname
  · intro M hM
    show (((upsertEntries σ.meshIndex (polyMeshIndexIds items')).map fun e =>
      refreshEntry σ.pointFeatures σ.lineMeshMap
        (σ.polygonMeshMap ++ polyMapRows d'.layerName items') (polyPieceIds items')
        (addEntry d'.layerName (polyPieceIds items') e)).any
          fun e => e.meshId = M) = true
    rw [mapped_any_meshId]
    exact upsertEntries_any_mono _ _ _ (hany M hM)
  · intro e he hm
    obtain ⟨e0, he0, rfl⟩ := List.mem_map.mp he
    rw [refresh_add_meshId] at hm
    rcases upsertEntries_mem_cases _ _ e0 he0 with hmem | hnone
    · obtain ⟨hp, f1, f2, f3⟩ := hent e0 hmem hm
      exact entry_preserved _ _ _ σ.pointFeatures σ.lineMeshMap σ.polygonMeshMap
        d.layerName d'.layerName (polyPieceIds items') hname
        (fun M _ => rfl)
        (fun M _ => rfl)
        (fun M hM => any_append_eq_left _ _ _ fun x hx => by
          simp only [decide_eq_false_iff_not]
          intro c
          exact hM (c ▸ polyMapRows_meshId_mem d'.layerName items' x hx))
        e0 hp f1 f2 f3
    · have htrue := hany e0.meshId hm
      rw [htrue] at hnone
      exact absurd hnone (by decide)

theorem settledLine_after_polyRun1 {α : Type} (d d' : LayerDefinition α) (m m' : String)
    (items : List (LineItem α)) (items' : List (PolygonItem α)) (σ : Store α)
    (hname : d'.layerName ≠ d.layerName)
    (ht : d'.tableName ≠ d.tableName) (htm : d'.tableName ≠ m)
    (hmt : m' ≠ d.tableName) (hmm : m' ≠ m)
    (hs : SettledLine d m items σ) : SettledLine d m items (polyRun1 d' m' items' σ) := by
  obtain ⟨⟨A, B, hreg, hA, hB⟩, ⟨D1, D2, D3, hdyn, hD1, hD2, hD3⟩,
    ⟨L0, hlf, hL0⟩, ⟨M0, hlmm, hM0⟩, h1, h3, h5, hany, hent⟩ := hs
  refine ⟨⟨A, B ++ [regRowOf d'],
      by dsimp only [polyRun1]; rw [hreg]; simp [List.append_assoc], hA, ?_⟩,
    ⟨D1, D2, D3 ++ [(d'.tableName, polyLayerRows items'), (m', polyDynMapRows items')],
      by dsimp only [polyRun1]; rw [hdyn]; simp [List.append_assoc], hD1, hD2, ?_⟩,
    ⟨L0, hlf, hL0⟩, ⟨M0, hlmm, hM0⟩, h1, ?_, ?_, ?_, ?_⟩
  · intro r hr
    rcases List.mem_append.mp hr with h | h
    · exact hB r h
    · have : r = regRowOf d' := by simpa using h
      rw [this]
      exact hname
  · intro e he
    rcases List.mem_append.mp he with h | h
    · exact hD3 e h
    · rcases List.mem_cons.mp h with rfl | h
      · exact ⟨ht, htm⟩
      · have : e = (m', polyDynMapRows items') := by simpa using h
        rw [this]
        exact ⟨hmt, hmm⟩
  · intro r hr
    rcases List.mem_append.mp hr with h | h
    · exact h3 r h
    · rw [polyGenericRows_src d'.layerName items' r h]
      exact hname
  · intro r hr
    rcases List.mem_append.mp hr with h | h
    · exact h5 r h
    · rw [polyMapRows_src d'.layerName items' r h]
      exact hname
  · intro M hM
    show (((upsertEntries σ.meshIndex (polyMeshIndexIds items')).map fun e =>
      refreshEntry σ.pointFeatures σ.lineMeshMap
        (σ.polygonMeshMap ++ polyMapRows d'.layerName items') (polyPieceIds items')
        (addEntry d'.layerName (polyPieceIds items') e)).any
          fun e => e.meshId = M) = true
    rw [mapped_any_meshId]
    exact upsertEntries_any_mono _ _ _ (hany M hM)
  · intro e he hm
    obtain ⟨e0, he0, rfl⟩ := List.mem_map.mp he
    rw [refresh_add_meshId] at hm
    rcases upsertEntries_mem_cases _ _ e0 he0 with hmem | hnone
    · obtain ⟨hp, f1, f2, f3⟩ := hent e0 hmem hm
      exact entry_preserved _ _ _ σ.pointFeatures σ.lineMeshMap σ.polygonMeshMap
        d.layerName d'.layerName (polyPieceIds items') hname
        (fun M _ => rfl)
        (fun M _ => rfl)
        (fun M hM => any_append_eq_left _ _ _ fun x hx => by
          simp only [decide_eq_false_iff_not]
          intro c
          exact hM (c ▸ polyMapRows_meshId_mem d'.layerName items' x hx))
        e0 hp f1 f2 f3
    · have htrue := hany e0.meshId (by
        unfold lineMeshIndexIds
        exact List.mem_dedup.mpr (List.mem_append.mpr (Or.inr hm)))
      rw [htrue] at hnone
      exact absurd hnone (by decide)

theorem refresh_add_presence_none {α : Type} (pf : List (GenRow α))
    (lmm : List (LineMapRow α)) (pmm : List (PolyMapRow α)) (k k2 : String)
    (ids ids2 : List String) (e : MeshEntry)
    (h : jsonbLookup e.layerPresence k2 = none) (hk : k ≠ k2) :
    jsonbLookup (refreshEntry pf lmm pmm ids2 (addEntry k ids e)).layerPresence k2 =
      none := by
  cases e with
  | mk M hP hL hG p =>
    unfold addEntry refreshEntry
    by_cases h1 : M ∈ ids
    · by_cases h2 : M ∈ ids2
      · simp [h1, h2]
        exact jsonbLookup_setKey_none p k2 k true h hk
      · simp [h1, h2]
        exact jsonbLookup_setKey_none p k2 k true h hk
    · by_cases h2 : M ∈ ids2
      · simp [h1, h2]
        exact h
      · simp [h1, h2]
        exact h

theorem fresh_after_pointRun1 {α : Type} (d d' : LayerDefinition α) (σ : Store α)
    (hname : d.layerName ≠ d'.layerName) (ht : d.tableName ≠ d'.tableName)
    (htm : ∀ m' ∈ d'.meshMapTable, d.tableName ≠ m')
    (hf : FreshFor σ d') : FreshFor (pointRun1 d σ) d' := by
  obtain ⟨h1, h2, h3, h4, h5, h6, h8, h9, h10⟩ := hf
  refine ⟨?_, h2, h3, h4, h5, ?_, ?_, ?_, ?_⟩
  · intro r hr
    rcases List.mem_append.mp hr with h | h
    · exact h1 r h
    · rw [pointGenericRows_src d.layerName d.features r h]
      exact hname
  · intro r hr
    rcases List.mem_append.mp hr with h | h
    · exact h6 r h
    · have : r = regRowOf d := by simpa using h
      rw [this]
      exact hname
  · refine (lookupTable_none_iff _ _).mpr ?_
    intro e he
    rcases List.mem_append.mp he with h | h
    · exact (lookupTable_none_iff _ _).mp h8 e h
    · have : e = (d.tableName, pointLayerRows d.features) := by simpa using h
      rw [this]
      exact ht
  · intro m' hm'
    refine (lookupTable_none_iff _ _).mpr ?_
    intro e he
    rcases List.mem_append.mp he with h | h
    · exact (lookupTable_none_iff _ _).mp (h9 m' hm') e h
    · have : e = (d.tableName, pointLayerRows d.features) := by simpa using h
      rw [this]
      exact htm m' hm'
  · intro e he
    obtain ⟨e0, he0, rfl⟩ := List.mem_map.mp he
    exact refresh_add_presence_none _ _ _ _ _ _ _ e0
      (upsertEntries_presence_none _ _ _ h10 e0 he0) hname

theorem fresh_after_lineRun1 {α : Type} (d d' : LayerDefinition α) (m : String)
    (items : List (LineItem α)) (σ : Store α)
    (hname : d.layerName ≠ d'.layerName) (ht : d.tableName ≠ d'.tableName)
    (htm : ∀ m' ∈ d'.meshMapTable, d.tableName ≠ m')
    (hmt : m ≠ d'.tableName) (hmm : ∀ m' ∈ d'.meshMapTable, m ≠ m')
    (hf : FreshFor σ d') : FreshFor (lineRun1 d m items σ) d' := by
  obtain ⟨h1, h2, h3, h4, h5, h6, h8, h9, h10⟩ := hf
  refine ⟨h1, ?_, h3, ?_, h5, ?_, ?_, ?_, ?_⟩
  · intro r hr
    rcases List.mem_append.mp hr with h | h
    · exact h2 r h
    · rw [lineGenericRows_src d.layerName items r h]
      exact hname
  · intro r hr
    rcases List.mem_append.mp hr with h | h
    · exact h4 r h
    · rw [lineMapRows_src d.layerName items r h]
      exact hname
  · intro r hr
    rcases List.mem_append.mp hr with h | h
    · exact h6 r h
    · have : r = regRowOf d := by simpa using h
      rw [this]
      exact hname
  · refine (lookupTable_none_iff _ _).mpr ?_
    intro e he
    rcases List.mem_append.mp he with h | h
    · exact (lookupTable_none_iff _ _).mp h8 e h
    · rcases List.mem_cons.mp h with rfl | h
      · exact ht
      · have : e = (m, lineDynMapRows items) := by simpa using h
        rw [this]
        exact hmt
  · intro m' hm'
    refine (lookupTable_none_iff _ _).mpr ?_
    intro e he
    rcases List.mem_append.mp he with h | h
    · exact (lookupTable_none_iff _ _).mp (h9 m' hm') e h
    · rcases List.mem_cons.mp h with rfl | h
      · exact htm m' hm'
      · have : e = (m, lineDynMapRows items) := by simpa using h
        rw [this]
        exact hmm m' hm'
  · intro e he
    obtain ⟨e0, he0, rfl⟩ := List.mem_map.mp he
    exact refresh_add_presence_none _ _ _ _ _ _ _ e0
      (upsertEntries_presence_none _ _ _ h10 e0 he0) hname

theorem str_append_assoc (a b c : String) : (a ++ b) ++ c = a ++ (b ++ c) :=
  string_eq_of_data _ _ (by simp [String.data_append, List.append_assoc])

theorem append_right_ne (b s1 s2 : String) (h : s1 ≠ s2) : b ++ s1 ≠ b ++ s2 := by
  intro c
  apply h
  apply string_eq_of_data
  have hd : (b ++ s1).data = (b ++ s2).data := by rw [c]
  rw [String.data_append, String.data_append] at hd
  exact List.append_cancel_left hd

theorem append_right_ne_self (b s : String) (h : s ≠ "") : b ++ s ≠ b := by
  intro c
  apply h
  apply string_eq_of_data
  have hd : (b ++ s).data = b.data := by rw [c]
  rw [String.data_append] at hd
  have hd2 : b.data ++ s.data = b.data ++ [] := by simpa using hd
  simpa using List.append_cancel_left hd2

theorem ingestFile_eq_foldl {α : Type} (maxCells : ℕ∞) (G : GeomOracle α)
    (fileName baseName : String) (features : List (Feat α))
    (L : List (LayerDefinition α)) (σ : Store α)
    (hdefs : layerDefsOf fileName baseName features = L)
    (hne : L.isEmpty = false)
    (hstale : ∀ r ∈ σ.layerRegistry, r.sourceFile = fileName →
      r.layerName ∈ L.map LayerDefinition.layerName) :
    ingestFile maxCells G fileName baseName features σ =
      L.foldl (fun acc ld => processLayer maxCells G ld acc) σ := by
  unfold ingestFile
  rw [hdefs]
  have h2 : ((σ.layerRegistry.filter fun row => decide (row.sourceFile = fileName)).filter
      fun row => decide (row.layerName ∉ L.map LayerDefinition.layerName)) = [] := by
    refine List.filter_eq_nil_iff.mpr ?_
    intro r hr
    obtain ⟨hr1, hr2⟩ := List.mem_filter.mp hr
    simp only [decide_eq_true_eq] at hr2
    simp [hstale r hr1 hr2]
  simp only [hne, Bool.false_eq_true, if_false, h2, List.foldl_nil]

theorem c5_single_layer {α : Type} (maxCells : ℕ∞) (G : GeomOracle α)
    (fileName baseName : String) (features : List (Feat α)) (σ : Store α)
    (d : LayerDefinition α)
    (hdefs : layerDefsOf fileName baseName features = [d])
    (hshape : shapeOk d)
    (hfresh1 : FreshFor σ d)
    (hfile : ∀ r ∈ σ.layerRegistry, r.sourceFile ≠ fileName) :
    ingestFile maxCells G fileName baseName features
      (ingestFile maxCells G fileName baseName features σ) =
    ingestFile maxCells G fileName baseName features σ := by
  have hne : ([d] : List (LayerDefinition α)).isEmpty = false := rfl
  have hstale1 : ∀ r ∈ σ.layerRegistry, r.sourceFile = fileName →
      r.layerName ∈ ([d] : List (LayerDefinition α)).map LayerDefinition.layerName :=
    fun r hr hsf => absurd hsf (hfile r hr)
  rw [ingestFile_eq_foldl maxCells G fileName baseName features [d] σ hdefs hne hstale1]
  simp only [List.foldl_cons, List.foldl_nil]
  cases hk : d.geometryType with
  | point =>
    rcases hmm : d.meshMapTable with _ | m
    · have e1 : processLayer maxCells G d σ = pointRun1 d σ :=
        processLayer_point_run1 maxCells G d σ hk hmm hfresh1
      have hstale2 : ∀ r ∈ (pointRun1 d σ).layerRegistry, r.sourceFile = fileName →
          r.layerName ∈ ([d] : List (LayerDefinition α)).map LayerDefinition.layerName := by
        intro r hr hsf
        rcases List.mem_append.mp hr with h | h
        · exact absurd hsf (hfile r h)
        · have : r = regRowOf d := by simpa using h
          rw [this]
          simp [regRowOf]
      rw [e1, ingestFile_eq_foldl maxCells G fileName baseName features [d] _ hdefs hne
        hstale2]
      simp only [List.foldl_cons, List.foldl_nil]
      exact processLayer_fixpoint_point maxCells G d _ hk hmm
        (settledPoint_establish d σ hfresh1)
    · exfalso
      unfold shapeOk at hshape
      rw [hk, hmm] at hshape
      exact hshape
  | line =>
    rcases hmm : d.meshMapTable with _ | m
    · exfalso
      unfold shapeOk at hshape
      rw [hk, hmm] at hshape
      exact hshape
    · have hmt : m ≠ d.tableName := by
        unfold shapeOk at hshape
        rw [hk, hmm] at hshape
        exact hshape
      have e1 : processLayer maxCells G d σ =
          lineRun1 d m (toLineItems maxCells G d.features) σ :=
        processLayer_line_run1 maxCells G d m σ hk hmm hmt hfresh1
      have hstale2 : ∀ r ∈ (lineRun1 d m (toLineItems maxCells G d.features) σ).layerRegistry,
          r.sourceFile = fileName →
          r.layerName ∈ ([d] : List (LayerDefinition α)).map LayerDefinition.layerName := by
        intro r hr hsf
        rcases List.mem_append.mp hr with h | h
        · exact absurd hsf (hfile r h)
        · have : r = regRowOf d := by simpa using h
          rw [this]
          simp [regRowOf]
      rw [e1, ingestFile_eq_foldl maxCells G fileName baseName features [d] _ hdefs hne
        hstale2]
      simp only [List.foldl_cons, List.foldl_nil]
      exact processLayer_fixpoint_line maxCells G d _ m
        (toLineItems maxCells G d.features) hk hmm hmt rfl
        (settledLine_establish d m (toLineItems maxCells G d.features) σ hmm hfresh1)
  | polygon =>
    rcases hmm : d.meshMapTable with _ | m
    · exfalso
      unfold shapeOk at hshape
      rw [hk, hmm] at hshape
      exact hshape
    · have hmt : m ≠ d.tableName := by
        unfold shapeOk at hshape
        rw [hk, hmm] at hshape
        exact hshape
      have e1 : processLayer maxCells G d σ =
          polyRun1 d m (toPolygonItems maxCells G d.features) σ :=
        processLayer_poly_run1 maxCells G d m σ hk hmm hmt hfresh1
      have hstale2 : ∀ r ∈ (polyRun1 d m (toPolygonItems maxCells G d.features) σ).layerRegistry,
          r.sourceFile = fileName →
          r.layerName ∈ ([d] : List (LayerDefinition α)).map LayerDefinition.layerName := by
        intro r hr hsf
        rcases List.mem_append.mp hr with h | h
        · exact absurd hsf (hfile r h)
        · have : r = regRowOf d := by simpa using h
          rw [this]
          simp [regRowOf]
      rw [e1, ingestFile_eq_foldl maxCells G fileName baseName features [d] _ hdefs hne
        hstale2]
      simp only [List.foldl_cons, List.foldl_nil]
      exact processLayer_fixpoint_poly maxCells G d _ m
        (toPolygonItems maxCells G d.features) hk hmm hmt rfl
        (settledPoly_establish d m (toPolygonItems maxCells G d.features) σ hmm hfresh1)

theorem c5_two_pt_ln {α : Type} (maxCells : ℕ∞) (G : GeomOracle α)
    (fileName baseName : String) (features : List (Feat α)) (σ : Store α)
    (d1 d2 : LayerDefinition α) (m2 : String)
    (hdefs : layerDefsOf fileName baseName features = [d1, d2])
    (hk1 : d1.geometryType = GeometryKind.point) (hmm1 : d1.meshMapTable = none)
    (hk2 : d2.geometryType = GeometryKind.line) (hmm2 : d2.meshMapTable = some m2)
    (hmt2 : m2 ≠ d2.tableName)
    (hn : d2.layerName ≠ d1.layerName)
    (ht : d2.tableName ≠ d1.tableName)
    (hmt21 : m2 ≠ d1.tableName)
    (hfresh1 : FreshFor σ d1) (hfresh2 : FreshFor σ d2)
    (hfile : ∀ r ∈ σ.layerRegistry, r.sourceFile ≠ fileName) :
    ingestFile maxCells G fileName baseName features
      (ingestFile maxCells G fileName baseName features σ) =
    ingestFile maxCells G fileName baseName features σ := by
  have hne : ([d1, d2] : List (LayerDefinition α)).isEmpty = false := rfl
  have hstale1 : ∀ r ∈ σ.layerRegistry, r.sourceFile = fileName →
      r.layerName ∈ ([d1, d2] : List (LayerDefinition α)).map LayerDefinition.layerName :=
    fun r hr hsf => absurd hsf (hfile r hr)
  have e1 : processLayer maxCells G d1 σ = pointRun1 d1 σ :=
    processLayer_point_run1 maxCells G d1 σ hk1 hmm1 hfresh1
  have hf2' : FreshFor (pointRun1 d1 σ) d2 := by
    refine fresh_after_pointRun1 d1 d2 σ (Ne.symm hn) (Ne.symm ht) ?_ hfresh2
    intro m' hm'
    rw [hmm2] at hm'
    have hm'' : m2 = m' := by simpa using hm'
    subst hm''
    exact Ne.symm hmt21
  have e2 : processLayer maxCells G d2 (pointRun1 d1 σ) =
      lineRun1 d2 m2 (toLineItems maxCells G d2.features) (pointRun1 d1 σ) :=
    processLayer_line_run1 maxCells G d2 m2 _ hk2 hmm2 hmt2 hf2'
  have sP1 : SettledPoint d1
      (lineRun1 d2 m2 (toLineItems maxCells G d2.features) (pointRun1 d1 σ)) :=
    settledPoint_after_lineRun1 d1 d2 m2 (toLineItems maxCells G d2.features) _
      hn ht hmt21 (settledPoint_establish d1 σ hfresh1)
  have sL1 : SettledLine d2 m2 (toLineItems maxCells G d2.features)
      (lineRun1 d2 m2 (toLineItems maxCells G d2.features) (pointRun1 d1 σ)) :=
    settledLine_establish d2 m2 (toLineItems maxCells G d2.features)
      (pointRun1 d1 σ) hmm2 hf2'
  have hrun1 : ingestFile maxCells G fileName baseName features σ =
      lineRun1 d2 m2 (toLineItems maxCells G d2.features) (pointRun1 d1 σ) := by
    rw [ingestFile_eq_foldl maxCells G fileName baseName features [d1, d2] σ hdefs hne
      hstale1]
    simp only [List.foldl_cons, List.foldl_nil]
    rw [e1, e2]
  have hstale2 : ∀ r ∈ (lineRun1 d2 m2 (toLineItems maxCells G d2.features)
      (pointRun1 d1 σ)).layerRegistry, r.sourceFile = fileName →
      r.layerName ∈ ([d1, d2] : List (LayerDefinition α)).map LayerDefinition.layerName := by
    intro r hr hsf
    rcases List.mem_append.mp hr with h | h
    · rcases List.mem_append.mp h with h2 | h2
      · exact absurd hsf (hfile r h2)
      · have : r = regRowOf d1 := by simpa using h2
        rw [this]
        simp [regRowOf]
    · have : r = regRowOf d2 := by simpa using h
      rw [this]
      simp [regRowOf]
  rw [hrun1, ingestFile_eq_foldl maxCells G fileName baseName features [d1, d2] _ hdefs
    hne hstale2]
  simp only [List.foldl_cons, List.foldl_nil]
  rw [processLayer_fixpoint_point maxCells G d1 _ hk1 hmm1 sP1]
  exact processLayer_fixpoint_line maxCells G d2 _ m2
    (toLineItems maxCells G d2.features) hk2 hmm2 hmt2 rfl sL1

theorem c5_two_pt_pg {α : Type} (maxCells : ℕ∞) (G : GeomOracle α)
    (fileName baseName : String) (features : List (Feat α)) (σ : Store α)
    (d1 d2 : LayerDefinition α) (m2 : String)
    (hdefs : layerDefsOf fileName baseName features = [d1, d2])
    (hk1 : d1.geometryType = GeometryKind.point) (hmm1 : d1.meshMapTable = none)
    (hk2 : d2.geometryType = GeometryKind.polygon) (hmm2 : d2.meshMapTable = some m2)
    (hmt2 : m2 ≠ d2.tableName)
    (hn : d2.layerName ≠ d1.layerName)
    (ht : d2.tableName ≠ d1.tableName)
    (hmt21 : m2 ≠ d1.tableName)
    (hfresh1 : FreshFor σ d1) (hfresh2 : FreshFor σ d2)
    (hfile : ∀ r ∈ σ.layerRegistry, r.sourceFile ≠ fileName) :
    ingestFile maxCells G fileName baseName features
      (ingestFile maxCells G fileName baseName features σ) =
    ingestFile maxCells G fileName baseName features σ := by
  have hne : ([d1, d2] : List (LayerDefinition α)).isEmpty = false := rfl
  have hstale1 : ∀ r ∈ σ.layerRegistry, r.sourceFile = fileName →
      r.layerName ∈ ([d1, d2] : List (LayerDefinition α)).map LayerDefinition.layerName :=
    fun r hr hsf => absurd hsf (hfile r hr)
  have e1 : processLayer maxCells G d1 σ = pointRun1 d1 σ :=
    processLayer_point_run1 maxCells G d1 σ hk1 hmm1 hfresh1
  have hf2' : FreshFor (pointRun1 d1 σ) d2 := by
    refine fresh_after_pointRun1 d1 d2 σ (Ne.symm hn) (Ne.symm ht) ?_ hfresh2
    intro m' hm'
    rw [hmm2] at hm'
    have hm'' : m2 = m' := by simpa using hm'
    subst hm''
    exact Ne.symm hmt21
  have e2 : processLayer maxCells G d2 (pointRun1 d1 σ) =
      polyRun1 d2 m2 (toPolygonItems maxCells G d2.features) (pointRun1 d1 σ) :=
    processLayer_poly_run1 maxCells G d2 m2 _ hk2 hmm2 hmt2 hf2'
  have sP1 : SettledPoint d1
      (polyRun1 d2 m2 (toPolygonItems maxCells G d2.features) (pointRun1 d1 σ)) :=
    settledPoint_after_polyRun1 d1 d2 m2 (toPolygonItems maxCells G d2.features) _
      hn ht hmt21 (settledPoint_establish d1 σ hfresh1)
  have sG1 : SettledPoly d2 m2 (toPolygonItems maxCells G d2.features)
      (polyRun1 d2 m2 (toPolygonItems maxCells G d2.features) (pointRun1 d1 σ)) :=
    settledPoly_establish d2 m2 (toPolygonItems maxCells G d2.features)
      (pointRun1 d1 σ) hmm2 hf2'
  have hrun1 : ingestFile maxCells G fileName baseName features σ =
      polyRun1 d2 m2 (toPolygonItems maxCells G d2.features) (pointRun1 d1 σ) := by
    rw [ingestFile_eq_foldl maxCells G fileName baseName features [d1, d2] σ hdefs hne
      hstale1]
    simp only [List.foldl_cons, List.foldl_nil]
    rw [e1, e2]
  have hstale2 : ∀ r ∈ (polyRun1 d2 m2 (toPolygonItems maxCells G d2.features)
      (pointRun1 d1 σ)).layerRegistry, r.sourceFile = fileName →
      r.layerName ∈ ([d1, d2] : List (LayerDefinition α)).map LayerDefinition.layerName := by
    intro r hr hsf
    rcases List.mem_append.mp hr with h | h
    · rcases List.mem_append.mp h with h2 | h2
      · exact absurd hsf (hfile r h2)
      · have : r = regRowOf d1 := by simpa using h2
        rw [this]
        simp [regRowOf]
    · have : r = regRowOf d2 := by simpa using h
      rw [this]
      simp [regRowOf]
  rw [hrun1, ingestFile_eq_foldl maxCells G fileName baseName features [d1, d2] _ hdefs
    hne hstale2]
  simp only [List.foldl_cons, List.foldl_nil]
  rw [processLayer_fixpoint_point maxCells G d1 _ hk1 hmm1 sP1]
  exact processLayer_fixpoint_poly maxCells G d2 _ m2
    (toPolygonItems maxCells G d2.features) hk2 hmm2 hmt2 rfl sG1

theorem c5_two_ln_pg {α : Type} (maxCells : ℕ∞) (G : GeomOracle α)
    (fileName baseName : String) (features : List (Feat α)) (σ : Store α)
    (d1 d2 : LayerDefinition α) (m1 m2 : String)
    (hdefs : layerDefsOf fileName baseName features = [d1, d2])
    (hk1 : d1.geometryType = GeometryKind.line) (hmm1 : d1.meshMapTable = some m1)
    (hmt1 : m1 ≠ d1.tableName)
    (hk2 : d2.geometryType = GeometryKind.polygon) (hmm2 : d2.meshMapTable = some m2)
    (hmt2 : m2 ≠ d2.tableName)
    (hn : d2.layerName ≠ d1.layerName)
    (ht : d2.tableName ≠ d1.tableName)
    (htm1 : d2.tableName ≠ m1)
    (hm2t1 : m2 ≠ d1.tableName)
    (hm2m1 : m2 ≠ m1)
    (hfresh1 : FreshFor σ d1) (hfresh2 : FreshFor σ d2)
    (hfile : ∀ r ∈ σ.layerRegistry, r.sourceFile ≠ fileName) :
    ingestFile maxCells G fileName baseName features
      (ingestFile maxCells G fileName baseName features σ) =
    ingestFile maxCells G fileName baseName features σ := by
  have hne : ([d1, d2] : List (LayerDefinition α)).isEmpty = false := rfl
  have hstale1 : ∀ r ∈ σ.layerRegistry, r.sourceFile = fileName →
      r.layerName ∈ ([d1, d2] : List (LayerDefinition α)).map LayerDefinition.layerName :=
    fun r hr hsf => absurd hsf (hfile r hr)
  have e1 : processLayer maxCells G d1 σ =
      lineRun1 d1 m1 (toLineItems maxCells G d1.features) σ :=
    processLayer_line_run1 maxCells G d1 m1 σ hk1 hmm1 hmt1 hfresh1
  have hf2' : FreshFor (lineRun1 d1 m1 (toLineItems maxCells G d1.features) σ) d2 := by
    refine fresh_after_lineRun1 d1 d2 m1 (toLineItems maxCells G d1.features) σ
      (Ne.symm hn) (Ne.symm ht) ?_ (Ne.symm htm1) ?_ hfresh2
    · intro m' hm'
      rw [hmm2] at hm'
      have hm'' : m2 = m' := by simpa using hm'
      subst hm''
      exact Ne.symm hm2t1
    · intro m' hm'
      rw [hmm2] at hm'
      have hm'' : m2 = m' := by simpa using hm'
      subst hm''
      exact Ne.symm hm2m1
  have e2 : processLayer maxCells G d2
      (lineRun1 d1 m1 (toLineItems maxCells G d1.features) σ) =
      polyRun1 d2 m2 (toPolygonItems maxCells G d2.features)
        (lineRun1 d1 m1 (toLineItems maxCells G d1.features) σ) :=
    processLayer_poly_run1 maxCells G d2 m2 _ hk2 hmm2 hmt2 hf2'
  have sL1 : SettledLine d1 m1 (toLineItems maxCells G d1.features)
      (polyRun1 d2 m2 (toPolygonItems maxCells G d2.features)
        (lineRun1 d1 m1 (toLineItems maxCells G d1.features) σ)) :=
    settledLine_after_polyRun1 d1 d2 m1 m2 (toLineItems maxCells G d1.features)
      (toPolygonItems maxCells G d2.features) _ hn ht htm1 hm2t1 hm2m1
      (settledLine_establish d1 m1 (toLineItems maxCells G d1.features) σ hmm1 hfresh1)
  have sG1 : SettledPoly d2 m2 (toPolygonItems maxCells G d2.features)
      (polyRun1 d2 m2 (toPolygonItems maxCells G d2.features)
        (lineRun1 d1 m1 (toLineItems maxCells G d1.features) σ)) :=
    settledPoly_establish d2 m2 (toPolygonItems maxCells G d2.features)
      (lineRun1 d1 m1 (toLineItems maxCells G d1.features) σ) hmm2 hf2'
  have hrun1 : ingestFile maxCells G fileName baseName features σ =
      polyRun1 d2 m2 (toPolygonItems maxCells G d2.features)
        (lineRun1 d1 m1 (toLineItems maxCells G d1.features) σ) := by
    rw [ingestFile_eq_foldl maxCells G fileName baseName features [d1, d2] σ hdefs hne
      hstale1]
    simp only [List.foldl_cons, List.foldl_nil]
    rw [e1, e2]
  have hstale2 : ∀ r ∈ (polyRun1 d2 m2 (toPolygonItems maxCells G d2.features)
      (lineRun1 d1 m1 (toLineItems maxCells G d1.features) σ)).layerRegistry,
      r.sourceFile = fileName →
      r.layerName ∈ ([d1, d2] : List (LayerDefinition α)).map LayerDefinition.layerName := by
    intro r hr hsf
    rcases List.mem_append.mp hr with h | h
    · rcases List.mem_append.mp h with h2 | h2
      · exact absurd hsf (hfile r h2)
      · have : r = regRowOf d1 := by simpa using h2
        rw [this]
        simp [regRowOf]
    · have : r = regRowOf d2 := by simpa using h
      rw [this]
      simp [regRowOf]
  rw [hrun1, ingestFile_eq_foldl maxCells G fileName baseName features [d1, d2] _ hdefs
    hne hstale2]
  simp only [List.foldl_cons, List.foldl_nil]
  rw [processLayer_fixpoint_line maxCells G d1 _ m1
    (toLineItems maxCells G d1.features) hk1 hmm1 hmt1 rfl sL1]
  exact processLayer_fixpoint_poly maxCells G d2 _ m2
    (toPolygonItems maxCells G d2.features) hk2 hmm2 hmt2 rfl sG1

theorem c5_three_layers {α : Type} (maxCells : ℕ∞) (G : GeomOracle α)
    (fileName baseName : String) (features : List (Feat α)) (σ : Store α)
    (d1 d2 d3 : LayerDefinition α) (m2 m3 : String)
    (hdefs : layerDefsOf fileName baseName features = [d1, d2, d3])
    (hk1 : d1.geometryType = GeometryKind.point) (hmm1 : d1.meshMapTable = none)
    (hk2 : d2.geometryType = GeometryKind.line) (hmm2 : d2.meshMapTable = some m2)
    (hmt2 : m2 ≠ d2.tableName)
    (hk3 : d3.geometryType = GeometryKind.polygon) (hmm3 : d3.meshMapTable = some m3)
    (hmt3 : m3 ≠ d3.tableName)
    (hn21 : d2.layerName ≠ d1.layerName)
    (ht21 : d2.tableName ≠ d1.tableName)
    (hm2t1 : m2 ≠ d1.tableName)
    (hn31 : d3.layerName ≠ d1.layerName)
    (ht31 : d3.tableName ≠ d1.tableName)
    (hm3t1 : m3 ≠ d1.tableName)
    (hn32 : d3.layerName ≠ d2.layerName)
    (ht32 : d3.tableName ≠ d2.tableName)
    (ht3m2 : d3.tableName ≠ m2)
    (hm3t2 : m3 ≠ d2.tableName)
    (hm3m2 : m3 ≠ m2)
    (hfresh1 : FreshFor σ d1) (hfresh2 : FreshFor σ d2) (hfresh3 : FreshFor σ d3)
    (hfile : ∀ r ∈ σ.layerRegistry, r.sourceFile ≠ fileName) :
    ingestFile maxCells G fileName baseName features
      (ingestFile maxCells G fileName baseName features σ) =
    ingestFile maxCells G fileName baseName features σ := by
  have hne : ([d1, d2, d3] : List (LayerDefinition α)).isEmpty = false := rfl
  have hstale1 : ∀ r ∈ σ.layerRegistry, r.sourceFile = fileName →
      r.layerName ∈ ([d1, d2, d3] : List (LayerDefinition α)).map
        LayerDefinition.layerName :=
    fun r hr hsf => absurd hsf (hfile r hr)
  have e1 : processLayer maxCells G d1 σ = pointRun1 d1 σ :=
    processLayer_point_run1 maxCells G d1 σ hk1 hmm1 hfresh1
  have hf2' : FreshFor (pointRun1 d1 σ) d2 := by
    refine fresh_after_pointRun1 d1 d2 σ (Ne.symm hn21) (Ne.symm ht21) ?_ hfresh2
    intro m' hm'
    rw [hmm2] at hm'
    have hm'' : m2 = m' := by simpa using hm'
    subst hm''
    exact Ne.symm hm2t1
  have hf3p : FreshFor (pointRun1 d1 σ) d3 := by
    refine fresh_after_pointRun1 d1 d3 σ (Ne.symm hn31) (Ne.symm ht31) ?_ hfresh3
    intro m' hm'
    rw [hmm3] at hm'
    have hm'' : m3 = m' := by simpa using hm'
    subst hm''
    exact Ne.symm hm3t1
  have e2 : processLayer maxCells G d2 (pointRun1 d1 σ) =
      lineRun1 d2 m2 (toLineItems maxCells G d2.features) (pointRun1 d1 σ) :=
    processLayer_line_run1 maxCells G d2 m2 _ hk2 hmm2 hmt2 hf2'
  have hf3' : FreshFor (lineRun1 d2 m2 (toLineItems maxCells G d2.features)
      (pointRun1 d1 σ)) d3 := by
    refine fresh_after_lineRun1 d2 d3 m2 (toLineItems maxCells G d2.features) _
      (Ne.symm hn32) (Ne.symm ht32) ?_ (Ne.symm ht3m2) ?_ hf3p
    · intro m' hm'
      rw [hmm3] at hm'
      have hm'' : m3 = m' := by simpa using hm'
      subst hm''
      exact Ne.symm hm3t2
    · intro m' hm'
      rw [hmm3] at hm'
      have hm'' : m3 = m' := by simpa using hm'
      subst hm''
      exact Ne.symm hm3m2
  have e3 : processLayer maxCells G d3
      (lineRun1 d2 m2 (toLineItems maxCells G d2.features) (pointRun1 d1 σ)) =
      polyRun1 d3 m3 (toPolygonItems maxCells G d3.features)
        (lineRun1 d2 m2 (toLineItems maxCells G d2.features) (pointRun1 d1 σ)) :=
    processLayer_poly_run1 maxCells G d3 m3 _ hk3 hmm3 hmt3 hf3'
  have sP1 : SettledPoint d1
      (polyRun1 d3 m3 (toPolygonItems maxCells G d3.features)
        (lineRun1 d2 m2 (toLineItems maxCells G d2.features) (pointRun1 d1 σ))) :=
    settledPoint_after_polyRun1 d1 d3 m3 (toPolygonItems maxCells G d3.features) _
      hn31 ht31 hm3t1
      (settledPoint_after_lineRun1 d1 d2 m2 (toLineItems maxCells G d2.features) _
        hn21 ht21 hm2t1 (settledPoint_establish d1 σ hfresh1))
  have sL1 : SettledLine d2 m2 (toLineItems maxCells G d2.features)
      (polyRun1 d3 m3 (toPolygonItems maxCells G d3.features)
        (lineRun1 d2 m2 (toLineItems maxCells G d2.features) (pointRun1 d1 σ))) :=
    settledLine_after_polyRun1 d2 d3 m2 m3 (toLineItems maxCells G d2.features)
      (toPolygonItems maxCells G d3.features) _ hn32 ht32 ht3m2 hm3t2 hm3m2
      (settledLine_establish d2 m2 (toLineItems maxCells G d2.features)
        (pointRun1 d1 σ) hmm2 hf2')
  have sG1 : SettledPoly d3 m3 (toPolygonItems maxCells G d3.features)
      (polyRun1 d3 m3 (toPolygonItems maxCells G d3.features)
        (lineRun1 d2 m2 (toLineItems maxCells G d2.features) (pointRun1 d1 σ))) :=
    settledPoly_establish d3 m3 (toPolygonItems maxCells G d3.features)
      (lineRun1 d2 m2 (toLineItems maxCells G d2.features) (pointRun1 d1 σ)) hmm3 hf3'
  have hrun1 : ingestFile maxCells G fileName baseName features σ =
      polyRun1 d3 m3 (toPolygonItems maxCells G d3.features)
        (lineRun1 d2 m2 (toLineItems maxCells G d2.features) (pointRun1 d1 σ)) := by
    rw [ingestFile_eq_foldl maxCells G fileName baseName features [d1, d2, d3] σ hdefs
      hne hstale1]
    simp only [List.foldl_cons, List.foldl_nil]
    rw [e1, e2, e3]
  have hstale2 : ∀ r ∈ (polyRun1 d3 m3 (toPolygonItems maxCells G d3.features)
      (lineRun1 d2 m2 (toLineItems maxCells G d2.features)
        (pointRun1 d1 σ))).layerRegistry, r.sourceFile = fileName →
      r.layerName ∈ ([d1, d2, d3] : List (LayerDefinition α)).map
        LayerDefinition.layerName := by
    intro r hr hsf
    rcases List.mem_append.mp hr with h | h
    · rcases List.mem_append.mp h with h2 | h2
      · rcases List.mem_append.mp h2 with h3 | h3
        · exact absurd hsf (hfile r h3)
        · have : r = regRowOf d1 := by simpa using h3
          rw [this]
          simp [regRowOf]
      · have : r = regRowOf d2 := by simpa using h2
        rw [this]
        simp [regRowOf]
    · have : r = regRowOf d3 := by simpa using h
      rw [this]
      simp [regRowOf]
  rw [hrun1, ingestFile_eq_foldl maxCells G fileName baseName features [d1, d2, d3] _
    hdefs hne hstale2]
  simp only [List.foldl_cons, List.foldl_nil]
  rw [processLayer_fixpoint_point maxCells G d1 _ hk1 hmm1 sP1]
  rw [processLayer_fixpoint_line maxCells G d2 _ m2
    (toLineItems maxCells G d2.features) hk2 hmm2 hmt2 rfl sL1]
  exact processLayer_fixpoint_poly maxCells G d3 _ m3
    (toPolygonItems maxCells G d3.features) hk3 hmm3 hmt3 rfl sG1

theorem append_suffix_ne_append (b s1 t s2 : String) (h : s1 ++ t ≠ s2) :
    (b ++ s1) ++ t ≠ b ++ s2 := by
  rw [str_append_assoc]
  exact append_right_ne b (s1 ++ t) s2 h

theorem append_ne_append_suffix (b s1 s2 t : String) (h : s1 ≠ s2 ++ t) :
    b ++ s1 ≠ (b ++ s2) ++ t := by
  rw [str_append_assoc]
  exact append_right_ne b s1 (s2 ++ t) h

theorem append_suffix_ne_append_suffix (b s1 t1 s2 t2 : String)
    (h : s1 ++ t1 ≠ s2 ++ t2) : (b ++ s1) ++ t1 ≠ (b ++ s2) ++ t2 := by
  rw [str_append_assoc, str_append_assoc]
  exact append_right_ne b (s1 ++ t1) (s2 ++ t2) h

/-- C5: re-ingesting an unchanged file is idempotent over a store that is
fresh for every layer the file produces (no generic rows, registry rows,
dynamic tables or `layer_presence` keys attributed to any of those layers,
and no registry rows attributed to the file) -- all true of an empty
database.  This covers every kind combination the file can produce,
including multi-kind files that yield several layers.  The second
`ingestFile` leaves every layer table, the generic tables, the registry
and the whole mesh-presence index exactly as the first left them. -/
theorem c5_reingest_idempotent_fresh {α : Type} (maxCells : ℕ∞) (G : GeomOracle α)
    (fileName baseName : String) (features : List (Feat α)) (σ : Store α)
    (hfresh : ∀ d ∈ layerDefsOf fileName baseName features, FreshFor σ d)
    (hfile : ∀ r ∈ σ.layerRegistry, r.sourceFile ≠ fileName) :
    ingestFile maxCells G fileName baseName features
      (ingestFile maxCells G fileName baseName features σ) =
    ingestFile maxCells G fileName baseName features σ := by
  cases hp : (groupedFeatures features GeometryKind.point).isEmpty with
  | false =>
    cases hl : (groupedFeatures features GeometryKind.line).isEmpty with
    | false =>
      cases hg : (groupedFeatures features GeometryKind.polygon).isEmpty with
      | false =>
        have hdefs : layerDefsOf fileName baseName features =
            [⟨baseName ++ "_" ++ "points", baseName ++ "_" ++ "points",
              GeometryKind.point, fileName, none,
              groupedFeatures features GeometryKind.point⟩,
             ⟨baseName ++ "_" ++ "lines", baseName ++ "_" ++ "lines",
              GeometryKind.line, fileName,
              some (baseName ++ "_" ++ "lines" ++ "_mesh_map"),
              groupedFeatures features GeometryKind.line⟩,
             ⟨baseName ++ "_" ++ "polygons", baseName ++ "_" ++ "polygons",
              GeometryKind.polygon, fileName,
              some (baseName ++ "_" ++ "polygons" ++ "_mesh_map"),
              groupedFeatures features GeometryKind.polygon⟩] := by
          simp [layerDefsOf, hp, hl, hg, suffixFor]
        exact c5_three_layers maxCells G fileName baseName features σ _ _ _ _ _ hdefs
          rfl rfl rfl rfl
          (append_right_ne_self _ "_mesh_map" (by decide))
          rfl rfl
          (append_right_ne_self _ "_mesh_map" (by decide))
          (append_right_ne _ "lines" "points" (by decide))
          (append_right_ne _ "lines" "points" (by decide))
          (append_suffix_ne_append _ "lines" "_mesh_map" "points" (by decide))
          (append_right_ne _ "polygons" "points" (by decide))
          (append_right_ne _ "polygons" "points" (by decide))
          (append_suffix_ne_append _ "polygons" "_mesh_map" "points" (by decide))
          (append_right_ne _ "polygons" "lines" (by decide))
          (append_right_ne _ "polygons" "lines" (by decide))
          (append_ne_append_suffix _ "polygons" "lines" "_mesh_map" (by decide))
          (append_suffix_ne_append _ "polygons" "_mesh_map" "lines" (by decide))
          (append_suffix_ne_append_suffix _ "polygons" "_mesh_map" "lines" "_mesh_map"
            (by decide))
          (hfresh _ (by rw [hdefs]; simp)) (hfresh _ (by rw [hdefs]; simp))
          (hfresh _ (by rw [hdefs]; simp)) hfile
      | true =>
        have hdefs : layerDefsOf fileName baseName features =
            [⟨baseName ++ "_" ++ "points", baseName ++ "_" ++ "points",
              GeometryKind.point, fileName, none,
              groupedFeatures features GeometryKind.point⟩,
             ⟨baseName ++ "_" ++ "lines", baseName ++ "_" ++ "lines",
              GeometryKind.line, fileName,
              some (baseName ++ "_" ++ "lines" ++ "_mesh_map"),
              groupedFeatures features GeometryKind.line⟩] := by
          simp [layerDefsOf, hp, hl, hg, suffixFor]
        exact c5_two_pt_ln maxCells G fileName baseName features σ _ _ _ hdefs
          rfl rfl rfl rfl
          (append_right_ne_self _ "_mesh_map" (by decide))
          (append_right_ne _ "lines" "points" (by decide))
          (append_right_ne _ "lines" "points" (by decide))
          (append_suffix_ne_append _ "lines" "_mesh_map" "points" (by decide))
          (hfresh _ (by rw [hdefs]; simp)) (hfresh _ (by rw [hdefs]; simp)) hfile
    | true =>
      cases hg : (groupedFeatures features GeometryKind.polygon).isEmpty with
      | false =>
        have hdefs : layerDefsOf fileName baseName features =
            [⟨baseName ++ "_" ++ "points", baseName ++ "_" ++ "points",
              GeometryKind.point, fileName, none,
              groupedFeatures features GeometryKind.point⟩,
             ⟨baseName ++ "_" ++ "polygons", baseName ++ "_" ++ "polygons",
              GeometryKind.polygon, fileName,
              some (baseName ++ "_" ++ "polygons" ++ "_mesh_map"),
              groupedFeatures features GeometryKind.polygon⟩] := by
          simp [layerDefsOf, hp, hl, hg, suffixFor]
        exact c5_two_pt_pg maxCells G fileName baseName features σ _ _ _ hdefs
          rfl rfl rfl rfl
          (append_right_ne_self _ "_mesh_map" (by decide))
          (append_right_ne _ "polygons" "points" (by decide))
          (append_right_ne _ "polygons" "points" (by decide))
          (append_suffix_ne_append _ "polygons" "_mesh_map" "points" (by decide))
          (hfresh _ (by rw [hdefs]; simp)) (hfresh _ (by rw [hdefs]; simp)) hfile
      | true =>
        have hdefs : layerDefsOf fileName baseName features =
            [⟨baseName, baseName, GeometryKind.point, fileName, none,
              groupedFeatures features GeometryKind.point⟩] := by
          simp [layerDefsOf, hp, hl, hg, suffixFor]
        exact c5_single_layer maxCells G fileName baseName features σ _ hdefs
          trivial (hfresh _ (by rw [hdefs]; simp)) hfile
  | true =>
    cases hl : (groupedFeatures features GeometryKind.line).isEmpty with
    | false =>
      cases hg : (groupedFeatures features GeometryKind.polygon).isEmpty with
      | false =>
        have hdefs : layerDefsOf fileName baseName features =
            [⟨baseName ++ "_" ++ "lines", baseName ++ "_" ++ "lines",
              GeometryKind.line, fileName,
              some (baseName ++ "_" ++ "lines" ++ "_mesh_map"),
              groupedFeatures features GeometryKind.line⟩,
             ⟨baseName ++ "_" ++ "polygons", baseName ++ "_" ++ "polygons",
              GeometryKind.polygon, fileName,
              some (baseName ++ "_" ++ "polygons" ++ "_mesh_map"),
              groupedFeatures features GeometryKind.polygon⟩] := by
          simp [layerDefsOf, hp, hl, hg, suffixFor]
        exact c5_two_ln_pg maxCells G fileName baseName features σ _ _ _ _ hdefs
          rfl rfl
          (append_right_ne_self _ "_mesh_map" (by decide))
          rfl rfl
          (append_right_ne_self _ "_mesh_map" (by decide))
          (append_right_ne _ "polygons" "lines" (by decide))
          (append_right_ne _ "polygons" "lines" (by decide))
          (append_ne_append_suffix _ "polygons" "lines" "_mesh_map" (by decide))
          (append_suffix_ne_append _ "polygons" "_mesh_map" "lines" (by decide))
          (append_suffix_ne_append_suffix _ "polygons" "_mesh_map" "lines" "_mesh_map"
            (by decide))
          (hfresh _ (by rw [hdefs]; simp)) (hfresh _ (by rw [hdefs]; simp)) hfile
      | true =>
        have hdefs : layerDefsOf fileName baseName features =
            [⟨baseName, baseName, GeometryKind.line, fileName,
              some (baseName ++ "_mesh_map"),
              groupedFeatures features GeometryKind.line⟩] := by
          simp [layerDefsOf, hp, hl, hg, suffixFor]
        exact c5_single_layer maxCells G fileName baseName features σ _ hdefs
          (append_right_ne_self _ "_mesh_map" (by decide))
          (hfresh _ (by rw [hdefs]; simp)) hfile
    | true =>
      cases hg : (groupedFeatures features GeometryKind.polygon).isEmpty with
      | false =>
        have hdefs : layerDefsOf fileName baseName features =
            [⟨baseName, baseName, GeometryKind.polygon, fileName,
              some (baseName ++ "_mesh_map"),
              groupedFeatures features GeometryKind.polygon⟩] := by
          simp [layerDefsOf, hp, hl, hg, suffixFor]
        exact c5_single_layer maxCells G fileName baseName features σ _ hdefs
          (append_right_ne_self _ "_mesh_map" (by decide))
          (hfresh _ (by rw [hdefs]; simp)) hfile
      | true =>
        have hdefs : layerDefsOf fileName baseName features = [] := by
          simp [layerDefsOf, hp, hl, hg]
        have h0 : ∀ σ' : Store α,
            ingestFile maxCells G fileName baseName features σ' = σ' := by
          intro σ'
          unfold ingestFile
          rw [hdefs]
          rfl
        rw [h0, h0]

/-- Witness for the amended C5 at a concrete multi-kind input: the
two-feature file of the drift counterexample (one point layer, one line
layer) over the empty store is fresh for both layers, and re-ingesting it
is idempotent. -/
theorem c5_reingest_idempotent_fresh_witness :
    (∀ d ∈ layerDefsOf "base.geojson" "base" c5Feats,
      FreshFor (emptyStore : Store Unit) d) ∧
    (∀ r ∈ (emptyStore : Store Unit).layerRegistry, r.sourceFile ≠ "base.geojson") ∧
    ingestFile 1 (constOracle capBBox) "base.geojson" "base" c5Feats
        (ingestFile 1 (constOracle capBBox) "base.geojson" "base" c5Feats emptyStore) =
      ingestFile 1 (constOracle capBBox) "base.geojson" "base" c5Feats emptyStore :=
  ⟨by intro d _; unfold FreshFor; simp [emptyStore, lookupTable],
   by simp [emptyStore],
   c5_reingest_idempotent_fresh 1 (constOracle capBBox) "base.geojson" "base" c5Feats
      emptyStore (by intro d _; unfold FreshFor; simp [emptyStore, lookupTable])
      (by simp [emptyStore])⟩

theorem c4_piece_ratio_bounds_witness :
    0 ≤ (⟨"5239400011", (), 1000, 1⟩ : LineMeshPiece Unit).lengthRatio ∧
    (⟨"5239400011", (), 1000, 1⟩ : LineMeshPiece Unit).lengthRatio ≤ 1 :=
  (c4_piece_ratio_bounds ⊤ (constOracle ⟨139, 35, 139.001, 35.001⟩)
    (fun g m h => by cases h; norm_num) (fun g m h => by cases h; norm_num)).1
    () ⟨"5239400011", (), 1000, 1⟩ (by decide)

end MapAI
